import Mathlib

/-!
Verification development for the qinglong check-in scripts

Shallow embedding of the JavaScript sources under `src/` and theorems about
them.  The main subject is `src/56保活.js` (the 56IDC login script): its
Telegram truncation, its account parser, its captcha cleaning and its nested
retry driver (`loginWithRetry` inside the browser restart loop of `main`).

Conventions of the embedding
* A JavaScript string is the list of its UTF-16 code units (`JsStr`);
  `length`, `substring`, `split`, `trim` and a regular expression without the
  `u` flag all work on code units.
* Effectful code is a function from a state to an outcome, the list of
  observable events it emitted and the next state (`Js`).  A thrown value is
  an `Error` object, represented by its message.
* The collaborators (browser, page, OCR worker, random source) are arbitrary
  state transformers over an arbitrary world type `W` (`Env W`).
* A few punctuation marks of `src/56保活.js` are spelled in full-width form
  (lines 229, 236, 247, 255, 263); they are read as `,` and `.`.
-/

namespace Qinglong

/-! ## JavaScript strings -/

/-- A JavaScript string: its UTF-16 code units. -/
abbrev JsStr := List Nat

/-- UTF-16 code units of one Unicode scalar value. -/
def utf16Char (c : Char) : JsStr :=
  if c.toNat < 0x10000 then [c.toNat]
  else [0xD800 + (c.toNat - 0x10000) / 0x400, 0xDC00 + (c.toNat - 0x10000) % 0x400]

/-- UTF-16 code units of a list of characters. -/
def utf16List : List Char → JsStr
  | [] => []
  | c :: cs => utf16Char c ++ utf16List cs

/-- The JavaScript string denoted by a source literal. -/
def utf16 (s : String) : JsStr := utf16List s.toList

/-- Code units removed by `String.prototype.trim`: ECMAScript WhiteSpace and
LineTerminator. -/
def isJsWhitespace (c : Nat) : Bool :=
  c == 0x09 || c == 0x0A || c == 0x0B || c == 0x0C || c == 0x0D || c == 0x20 ||
  c == 0xA0 || c == 0x1680 || (0x2000 ≤ c && c ≤ 0x200A) || c == 0x2028 ||
  c == 0x2029 || c == 0x202F || c == 0x205F || c == 0x3000 || c == 0xFEFF

/-- `String.prototype.trimStart`. -/
def trimStart (s : JsStr) : JsStr := s.dropWhile isJsWhitespace

/-- `String.prototype.trimEnd`. -/
def trimEnd (s : JsStr) : JsStr := (s.reverse.dropWhile isJsWhitespace).reverse

/-- `String.prototype.trim`. -/
def trim (s : JsStr) : JsStr := trimEnd (trimStart s)

/-- `s.substring(0, n)` for a natural `n`. -/
def substring0 (s : JsStr) (n : Nat) : JsStr := s.take n

/-- The character class `[a-zA-Z0-9]` on a code unit. -/
def isAlnum (c : Nat) : Bool :=
  (0x61 ≤ c && c ≤ 0x7A) || (0x41 ≤ c && c ≤ 0x5A) || (0x30 ≤ c && c ≤ 0x39)

/-- `text.replace(/[^a-zA-Z0-9]/g, '')`: every code unit outside the class is
removed. -/
def stripNonAlnum (text : JsStr) : JsStr := text.filter isAlnum

/-- Line 108 of `src/56保活.js`:
`text.replace(/[^a-zA-Z0-9]/g, '').trim()`. -/
def cleanCaptcha (text : JsStr) : JsStr := trim (stripNonAlnum text)

/-! ## Telegram truncation (`sendTgNotification`, lines 51-52) -/

/-- `MAX_LENGTH` of `sendTgNotification`. -/
def MAX_LENGTH : Nat := 4096

/-- The literal appended to a cut message. -/
def truncationMarker : JsStr := utf16 "\n...日志过长..."

/-- Line 52: the `text` field of the payload. -/
def truncatedMessage (message : JsStr) : JsStr :=
  if message.length > MAX_LENGTH then substring0 message (MAX_LENGTH - 10) ++ truncationMarker
  else message

/-! ## Account parsing (`main`, lines 168-171) -/

/-- Scanning loop of `String.prototype.split` for a non-empty separator:
`skip` counts the code units of a matched separator still to be passed over,
`cur` is the piece collected since the last separator. -/
def splitGo (sep : JsStr) : JsStr → Nat → JsStr → List JsStr
  | [], _, cur => [cur]
  | _ :: cs, skip + 1, cur => splitGo sep cs skip cur
  | c :: cs, 0, cur =>
      if sep.isPrefixOf (c :: cs) then cur :: splitGo sep cs (sep.length - 1) []
      else splitGo sep cs 0 (cur ++ [c])

/-- `s.split(sep)` for a non-empty separator string: the pieces between the
leftmost non-overlapping occurrences of `sep`. -/
def split (s sep : JsStr) : List JsStr := splitGo sep s 0 []

/-- An account: `{ username, password }`. -/
structure Account where
  username : JsStr
  password : JsStr
deriving DecidableEq, Repr

/-- The arrow function of lines 168-171: a line with exactly two parts around
`'----'` gives an account with both parts trimmed, any other line gives
`null`. -/
def parseLine (line : JsStr) : Option Account :=
  match split line (utf16 "----") with
  | [p0, p1] => some { username := trim p0, password := trim p1 }
  | _ => none

/-- Lines 168-171:
`accountsStr.trim().split('\n').map(...).filter(Boolean)`. -/
def parseAccounts (accountsStr : JsStr) : List Account :=
  (split (trim accountsStr) (utf16 "\n")).filterMap parseLine

/-- The environment string written for a list of accounts: the lines
`identifier----secret` joined by a newline. -/
def accountLine (a : Account) : JsStr := a.username ++ utf16 "----" ++ a.password

/-- Lines joined by `'\n'`. -/
def joinLines : List JsStr → JsStr
  | [] => []
  | [l] => l
  | l :: ls => l ++ utf16 "\n" ++ joinLines ls

/-! ## Accounts written to and read from the environment string -/

/-- A plain field: no newline and no `'----'` inside. -/
def PlainField (s : JsStr) : Prop := 10 ∉ s ∧ ¬ utf16 "----" <:+: s

/-- An account that the parser reads back: both fields are plain and the
identifier does not end with `'-'`. -/
def GoodAccount (a : Account) : Prop :=
  PlainField a.username ∧ PlainField a.password ∧ a.username.getLast? ≠ some 45

/-- The account with both fields trimmed. -/
def trimAccount (a : Account) : Account := ⟨trim a.username, trim a.password⟩

/-- The accounts with the leading whitespace of the first identifier removed. -/
def trimFirst : List Account → List Account
  | [] => []
  | a :: rest => ⟨trimStart a.username, a.password⟩ :: rest

/-- The accounts with the trailing whitespace of the last secret removed. -/
def trimLast : List Account → List Account
  | [] => []
  | [a] => [⟨a.username, trimEnd a.password⟩]
  | a :: rest => a :: trimLast rest

/-! ## Effectful code: outcomes, events, collaborators -/

/-- The log statements of `src/56保活.js`, each with the values interpolated
into its template; `other` stands for a log statement with a fixed text,
named by its source line. -/
inductive LogMsg where
  /-- Line 96. -/
  | attemptStart (username : JsStr) (attempt maxRetries : Nat)
  /-- Line 111. -/
  | captchaEmpty (attempt : Nat)
  /-- Line 115. -/
  | captchaRead (attempt : Nat) (captchaCode : JsStr)
  /-- Line 119. -/
  | loginClicked
  /-- Line 123. -/
  | loginSucceeded (username : JsStr)
  /-- Line 129. -/
  | hostsFound (username : JsStr) (count : Nat)
  /-- Line 134. -/
  | attemptError (username : JsStr) (attempt : Nat) (message : JsStr)
  /-- Line 139. -/
  | backoff (waitTime : Nat)
  /-- Line 201. -/
  | cycleStart (username : JsStr) (restartCycle maxRestarts : Nat)
  /-- Line 218. -/
  | cycleError (username : JsStr) (restartCycle : Nat) (message : JsStr)
  /-- Line 226. -/
  | accountSucceeded (username : JsStr)
  /-- Line 229. -/
  | cycleFailed (username : JsStr) (restartCycle : Nat)
  /-- Line 252. -/
  | mainError (message : JsStr)
  /-- Line 65. -/
  | notifyError (message : JsStr)
  | other (line : Nat)
deriving DecidableEq, Repr

/-- Observable events of a run, in program order: console output and the
calls made to the collaborators. -/
inductive Event where
  | log (m : LogMsg)
  | goto (url : String)
  | waitForSelector (selector : String)
  | fill (selector : String) (value : JsStr)
  | locator (selector : String)
  | screenshot
  | recognize
  | click (selector : String)
  | evaluateAll (selector : String)
  | delay (ms : Nat)
  | launch
  | newContext
  | newPage
  | close
  | createWorker
  | setParameters
  | terminate
  | httpGet (url : String)
  | httpPost (text : JsStr)
deriving DecidableEq, Repr

/-- The result of running effectful code from a state: the completion
(`error e` is a thrown `Error` with message `e`), the events emitted and the
state reached. -/
structure Run (σ α : Type) where
  out : Except JsStr α
  events : List Event
  state : σ

/-- Effectful code over a state `σ`. -/
def Js (σ α : Type) : Type := σ → Run σ α

namespace Js

variable {σ α β : Type}

/-- Normal completion with a value. -/
def ret (a : α) : Js σ α := fun s => ⟨.ok a, [], s⟩

/-- The statement `throw new Error(message)`. -/
def raise (message : JsStr) : Js σ α := fun s => ⟨.error message, [], s⟩

/-- Sequencing: a throw of the first part skips the second. -/
def andThen (m : Js σ α) (f : α → Js σ β) : Js σ β := fun s =>
  match m s with
  | ⟨.error e, es, s1⟩ => ⟨.error e, es, s1⟩
  | ⟨.ok a, es, s1⟩ =>
      match f a s1 with
      | ⟨o, es2, s2⟩ => ⟨o, es ++ es2, s2⟩

/-- The statement `try { m } catch (error) { handler error }`. -/
def tryCatch (m : Js σ α) (handler : JsStr → Js σ α) : Js σ α := fun s =>
  match m s with
  | ⟨.ok a, es, s1⟩ => ⟨.ok a, es, s1⟩
  | ⟨.error e, es, s1⟩ =>
      match handler e s1 with
      | ⟨o, es2, s2⟩ => ⟨o, es ++ es2, s2⟩

/-- The statement `try { m } finally { fin }`: `fin` runs on every
completion of `m`; a throw of `fin` replaces the completion of `m`. -/
def tryFinally (m : Js σ α) (fin : Js σ Unit) : Js σ α := fun s =>
  match m s with
  | ⟨o, es, s1⟩ =>
      match fin s1 with
      | ⟨.ok _, es2, s2⟩ => ⟨o, es ++ es2, s2⟩
      | ⟨.error e, es2, s2⟩ => ⟨.error e, es ++ es2, s2⟩

/-- Runs `m` and hands its completion over as a value. -/
def attempt (m : Js σ α) : Js σ (Except JsStr α) := fun s =>
  match m s with
  | ⟨o, es, s1⟩ => ⟨.ok o, es, s1⟩

/-- Emits one event. -/
def emit (e : Event) : Js σ Unit := fun s => ⟨.ok (), [e], s⟩

end Js

instance {σ : Type} : Monad (Js σ) where
  pure := Js.ret
  bind := Js.andThen

/-- How a loop body ends: it runs to its end, executes `continue`, or
executes `return v`. -/
inductive Flow (ρ : Type) where
  | next
  | continue_
  | return_ (v : ρ)

/-- The collaborators of the 56IDC script over a world `W`: every call may
change the world and may throw. -/
structure Env (W : Type) where
  /-- `page.goto(url, ...)`. -/
  goto : String → W → Except JsStr Unit × W
  /-- `page.waitForSelector(selector, ...)`. -/
  waitForSelector : String → W → Except JsStr Unit × W
  /-- `page.fill(selector, value)`. -/
  fill : String → JsStr → W → Except JsStr Unit × W
  /-- `page.locator(selector)`; the value tells whether the result is truthy. -/
  locator : String → W → Except JsStr Bool × W
  /-- `captchaElement.screenshot()`: the image bytes. -/
  screenshot : W → Except JsStr (List Nat) × W
  /-- `worker.recognize(imageBuffer)`: the field `data.text`. -/
  recognize : List Nat → W → Except JsStr JsStr × W
  /-- `page.locator(selector).click(...)`. -/
  click : String → W → Except JsStr Unit × W
  /-- `page.locator(selector).evaluateAll(...)`: the trimmed inner texts. -/
  evaluateAll : String → W → Except JsStr (List JsStr) × W
  /-- Source of `Math.random()`; `randomBelow n` stands for
  `Math.floor(Math.random() * n)` and is reduced modulo `n`. -/
  randomBelow : Nat → W → Nat × W
  /-- `chromium.launch(...)`. -/
  launch : W → Except JsStr Unit × W
  /-- `browser.newContext()`. -/
  newContext : W → Except JsStr Unit × W
  /-- `context.newPage()`. -/
  newPage : W → Except JsStr Unit × W
  /-- `browser.close()`. -/
  close : W → Except JsStr Unit × W
  /-- `Tesseract.createWorker(...)`. -/
  createWorker : W → Except JsStr Unit × W
  /-- `worker.setParameters(...)`. -/
  setParameters : W → Except JsStr Unit × W
  /-- `worker.terminate()`. -/
  terminate : W → Except JsStr Unit × W
  /-- `axios.get('http://ip-api.com/json')`: `countryCode` and `query` of the
  response data. -/
  ipLookup : W → Except JsStr (JsStr × JsStr) × W
  /-- `axios.post(url, payload)` of the Telegram notification. -/
  httpPost : JsStr → W → Except JsStr Unit × W
  /-- `process.env[name]`. -/
  getenv : String → W → Option JsStr

/-- Program state: the world of the collaborators and the global
`notificationSummary`. -/
structure St (W : Type) where
  world : W
  notificationSummary : JsStr

variable {W : Type}

/-- One call to a collaborator: the event is recorded, the world advances. -/
def call {α : Type} (e : Event) (op : W → Except JsStr α × W) : Js (St W) α := fun s =>
  match op s.world with
  | (o, w) => ⟨o, [e], { s with world := w }⟩

/-- The function `delay(ms)` awaited; it never throws. -/
def delay (ms : Nat) : Js (St W) Unit := Js.emit (.delay ms)

/-- The function `log(message, level)`. -/
def log (m : LogMsg) : Js (St W) Unit := Js.emit (.log m)

/-- `Math.floor(Math.random() * n)`. -/
def randomInt (env : Env W) (n : Nat) : Js (St W) Nat := fun s =>
  match env.randomBelow n s.world with
  | (r, w) => ⟨.ok (r % n), [], { s with world := w }⟩

/-- `notificationSummary += text`. -/
def appendSummary (text : JsStr) : Js (St W) Unit := fun s =>
  ⟨.ok (), [], { s with notificationSummary := s.notificationSummary ++ text }⟩

/-! ## `loginWithRetry` (lines 93-144) -/

/-- The value returned by `loginWithRetry`: `{ success, services }`. -/
structure LoginResult where
  success : Bool
  services : List JsStr
deriving DecidableEq, Repr

def loginUrl : String := "https://56idc.net/login"
def dashboardSelector : String := "h1:has-text(\"My Dashboard\")"
def servicesSelector : String :=
  "//div[@menuitemname='Active Products/Services']//span[contains(@class, 'text-domain')]"

/-- Lines 96-108: open the login page, fill identifier and secret, capture
the captcha, run OCR and clean the text. -/
def readCaptcha (env : Env W) (username password : JsStr) (attempt maxRetries : Nat) :
    Js (St W) JsStr := do
  log (.attemptStart username attempt maxRetries)
  call (.goto loginUrl) (env.goto loginUrl)
  call (.waitForSelector "#inputEmail") (env.waitForSelector "#inputEmail")
  call (.fill "#inputEmail" username) (env.fill "#inputEmail" username)
  call (.fill "#inputPassword" password) (env.fill "#inputPassword" password)
  let captchaElement ← call (.locator "#inputCaptchaImage") (env.locator "#inputCaptchaImage")
  if !captchaElement then Js.raise (utf16 "未能找到验证码图片元素。")
  let imageBuffer ← call .screenshot env.screenshot
  let text ← call .recognize (env.recognize imageBuffer)
  pure (cleanCaptcha text)

/-- Lines 115-131: submit the form with a non-empty captcha code, wait for the
dashboard heading, scrape the host names and return. -/
def submitLogin (env : Env W) (username : JsStr) (attempt : Nat) (captchaCode : JsStr) :
    Js (St W) (Flow LoginResult) := do
  log (.captchaRead attempt captchaCode)
  call (.fill "#inputCaptcha" captchaCode) (env.fill "#inputCaptcha" captchaCode)
  call (.click "#login") (env.click "#login")
  log .loginClicked
  call (.waitForSelector dashboardSelector) (env.waitForSelector dashboardSelector)
  log (.loginSucceeded username)
  let hostnames ← call (.evaluateAll servicesSelector) (env.evaluateAll servicesSelector)
  log (.hostsFound username hostnames.length)
  pure (.return_ { success := true, services := hostnames })

/-- The `try` block of one attempt (lines 96-131).  An empty captcha code
(`!captchaCode`) logs, waits two seconds and executes `continue`. -/
def attemptTry (env : Env W) (username password : JsStr) (attempt maxRetries : Nat) :
    Js (St W) (Flow LoginResult) := do
  let captchaCode ← readCaptcha env username password attempt maxRetries
  if captchaCode = [] then
    log (.captchaEmpty attempt)
    delay 2000
    pure .continue_
  else
    submitLogin env username attempt captchaCode

/-- The `catch` block of one attempt (line 134); control then falls through
to line 137. -/
def attemptCatch (username : JsStr) (attempt : Nat) (message : JsStr) :
    Js (St W) (Flow LoginResult) := do
  log (.attemptError username attempt message)
  pure .next

/-- Lines 95-135: the `try` statement of one attempt, the `try` block under
its `catch`. -/
def attemptStep (env : Env W) (username password : JsStr) (attempt maxRetries : Nat) :
    Js (St W) (Flow LoginResult) :=
  Js.tryCatch (attemptTry env username password attempt maxRetries)
    (attemptCatch username attempt)

/-- Lines 137-141: the randomized backoff before the next attempt. -/
def backoff (env : Env W) (attempt maxRetries : Nat) : Js (St W) Unit := do
  if attempt < maxRetries then
    let r ← randomInt env 10001
    let waitTime := r + 5000
    log (.backoff waitTime)
    delay waitTime

/-- The loop `for (attempt = 1; attempt <= maxRetries; attempt++)` of
`loginWithRetry`, by the number of iterations still to run: with `r + 1`
iterations left the loop variable is `attempt = maxRetries - r`, with none
left the loop is over and line 143 returns. -/
def loginLoop (env : Env W) (username password : JsStr) (maxRetries : Nat) :
    Nat → Js (St W) LoginResult
  | 0 => pure { success := false, services := [] }
  | r + 1 => do
      let attempt := maxRetries - r
      let flow ← attemptStep env username password attempt maxRetries
      match flow with
      | .return_ v => pure v
      | .continue_ => loginLoop env username password maxRetries r
      | .next => do
          backoff env attempt maxRetries
          loginLoop env username password maxRetries r

/-- The function `loginWithRetry(page, username, password, worker, maxRetries)`. -/
def loginWithRetry (env : Env W) (username password : JsStr) (maxRetries : Nat := 3) :
    Js (St W) LoginResult :=
  loginLoop env username password maxRetries maxRetries

/-! ## `main`: the browser restart loop and the account loop (lines 191-259) -/

/-- `MAX_BROWSER_RESTARTS` (line 198). -/
def MAX_BROWSER_RESTARTS : Nat := 5

/-- Lines 212-215: the `try` block of a browser cycle after the launch; its
value is assigned to `result`. -/
def cycleTry (env : Env W) (username password : JsStr) : Js (St W) LoginResult := do
  call .newContext env.newContext
  call .newPage env.newPage
  loginWithRetry env username password 3

/-- Lines 217-219: the `catch` block of a browser cycle; `result` keeps its
value. -/
def cycleCatch (username : JsStr) (restartCycle : Nat) (result : LoginResult)
    (message : JsStr) : Js (St W) LoginResult := do
  log (.cycleError username restartCycle message)
  pure result

/-- Lines 202-223, one browser cycle.  The variable `browser` is non-null
exactly when `chromium.launch` returned: a throw of `launch` is caught at line
217 and the `finally` block closes nothing; after a launch the rest of the
`try` block runs under the `catch` of line 217 and `browser.close()` runs in
the `finally` block, outside that `catch`.  The value is the variable
`result` after the cycle. -/
def browserCycle (env : Env W) (username password : JsStr) (restartCycle : Nat)
    (result : LoginResult) : Js (St W) LoginResult := do
  let browser ← Js.attempt (call .launch env.launch)
  match browser with
  | .error message => cycleCatch username restartCycle result message
  | .ok _ =>
      Js.tryFinally
        (Js.tryCatch (cycleTry env username password) (cycleCatch username restartCycle result))
        (call .close env.close)

/-- The loop `for (restartCycle = 1; restartCycle <= MAX_BROWSER_RESTARTS;
restartCycle++)` (lines 200-232), by the number of iterations still to run. -/
def restartLoop (env : Env W) (username password : JsStr) (maxRestarts : Nat) :
    Nat → LoginResult → Js (St W) LoginResult
  | 0, result => pure result
  | n + 1, result => do
      let restartCycle := maxRestarts - n
      log (.cycleStart username restartCycle maxRestarts)
      let result ← browserCycle env username password restartCycle result
      if result.success then
        log (.accountSucceeded username)
        pure result
      else
        if restartCycle < maxRestarts then
          log (.cycleFailed username restartCycle)
          delay 5000
        restartLoop env username password maxRestarts n result

/-- Lines 197-232: the retry driver for one account. -/
def loginAccount (env : Env W) (account : Account) : Js (St W) LoginResult :=
  restartLoop env account.username account.password MAX_BROWSER_RESTARTS MAX_BROWSER_RESTARTS
    { success := false, services := [] }

/-- Lines 234-243: the report entry of one account. -/
def accountReport (username : JsStr) (result : LoginResult) : JsStr :=
  let maskedUsername := substring0 username 3 ++ utf16 "***"
  if result.success then
    utf16 "\n✅ **账号**: `" ++ maskedUsername ++ utf16 "`\n   - **状态**: 登录成功" ++
      (if result.services.length > 0 then
        utf16 "\n   - **主机列表**:\n" ++
          joinLines (result.services.map (fun s => utf16 "     - `" ++ s ++ utf16 "`"))
      else utf16 "\n   - **主机列表**: `无`")
  else
    utf16 "\n❌ **账号**: `" ++ maskedUsername ++
      utf16 "`\n   - **状态**: 登录失败 (已达最大重试次数)"

/-- Lines 193-249: the body of the account loop for the account at index `i`
of `total`. -/
def processAccount (env : Env W) (i total : Nat) (account : Account) : Js (St W) Unit := do
  let result ← loginAccount env account
  appendSummary (accountReport account.username result)
  if i < total - 1 then
    let r ← randomInt env (120000 - 60000 + 1)
    let interAccountDelay := r + 60000
    log (.other 247)
    delay interAccountDelay

/-- The loop `for (i = 0; i < accounts.length; i++)` (line 192) over the
accounts from index `i` on. -/
def accountsLoop (env : Env W) (total : Nat) : Nat → List Account → Js (St W) Unit
  | _, [] => pure ()
  | i, account :: rest => do
      processAccount env i total account
      accountsLoop env total (i + 1) rest

/-- Lines 191-259: the account loop inside `try`/`catch`/`finally`. -/
def runAccounts (env : Env W) (accounts : List Account) : Js (St W) Unit :=
  Js.tryFinally
    (Js.tryCatch (accountsLoop env accounts.length 0 accounts)
      (fun message => do
        log (.mainError message)
        appendSummary (utf16 "\n\n❌ **严重错误**: " ++ message)))
    (do
      call .terminate env.terminate
      log (.other 256)
      log (.other 257)
      appendSummary (utf16 "\n\n✅ 所有账号处理完毕。"))

/-! ## `sendTgNotification`, `checkIPLocation` and `main` -/

/-- Truthiness of `process.env[name]`: the variable is set and not empty. -/
def envSet (env : Env W) (name : String) (s : St W) : Bool :=
  match env.getenv name s.world with
  | some (_ :: _) => true
  | _ => false

/-- The function `sendTgNotification(message)` (lines 41-67): without both
Telegram variables it only logs; otherwise it posts the payload whose `text`
is `truncatedMessage message` and logs the outcome. -/
def sendTgNotification (env : Env W) (message : JsStr) : Js (St W) Unit := fun s =>
  if !envSet env "TG_BOT_TOKEN" s || !envSet env "TG_USER_ID" s then
    log (.other 46) s
  else
    Js.tryCatch
      (do
        call (.httpPost (truncatedMessage message)) (env.httpPost (truncatedMessage message))
        log (.other 63))
      (fun message => log (.notifyError message)) s

/-- The function `checkIPLocation()` (lines 69-89). -/
def checkIPLocation (env : Env W) : Js (St W) Bool := do
  log (.other 70)
  Js.tryCatch
    (do
      let (countryCode, query) ← call (.httpGet "http://ip-api.com/json") env.ipLookup
      let message := utf16 "当前IP: " ++ query ++ utf16 ", 国家: " ++ countryCode
      if countryCode = utf16 "CN" then
        log (.other 76)
        appendSummary (utf16 "📍 **IP检测**: `✅ 检测通过, " ++ message ++ utf16 "`\n")
        pure true
      else
        log (.other 80)
        appendSummary (utf16 "📍 **IP检测**: `❌ 检测不通过, " ++ message ++ utf16 "`\n")
        pure false)
    (fun message => do
      log (.other 85)
      appendSummary (utf16 "📍 **IP检测**: `❌ 检测失败, " ++ message ++ utf16 "`\n")
      pure false)

/-- Lines 161-259 of `main`: reading `IDC_ACCOUNTS`, creating the OCR worker
and running the account loop. -/
def mainAfterGate (env : Env W) : Js (St W) Unit := fun s =>
  match env.getenv "IDC_ACCOUNTS" s.world with
  | none | some [] =>
      (do
        log (.other 163)
        appendSummary (utf16 "❌ **错误**: 环境变量 `IDC_ACCOUNTS` 未设置。")) s
  | some accountsStr =>
      if (parseAccounts accountsStr).length = 0 then
        (do
          log (.other 174)
          appendSummary (utf16 "❌ **错误**: 解析 `IDC_ACCOUNTS` 后未得到有效账号。")) s
      else
        (do
          log (.other 179)
          log (.other 181)
          call .createWorker env.createWorker
          call .setParameters env.setParameters
          log (.other 189)
          runAccounts env (parseAccounts accountsStr)) s

/-- The function `main()` (lines 148-260). -/
def main (env : Env W) : Js (St W) Unit := do
  log (.other 149)
  let initialDelayMinutes ← randomInt env 16
  if initialDelayMinutes > 0 then
    log (.other 153)
    delay (initialDelayMinutes * 60 * 1000)
  let passed ← checkIPLocation env
  if !passed then
    pure ()
  else
    mainAfterGate env

/-- Lines 263-265: `main().finally(() => sendTgNotification(notificationSummary))`. -/
def script (env : Env W) : Js (St W) Unit :=
  Js.tryFinally (main env) (fun s => sendTgNotification env s.notificationSummary s)

/-- The value of `notificationSummary` when the script starts (line 28). -/
def initialSummary : JsStr := utf16 "✨ 56IDC 登录脚本执行报告\n\n"

/-! ## Observations on event lists -/

/-- A run with events put in front of its own. -/
def Run.prepend {σ α : Type} (es : List Event) (r : Run σ α) : Run σ α :=
  ⟨r.out, es ++ r.events, r.state⟩

/-- The start of a login attempt (log of line 96). -/
def isAttemptStart : Event → Bool
  | .log (.attemptStart _ _ _) => true
  | _ => false

/-- The start of a browser cycle (log of line 201). -/
def isCycleStart : Event → Bool
  | .log (.cycleStart _ _ _) => true
  | _ => false

/-- The dashboard marker appeared (log of line 123). -/
def isLoginSucceeded : Event → Bool
  | .log (.loginSucceeded _) => true
  | _ => false

/-- The attempt succeeded: the marker appeared and the host names were
scraped (log of line 129, directly before `return`). -/
def isHostsFound : Event → Bool
  | .log (.hostsFound _ _) => true
  | _ => false

/-- The attempt failed with an error (log of line 134) or read an empty
captcha (log of line 111). -/
def isFailedOrEmpty : Event → Bool
  | .log (.attemptError _ _ _) => true
  | .log (.captchaEmpty _) => true
  | _ => false

/-- The login form is submitted: the captcha field is filled or a button is
clicked. -/
def isSubmit : Event → Bool
  | .fill selector _ => selector == "#inputCaptcha"
  | .click _ => true
  | _ => false

/-- Number of login attempts in a list of events. -/
def attempts (es : List Event) : Nat := es.countP isAttemptStart

/-- Number of browser cycles in a list of events. -/
def cycles (es : List Event) : Nat := es.countP isCycleStart

/-- Number of attempts that failed or read an empty captcha. -/
def failedOrEmpty (es : List Event) : Nat := es.countP isFailedOrEmpty

/-- Number of attempts that succeeded. -/
def successes (es : List Event) : Nat := es.countP isHostsFound

/-- The events after the first event satisfying `p`. -/
def eventsAfter (p : Event → Bool) (es : List Event) : List Event :=
  (es.dropWhile (fun e => !p e)).drop 1

/-! ## A simulated environment -/

/-- A simulated environment over a counter: the world counts the waits for
the dashboard heading; the heading appears from wait number `markerFrom` on
(counted from zero), OCR always reads `ocrText`, the scrape returns one host
name or throws, `browser.close()` returns or throws, every other call
returns. -/
def simEnv (markerFrom : Nat) (scrapeOk closeOk : Bool) (ocrText : JsStr) : Env Nat where
  goto := fun _ w => (.ok (), w)
  waitForSelector := fun selector w =>
    if selector = dashboardSelector then
      (if markerFrom ≤ w then .ok () else .error (utf16 "Timeout 35000ms exceeded."), w + 1)
    else (.ok (), w)
  fill := fun _ _ w => (.ok (), w)
  locator := fun _ w => (.ok true, w)
  screenshot := fun w => (.ok [137, 80, 78, 71], w)
  recognize := fun _ w => (.ok ocrText, w)
  click := fun _ w => (.ok (), w)
  evaluateAll := fun _ w =>
    (if scrapeOk then .ok [utf16 "vps-1.example.com"]
     else .error (utf16 "Execution context was destroyed."), w)
  randomBelow := fun _ w => (0, w)
  launch := fun w => (.ok (), w)
  newContext := fun w => (.ok (), w)
  newPage := fun w => (.ok (), w)
  close := fun w => (if closeOk then .ok () else .error (utf16 "Target closed."), w)
  createWorker := fun w => (.ok (), w)
  setParameters := fun w => (.ok (), w)
  terminate := fun w => (.ok (), w)
  ipLookup := fun w => (.ok (utf16 "CN", utf16 "1.2.3.4"), w)
  httpPost := fun _ w => (.ok (), w)
  getenv := fun name _ =>
    if name = "TG_BOT_TOKEN" then some (utf16 "123:abc")
    else if name = "TG_USER_ID" then some (utf16 "42")
    else if name = "IDC_ACCOUNTS" then some (utf16 "a@x.com----p1\nb@x.com----p2")
    else none

/-- The simulated environment in which the dashboard heading never appears:
every wait for it times out; `browser.close()` returns or throws. -/
def blindEnv (closeOk : Bool) : Env Nat :=
  { simEnv 0 true closeOk (utf16 "ab12") with
    waitForSelector := fun selector w =>
      if selector = dashboardSelector then (.error (utf16 "Timeout 35000ms exceeded."), w + 1)
      else (.ok (), w) }

/-- An account used in the examples. -/
def sampleAccount : Account := ⟨utf16 "a@x.com", utf16 "p1"⟩

/-- A second account used in the examples. -/
def otherAccount : Account := ⟨utf16 "b@x.com", utf16 "p2"⟩

/-- The state at the start of the account loop in the examples; the report
so far is `R:`. -/
def sampleState : St Nat := ⟨0, utf16 "R:"⟩

/-- The events of a first attempt that reads `ab12` and reaches the success
log, in the simulated environment. -/
def sampleSuccessPrefix : List Event :=
  [.log (.cycleStart sampleAccount.username 1 5), .launch, .newContext, .newPage,
   .log (.attemptStart sampleAccount.username 1 3), .goto loginUrl,
   .waitForSelector "#inputEmail", .fill "#inputEmail" sampleAccount.username,
   .fill "#inputPassword" sampleAccount.password, .locator "#inputCaptchaImage", .screenshot,
   .recognize, .log (.captchaRead 1 (utf16 "ab12")), .fill "#inputCaptcha" (utf16 "ab12"),
   .click "#login", .log .loginClicked, .waitForSelector dashboardSelector,
   .log (.loginSucceeded sampleAccount.username), .evaluateAll servicesSelector]

deriving instance DecidableEq for Except

/-- Whether a completion is a throw. -/
def isThrow {α : Type} : Except JsStr α → Bool
  | .error _ => true
  | .ok _ => false

/-! ## Observations for the browser cycle and the start of `main` -/

/-- Events that `loginWithRetry` can emit: console output, calls on the page
and on the OCR worker, and waiting. -/
def isPageEvent : Event → Bool
  | .log _ => true
  | .goto _ => true
  | .waitForSelector _ => true
  | .fill _ _ => true
  | .locator _ => true
  | .screenshot => true
  | .recognize => true
  | .click _ => true
  | .evaluateAll _ => true
  | .delay _ => true
  | _ => false

/-- The call `browser.close()`. -/
def isClose : Event → Bool
  | .close => true
  | _ => false

/-- Events of processing accounts: the OCR worker, the browser, the page, and
the logs that start a browser cycle or a login attempt. -/
def isAccountWork : Event → Bool
  | .createWorker => true
  | .setParameters => true
  | .terminate => true
  | .launch => true
  | .newContext => true
  | .newPage => true
  | .close => true
  | .goto _ => true
  | .waitForSelector _ => true
  | .fill _ _ => true
  | .locator _ => true
  | .screenshot => true
  | .recognize => true
  | .click _ => true
  | .evaluateAll _ => true
  | .log (.attemptStart _ _ _) => true
  | .log (.cycleStart _ _ _) => true
  | _ => false

/-- Lines 149-155 of `main`: the first log and the random delay of 0 to 15
minutes. -/
def startDelay (env : Env W) : Js (St W) Unit := do
  log (.other 149)
  let initialDelayMinutes ← randomInt env 16
  if initialDelayMinutes > 0 then
    log (.other 153)
    delay (initialDelayMinutes * 60 * 1000)

/-- A line `identifier----secret` with a non-empty identifier and a non-empty
secret occurs among the lines of the string. -/
def hasCredentialLine (str : JsStr) : Prop :=
  ∃ identifier secret, identifier ≠ [] ∧ secret ≠ [] ∧
    identifier ++ utf16 "----" ++ secret ∈ split str (utf16 "\n")

/-- The simulated environment with a given value of `IDC_ACCOUNTS`. -/
def accountsEnv (value : Option JsStr) : Env Nat :=
  { simEnv 0 true true (utf16 "ab12") with
    getenv := fun name _ => if name = "IDC_ACCOUNTS" then value else none }

/-- The simulated environment whose exit address is located outside China. -/
def abroadEnv : Env Nat :=
  { simEnv 0 true true (utf16 "ab12") with
    ipLookup := fun w => (.ok (utf16 "US", utf16 "8.8.8.8"), w) }

/-- The value of `IDC_ACCOUNTS` gives no account: the variable is unset, or
none of the lines of the trimmed value splits at `'----'` into exactly two
parts. -/
def noAccountLine (value : Option JsStr) : Prop :=
  match value with
  | none => True
  | some str => ∀ line ∈ split (trim str) (utf16 "\n"), (split line (utf16 "----")).length ≠ 2

/-! ## More of JavaScript strings and numbers -/

/-- `s.includes(sub)`. -/
def includes (s sub : JsStr) : Bool := decide (sub <:+: s)

/-- `parts.join(sep)`. -/
def joinWith (sep : JsStr) : List JsStr → JsStr
  | [] => []
  | [l] => l
  | l :: ls => l ++ sep ++ joinWith sep ls

/-- A decimal digit `0`..`9`. -/
def isDigit (c : Nat) : Bool := 48 ≤ c && c ≤ 57

/-- The number written by a string of decimal digits. -/
def digitsValue (ds : JsStr) : Nat := ds.foldl (fun acc c => acc * 10 + (c - 48)) 0

/-- The digits at the start of a string, read as a number; `none` when the
string does not start with a digit. -/
def parseDigits (s : JsStr) : Option Nat :=
  match s.takeWhile isDigit with
  | [] => none
  | d :: ds => some (digitsValue (d :: ds))

/-- The number of low bits that a double cannot keep of `n`: the least `e`
with `n / 2 ^ e < 2 ^ 53`, searched in at most `fuel` steps (`n` steps are
always enough). -/
def excessBits : Nat → Nat → Nat
  | 0, _ => 0
  | fuel + 1, n => if n < 2 ^ 53 then 0 else excessBits fuel (n / 2) + 1

/-- The Number value of a natural number: the nearest double, a tie going to
the even significand of 53 bits; `2 ^ 1024` stands for `Infinity`.  Below
`2 ^ 53` every natural number is kept. -/
def toNumber (n : Nat) : Nat :=
  let e := excessBits n n
  let q := n / 2 ^ e
  let r := n % 2 ^ e
  let q1 := if 2 * r > 2 ^ e ∨ (2 * r = 2 ^ e ∧ q % 2 = 1) then q + 1 else q
  min (q1 * 2 ^ e) (2 ^ 1024)

/-- `parseInt(s, 10)`: leading whitespace is skipped, a sign is read, then
the digits up to the first other code unit; `none` stands for `NaN`.  The
result is a double: the integer written by the digits, rounded by `toNumber`
(`-0` is modelled by `0`). -/
def parseInt10 (s : JsStr) : Option Int :=
  match trimStart s with
  | 45 :: rest => (parseDigits rest).map (fun (n : Nat) => -(Int.ofNat (toNumber n)))
  | 43 :: rest => (parseDigits rest).map (fun (n : Nat) => Int.ofNat (toNumber n))
  | rest => (parseDigits rest).map (fun (n : Nat) => Int.ofNat (toNumber n))

/-- The decimal digits of a natural number, as `String(n)` writes them. -/
def decimalNat (n : Nat) : JsStr :=
  if n = 0 then [48] else (Nat.digits 10 n).reverse.map (fun d => d + 48)

/-- The decimal writing of an integer, as `String(i)` writes it. -/
def decimal (i : Int) : JsStr :=
  if i < 0 then 45 :: decimalNat i.natAbs else decimalNat i.natAbs

namespace ArcticCloud

/-! ## `src/小熊保活.js`: the ArcticCloud renewal script -/

/-- `MAX_LENGTH` of `sendTgNotify` (line 304). -/
def MAX_LENGTH : Nat := 4096

/-- Line 305: the `text` field of the payload of `sendTgNotify`. -/
def truncatedMessage (message : JsStr) : JsStr :=
  if message.length > MAX_LENGTH then
    substring0 message (MAX_LENGTH - 15) ++ utf16 "\n...日志过长..."
  else message

/-- The collaborators of `sendTgNotify` over a world `W`. -/
structure Env (W : Type) where
  /-- `process.env[name]`. -/
  getenv : String → W → Option JsStr
  /-- `fetch(url, ...)` with the payload text, then `response.json()`: the
  fields `ok` and `description` of the result. -/
  telegramPost : JsStr → W → Except JsStr (Bool × JsStr) × W

/-- The function `sendTgNotify(message)` (lines 295-330); console output is
recorded by its source line. -/
def sendTgNotify {W : Type} (env : Env W) (message : JsStr) : Js W Unit := fun w =>
  match env.getenv "TG_BOT_TOKEN" w, env.getenv "TG_USER_ID" w with
  | some (_ :: _), some (_ :: _) =>
      Js.tryCatch
        (do
          let result ← (fun w1 =>
            match env.telegramPost (truncatedMessage message) w1 with
            | (o, w2) => (⟨o, [.httpPost (truncatedMessage message)], w2⟩ : Run W (Bool × JsStr)))
          if result.1 then Js.emit (.log (.other 323)) else Js.emit (.log (.other 325)))
        (fun _ => Js.emit (.log (.other 328))) w
  | _, _ => Js.emit (.log (.other 300)) w

/-- Lines 66-67: `const [username, password] = ARCTICCLOUD_TOKEN.split(":")`
and the check `!username || !password` (`none` is the format error of line
68). -/
def credentials (token : JsStr) : Option (JsStr × JsStr) :=
  match split token (utf16 ":") with
  | username :: password :: _ =>
      if username = [] ∨ password = [] then none else some (username, password)
  | _ => none

/-- Line 107: the body of the login request of `handleRenewal`;
`encodeURIComponent` is the built-in function. -/
def loginBody (encodeURIComponent : JsStr → JsStr) (username password : JsStr) : JsStr :=
  utf16 "swapname=" ++ encodeURIComponent username ++ utf16 "&swappass=" ++
    encodeURIComponent password

/-- The body of the login request that the script sends for a value of
`ARCTICCLOUD_TOKEN` (lines 66-72, 82 and 104-109); `none` when the script stops
at the format error. -/
def loginRequest (encodeURIComponent : JsStr → JsStr) (token : JsStr) : Option JsStr :=
  (credentials token).map (fun c => loginBody encodeURIComponent c.1 c.2)

/-- The value returned by `parseVpsList`: the object `VPS_NAME`, as the list
of its assignments with the latest first, and the array `VPS_IDS`. -/
structure VpsList where
  VPS_NAME : List (Int × JsStr)
  VPS_IDS : List Int
deriving DecidableEq, Repr

/-- `VPS_NAME[id]`: the value of the latest assignment to the key `id`. -/
def nameOf (map : List (Int × JsStr)) (id : Int) : Option JsStr :=
  (map.find? (fun e => e.1 == id)).map (fun e => e.2)

/-- The body of the loop of `parseVpsList` (lines 235-242) for one pair. -/
def parsePair (acc : VpsList) (pair : JsStr) : VpsList :=
  match split pair (utf16 ":") with
  | idStr :: name :: _ =>
      if idStr ≠ [] ∧ name ≠ [] then
        match parseInt10 (trim idStr) with
        | some id => ⟨(id, trim name) :: acc.VPS_NAME, acc.VPS_IDS ++ [id]⟩
        | none => acc
      else acc
  | _ => acc

/-- The function `parseVpsList(vpsListStr)` (lines 228-245). -/
def parseVpsList (vpsListStr : JsStr) : VpsList :=
  if vpsListStr = [] then ⟨[], []⟩
  else
    ((split vpsListStr (utf16 ",")).filter (fun p => includes p (utf16 ":"))).foldl parsePair
      ⟨[], []⟩

/-- The string `'ID1:name1,ID2:name2,...'` written for a list of entries. -/
def vpsListString (entries : List (Int × JsStr)) : JsStr :=
  joinWith (utf16 ",") (entries.map (fun e => decimal e.1 ++ utf16 ":" ++ e.2))

end ArcticCloud

/-! ## `src/阿里云盘签到.js`: the Aliyun sign-in script -/

/-- `s.toLowerCase()` on the letters `A`..`Z`; the other code units are left
as they are, which does not change a comparison with `'true'` or `'false'`. -/
def toLowerCase (s : JsStr) : JsStr :=
  s.map (fun c => if 65 ≤ c ∧ c ≤ 90 then c + 32 else c)

/-- `process.env.NAME || fallback`: an unset or empty variable gives the
fallback. -/
def envOr (value : Option JsStr) (fallback : JsStr) : JsStr :=
  match value with
  | some (c :: cs) => c :: cs
  | _ => fallback

namespace Aliyun

/-- Line 37: `privacyMode`, from the value of `PRIVACY_MODE`. -/
def privacyMode (value : Option JsStr) : Bool :=
  toLowerCase (envOr value (utf16 "true")) == utf16 "true"

/-- Line 38: `showTokenInNotification`, from the value of
`SHOW_TOKEN_IN_NOTIFICATION`. -/
def showTokenInNotification (value : Option JsStr) : Bool :=
  toLowerCase (envOr value (utf16 "false")) == utf16 "false"

/-- The fields of an `AliYun` object that `buildNotificationMessage` reads.
An empty string stands for a missing or empty field.  The numeric parts are
taken as computed: `totalPositive` is `this.totalGb > 0` and `usagePercent` is
`((this.usedGb / this.totalGb) * 100).toFixed(1)`. -/
structure AliYun where
  userName : JsStr
  accountId : JsStr
  userPhone : JsStr
  usedGb : JsStr
  totalGb : JsStr
  totalPositive : Bool
  usagePercent : JsStr
  signInMsg : JsStr
  rewardInfo : JsStr
  error : JsStr
  newRefreshToken : JsStr

/-- `a || b` on strings. -/
def orElse (a b : JsStr) : JsStr := if a = [] then b else a

/-- The method `buildNotificationMessage(isSuccess)` (lines 311-340); `now`
is `new Date().toLocaleString('zh-CN')`. -/
def buildNotificationMessage (privacy showToken : Bool) (this : AliYun) (isSuccess : Bool)
    (now : JsStr) : JsStr :=
  let msg := utf16 "🌟 阿里云盘签到结果\n\n"
  let msg := msg ++ (utf16 "👤 账号: " ++ orElse this.userName this.accountId ++ utf16 "\n")
  let msg := if this.userPhone ≠ [] then msg ++ (utf16 "📱 手机: " ++ this.userPhone ++ utf16 "\n")
    else msg
  let msg :=
    if isSuccess then
      let msg := if this.totalPositive then
          msg ++ (utf16 "💾 存储: " ++ this.usedGb ++ utf16 "GB / " ++ this.totalGb ++ utf16 "GB (" ++
            this.usagePercent ++ utf16 "%)\n")
        else msg
      let msg := msg ++ (utf16 "📝 签到: " ++ this.signInMsg ++ utf16 "\n")
      msg ++ (utf16 "🎁 奖励: " ++ this.rewardInfo ++ utf16 "\n")
    else
      let msg := msg ++ utf16 "❌ 状态: 签到失败\n"
      let msg := msg ++ (utf16 "📄 原因: " ++ orElse this.error this.signInMsg ++ utf16 "\n")
      if this.error ≠ [] then
        msg ++ utf16 "\n🔧 请检查环境变量 ALIYUN_REFRESH_TOKEN 是否正确或已过期。"
      else msg
  let msg :=
    if this.newRefreshToken ≠ [] then
      let msg := msg ++ utf16 "\n🔄 Token: 检测到新 token，建议手动更新环境变量以保证长期有效。"
      if showToken && !privacy then msg ++ (utf16 "\n  新 Token: " ++ this.newRefreshToken)
      else msg
    else msg
  msg ++ (utf16 "\n⏰ 时间: " ++ now)

/-- The message built under given values of `PRIVACY_MODE` and
`SHOW_TOKEN_IN_NOTIFICATION`. -/
def notification (privacyValue showValue : Option JsStr) (this : AliYun) (isSuccess : Bool)
    (now : JsStr) : JsStr :=
  buildNotificationMessage (privacyMode privacyValue) (showTokenInNotification showValue) this
    isSuccess now

/-- Lines 364-366: the constant `tokens`, from the value of
`ALIYUN_REFRESH_TOKEN`. -/
def tokens (refreshTokens : JsStr) : List JsStr :=
  if includes refreshTokens (utf16 "\n") then
    (split refreshTokens (utf16 "\n")).filter (fun t => trim t ≠ [])
  else
    (split refreshTokens (utf16 "&")).filter (fun t => trim t ≠ [])

/-- An object used in the examples: a signed-in account with a new refresh
token. -/
def sampleObject : AliYun where
  userName := utf16 "nick"
  accountId := utf16 "账号0A1B2C3D"
  userPhone := []
  usedGb := utf16 "1.00"
  totalGb := utf16 "2.00"
  totalPositive := true
  usagePercent := utf16 "50.0"
  signInMsg := utf16 "签到成功，累计 3 天"
  rewardInfo := utf16 "今天奖励是空的~"
  error := []
  newRefreshToken := utf16 "tok123456"

end Aliyun

/-- Tokens written one after the other: the first token, then each further
token behind its separator (one code unit). -/
def joinSeps (first : JsStr) : List (Nat × JsStr) → JsStr
  | [] => first
  | (sep, token) :: rest => first ++ sep :: joinSeps token rest

/-! ## `src/百度网盘.js`: the Baidu sign-in script -/

namespace Baidu

/-- Line 29: `maxRandomDelay = parseInt(process.env.MAX_RANDOM_DELAY, 10) ||
300`; `NaN` and `0` give `300`. -/
def maxRandomDelay (getenv : String → Option JsStr) : Int :=
  match getenv "MAX_RANDOM_DELAY" with
  | none => 300
  | some value =>
      match parseInt10 value with
      | none => 300
      | some n => if n = 0 then 300 else n

/-- Line 30: `randomSignIn`. -/
def randomSignIn (getenv : String → Option JsStr) : Bool :=
  toLowerCase (envOr (getenv "RANDOM_SIGNIN") (utf16 "true")) == utf16 "true"

/-- `Math.floor(Math.random() * n)` for an integer `n`, from a natural number
`r` drawn by the random source: one of `0 .. n - 1` for a positive `n`, one of
`n .. 0` for a negative `n`. -/
def floorRandom (n : Int) (r : Nat) : Int :=
  if 0 < n then Int.ofNat (r % n.natAbs) else -(Int.ofNat (r % (n.natAbs + 1)))

/-- Line 28: `baiduCookies = process.env.BAIDU_COOKIE || ""`. -/
def baiduCookies (getenv : String → Option JsStr) : JsStr :=
  envOr (getenv "BAIDU_COOKIE") []

/-- Lines 330-340 of the main entry: the seconds waited before the run.
Without a cookie the script returns at line 334, before the delay; `none`
stands for no delay, then and when `RANDOM_SIGNIN` is off. -/
def delay (getenv : String → Option JsStr) (r : Nat) : Option Int :=
  if baiduCookies getenv = [] then none
  else if randomSignIn getenv then some (floorRandom (maxRandomDelay getenv) r)
  else none

/-- An environment in which only the given variable is set. -/
def onlyVar (name : String) (value : JsStr) : String → Option JsStr :=
  fun n => if n = name then some value else none

/-- An environment with the listed variables set. -/
def envOf (vars : List (String × JsStr)) : String → Option JsStr :=
  fun n => (vars.find? (fun p => p.1 == n)).map (fun p => p.2)

end Baidu

/-! ## `src/影视采集.js`: the link check -/

namespace LinkCheck

/-- The collaborators of the link check over a world `W`. -/
structure Env (W : Type) where
  /-- `axios.get(url)`: the status of the response, or a throw. -/
  get : String → W → Except JsStr Nat × W
  /-- `axios.post(url, ...)` of the Telegram message. -/
  post : JsStr → W → Except JsStr Unit × W

/-- The variables `resultMessage` and `hasFailure` of `checkUrls`. -/
structure Progress where
  resultMessage : JsStr
  hasFailure : Bool

/-- The function `sendTelegramMessage(message)` (lines 17-28); console
output is not recorded. -/
def sendTelegramMessage {W : Type} (env : Env W) (message : JsStr) : Js W Unit :=
  Js.tryCatch
    (fun w =>
      match env.post message w with
      | (o, w1) => ⟨o, [.httpPost message], w1⟩)
    (fun _ => pure ())

/-- The body of the loop of `checkUrls` for one link (lines 37-55). -/
def visit {W : Type} (env : Env W) (url : String) (p : Progress) : Js W Progress := fun w =>
  match env.get url w with
  | (.ok status, w1) =>
      if status = 200 then
        ⟨.ok ⟨p.resultMessage ++ (utf16 "✅ 链接成功: " ++ utf16 url ++ utf16 "\n") ++ utf16 "\n",
          p.hasFailure⟩, [.httpGet url], w1⟩
      else
        ⟨.ok ⟨p.resultMessage ++
            (utf16 "❌ 链接失败: " ++ utf16 url ++ utf16 ", 状态码: " ++ decimalNat status ++
              utf16 "\n") ++ utf16 "\n", true⟩, [.httpGet url], w1⟩
  | (.error message, w1) =>
      ⟨.ok ⟨p.resultMessage ++
          (utf16 "⚠️ 访问异常: " ++ utf16 url ++ utf16 ", 错误: " ++ message ++ utf16 "\n") ++
            utf16 "\n", true⟩, [.httpGet url], w1⟩

/-- The loop `for (const url of urls)` of `checkUrls`. -/
def visitAll {W : Type} (env : Env W) : List String → Progress → Js W Progress
  | [], p => pure p
  | url :: rest, p => do
      let p1 ← visit env url p
      visitAll env rest p1

/-- The function `checkUrls()` (lines 31-68) for the list `urls`. -/
def checkUrls {W : Type} (env : Env W) (urls : List String) : Js W Unit := do
  let p ← visitAll env urls ⟨utf16 "🔍 链接检查结果:\n\n", false⟩
  if p.hasFailure then sendTelegramMessage env p.resultMessage else pure ()

/-- The outcomes of the requests, one per link in list order, as the world
goes from one request to the next. -/
def outcomes {W : Type} (env : Env W) : List String → W → List (Except JsStr Nat)
  | [], _ => []
  | url :: rest, w => (env.get url w).1 :: outcomes env rest (env.get url w).2

/-- A link failed: the request threw or its status is not 200. -/
def failed : Except JsStr Nat → Bool
  | .ok status => status != 200
  | .error _ => true

/-- The result entry of one link. -/
def entry (url : String) : Except JsStr Nat → JsStr
  | .ok status =>
      if status = 200 then utf16 "✅ 链接成功: " ++ utf16 url ++ utf16 "\n" ++ utf16 "\n"
      else
        utf16 "❌ 链接失败: " ++ utf16 url ++ utf16 ", 状态码: " ++ decimalNat status ++ utf16 "\n" ++
          utf16 "\n"
  | .error message =>
      utf16 "⚠️ 访问异常: " ++ utf16 url ++ utf16 ", 错误: " ++ message ++ utf16 "\n" ++ utf16 "\n"

/-- The result entries, one per link, in list order. -/
def report : List String → List (Except JsStr Nat) → JsStr
  | url :: urls, o :: os => entry url o ++ report urls os
  | _, _ => []

/-- The Telegram posts among the events. -/
def posts (es : List Event) : List Event :=
  es.filter (fun e => match e with
    | .httpPost _ => true
    | _ => false)

/-- A simulated link server: the world counts the requests; the request
number `failAt` (from zero) answers 503, the others 200. -/
def simEnv (failAt : Nat) : Env Nat where
  get := fun _ w => (.ok (if w = failAt then 503 else 200), w + 1)
  post := fun _ w => (.ok (), w)

end LinkCheck

/-! ## The run report -/

/-- A program only appends to the report: from every state, the value of
`notificationSummary` before the run is a prefix of its value after. -/
def AppendOnly {α : Type} (m : Js (St W) α) : Prop :=
  ∀ s : St W, s.notificationSummary <+: (m s).state.notificationSummary

/-- The texts of the Telegram posts among the events, in order. -/
def postedTexts (es : List Event) : List JsStr :=
  es.filterMap (fun e =>
    match e with
    | .httpPost text => some text
    | _ => none)

/-- Line 299 of `src/小熊保活.js`, negated: `token` and `chatId` are both set
and not empty. -/
def ArcticCloud.configured {W : Type} (env : ArcticCloud.Env W) (w : W) : Bool :=
  match env.getenv "TG_BOT_TOKEN" w, env.getenv "TG_USER_ID" w with
  | some (_ :: _), some (_ :: _) => true
  | _, _ => false

/-- A simulated Telegram: both variables are set and every post is accepted;
the world counts the posts. -/
def ArcticCloud.simEnv : ArcticCloud.Env Nat where
  getenv := fun name _ =>
    if name = "TG_BOT_TOKEN" then some (utf16 "123:abc")
    else if name = "TG_USER_ID" then some (utf16 "42")
    else none
  telegramPost := fun _ w => (.ok (true, []), w + 1)

/-! ## Theorems: strings -/

theorem truncationMarker_length : truncationMarker.length = 11 := by decide

theorem trimStart_of_noWs (s : JsStr) (h : ∀ c ∈ s, isJsWhitespace c = false) :
    trimStart s = s := by
  cases s with
  | nil => rfl
  | cons c cs => simp [trimStart, List.dropWhile, h c (List.mem_cons_self _ _)]

theorem trim_of_noWs (s : JsStr) (h : ∀ c ∈ s, isJsWhitespace c = false) : trim s = s := by
  have h2 : trimStart s.reverse = s.reverse :=
    trimStart_of_noWs _ (fun c hc => h c (List.mem_reverse.mp hc))
  unfold trim trimEnd
  rw [trimStart_of_noWs s h]
  unfold trimStart at h2
  rw [h2, List.reverse_reverse]

theorem isAlnum_not_ws (c : Nat) (h : isAlnum c = true) : isJsWhitespace c = false := by
  simp only [isAlnum, Bool.or_eq_true, Bool.and_eq_true, decide_eq_true_eq] at h
  simp only [isJsWhitespace, Bool.or_eq_false_iff, Bool.and_eq_false_iff, beq_eq_false_iff_ne,
    decide_eq_false_iff_not]
  omega

theorem cleanCaptcha_eq_strip (t : JsStr) : cleanCaptcha t = stripNonAlnum t := by
  unfold cleanCaptcha
  apply trim_of_noWs
  intro c hc
  exact isAlnum_not_ws c (List.of_mem_filter hc)

/-- C7: captcha cleaning is idempotent, `clean (clean t) = clean t` for every
string `t`, where `clean` removes every code unit outside `[a-zA-Z0-9]` and
then trims. -/
theorem cleanCaptcha_idempotent (t : JsStr) : cleanCaptcha (cleanCaptcha t) = cleanCaptcha t := by
  rw [cleanCaptcha_eq_strip t, cleanCaptcha_eq_strip]
  simp [stripNonAlnum, List.filter_filter]

/-- For every message longer than `MAX_LENGTH` code units the text of the
payload is the first `MAX_LENGTH - 10` code units followed by the marker, and
its length is `4097`, one more than `MAX_LENGTH`. -/
theorem truncatedMessage_long (message : JsStr) (h : message.length > MAX_LENGTH) :
    truncatedMessage message = message.take (MAX_LENGTH - 10) ++ truncationMarker ∧
    (truncatedMessage message).length = 4097 ∧
    ¬ (truncatedMessage message).length ≤ MAX_LENGTH := by
  have h1 : truncatedMessage message = message.take (MAX_LENGTH - 10) ++ truncationMarker := by
    simp [truncatedMessage, h, substring0]
  have h2 : (truncatedMessage message).length = 4097 := by
    rw [h1, List.length_append, List.length_take, truncationMarker_length]
    simp only [MAX_LENGTH] at h ⊢
    omega
  refine ⟨h1, h2, ?_⟩
  rw [h2]; simp [MAX_LENGTH]


/-! ## Theorems: runs of the combinators -/

section runs
variable {σ α β : Type}

@[simp] theorem Run.prepend_out (es : List Event) (r : Run σ α) : (r.prepend es).out = r.out := rfl
@[simp] theorem Run.prepend_events (es : List Event) (r : Run σ α) :
    (r.prepend es).events = es ++ r.events := rfl
@[simp] theorem Run.prepend_state (es : List Event) (r : Run σ α) :
    (r.prepend es).state = r.state := rfl

theorem bind_run (m : Js σ α) (f : α → Js σ β) (s : σ) :
    (m >>= f) s = match (m s).out with
      | .error e => ⟨.error e, (m s).events, (m s).state⟩
      | .ok a => (f a (m s).state).prepend (m s).events := by
  show Js.andThen m f s = _
  unfold Js.andThen
  rcases m s with ⟨_ | _, es, s1⟩ <;> rfl

theorem tryCatch_run (m : Js σ α) (h : JsStr → Js σ α) (s : σ) :
    Js.tryCatch m h s = match (m s).out with
      | .ok _ => m s
      | .error e => (h e (m s).state).prepend (m s).events := by
  unfold Js.tryCatch
  rcases m s with ⟨_ | _, es, s1⟩ <;> rfl

theorem tryCatch_ok (m : Js σ α) (h : JsStr → Js σ α) (s : σ) (a : α)
    (hm : (m s).out = .ok a) : Js.tryCatch m h s = m s := by
  rw [tryCatch_run, hm]

theorem tryCatch_error (m : Js σ α) (h : JsStr → Js σ α) (s : σ) (e : JsStr)
    (hm : (m s).out = .error e) :
    Js.tryCatch m h s = (h e (m s).state).prepend (m s).events := by
  rw [tryCatch_run, hm]

theorem bind_ok (m : Js σ α) (f : α → Js σ β) (s : σ) (a : α) (hm : (m s).out = .ok a) :
    (m >>= f) s = (f a (m s).state).prepend (m s).events := by
  rw [bind_run, hm]

theorem bind_error (m : Js σ α) (f : α → Js σ β) (s : σ) (e : JsStr)
    (hm : (m s).out = .error e) :
    (m >>= f) s = ⟨.error e, (m s).events, (m s).state⟩ := by
  rw [bind_run, hm]

theorem tryFinally_run (m : Js σ α) (fin : Js σ Unit) (s : σ) :
    Js.tryFinally m fin s = match (fin (m s).state).out with
      | .ok _ => ⟨(m s).out, (m s).events ++ (fin (m s).state).events, (fin (m s).state).state⟩
      | .error e => ⟨.error e, (m s).events ++ (fin (m s).state).events, (fin (m s).state).state⟩ := by
  unfold Js.tryFinally
  rcases m s with ⟨o, es, s1⟩
  simp only
  rcases fin s1 with ⟨_ | _, es2, s2⟩ <;> rfl

theorem attempt_run (m : Js σ α) (s : σ) :
    Js.attempt m s = ⟨.ok (m s).out, (m s).events, (m s).state⟩ := by
  unfold Js.attempt
  rcases m s with ⟨o, es, s1⟩
  rfl

theorem pure_run (a : α) (s : σ) : (pure a : Js σ α) s = ⟨.ok a, [], s⟩ := rfl
theorem raise_run (e : JsStr) (s : σ) : (Js.raise e : Js σ α) s = ⟨.error e, [], s⟩ := rfl
theorem emit_run (e : Event) (s : σ) : (Js.emit e : Js σ Unit) s = ⟨.ok (), [e], s⟩ := rfl

end runs

theorem call_run {α : Type} (e : Event) (op : W → Except JsStr α × W) (s : St W) :
    call e op s = ⟨(op s.world).1, [e], { s with world := (op s.world).2 }⟩ := rfl
theorem log_run (m : LogMsg) (s : St W) : log m s = ⟨.ok (), [.log m], s⟩ := rfl
theorem delay_run (ms : Nat) (s : St W) : delay ms s = ⟨.ok (), [.delay ms], s⟩ := rfl
theorem randomInt_run (env : Env W) (n : Nat) (s : St W) :
    randomInt env n s =
      ⟨.ok ((env.randomBelow n s.world).1 % n), [],
        { s with world := (env.randomBelow n s.world).2 }⟩ :=
  rfl
theorem appendSummary_run (text : JsStr) (s : St W) :
    appendSummary text s =
      ⟨.ok (), [], { s with notificationSummary := s.notificationSummary ++ text }⟩ :=
  rfl

/-! ## Theorems: event lists -/

theorem attempts_append (a b : List Event) : attempts (a ++ b) = attempts a + attempts b :=
  List.countP_append _ _ _
theorem cycles_append (a b : List Event) : cycles (a ++ b) = cycles a + cycles b :=
  List.countP_append _ _ _
theorem failedOrEmpty_append (a b : List Event) :
    failedOrEmpty (a ++ b) = failedOrEmpty a + failedOrEmpty b :=
  List.countP_append _ _ _
theorem successes_append (a b : List Event) : successes (a ++ b) = successes a + successes b :=
  List.countP_append _ _ _

theorem attempts_cons (e : Event) (es : List Event) :
    attempts (e :: es) = attempts es + (if isAttemptStart e = true then 1 else 0) :=
  List.countP_cons _ _ _
theorem cycles_cons (e : Event) (es : List Event) :
    cycles (e :: es) = cycles es + (if isCycleStart e = true then 1 else 0) :=
  List.countP_cons _ _ _
theorem failedOrEmpty_cons (e : Event) (es : List Event) :
    failedOrEmpty (e :: es) = failedOrEmpty es + (if isFailedOrEmpty e = true then 1 else 0) :=
  List.countP_cons _ _ _
theorem successes_cons (e : Event) (es : List Event) :
    successes (e :: es) = successes es + (if isHostsFound e = true then 1 else 0) :=
  List.countP_cons _ _ _
theorem attempts_nil : attempts [] = 0 := rfl
theorem cycles_nil : cycles [] = 0 := rfl
theorem failedOrEmpty_nil : failedOrEmpty [] = 0 := rfl
theorem successes_nil : successes [] = 0 := rfl

theorem eventsAfter_append_of_none (a b : List Event) (h : successes a = 0) :
    eventsAfter isHostsFound (a ++ b) = eventsAfter isHostsFound b := by
  induction a with
  | nil => rfl
  | cons x xs ih =>
      have hx : isHostsFound x = false := by
        cases hx : isHostsFound x
        · rfl
        · simp [successes, List.countP_cons, hx] at h
      have hxs : successes xs = 0 := by
        simpa [successes, List.countP_cons, hx] using h
      have := ih hxs
      simpa [eventsAfter, List.dropWhile, hx] using this

theorem eventsAfter_append_of_some (a b : List Event) (h : successes a ≠ 0) :
    eventsAfter isHostsFound (a ++ b) = eventsAfter isHostsFound a ++ b := by
  induction a with
  | nil => simp [successes] at h
  | cons x xs ih =>
      cases hx : isHostsFound x
      · have hxs : successes xs ≠ 0 := by
          simpa [successes, List.countP_cons, hx] using h
        have := ih hxs
        simpa [eventsAfter, List.dropWhile, hx] using this
      · simp [eventsAfter, List.dropWhile, hx]

/-- When at most one attempt succeeded, the events after the success are the
ones behind any occurrence of the success log. -/
theorem eventsAfter_of_split (es pre post : List Event) (x : Event) (hx : isHostsFound x = true)
    (h : es = pre ++ x :: post) (h1 : successes es ≤ 1) :
    eventsAfter isHostsFound es = post ∧ successes pre = 0 ∧ successes post = 0 := by
  subst h
  have hc : successes (pre ++ x :: post) = successes pre + (1 + successes post) := by
    rw [successes_append]
    simp [successes, List.countP_cons, hx]
    omega
  have hpre : successes pre = 0 := by omega
  refine ⟨?_, hpre, by omega⟩
  rw [eventsAfter_append_of_none _ _ hpre]
  simp [eventsAfter, List.dropWhile, hx]

/-! ## Theorems: one attempt -/

/-- Events of lines 96-108: one attempt start, nothing else that is counted,
and no submission of the form. -/
theorem readCaptcha_counts (env : Env W) (u p : JsStr) (a m : Nat) (s : St W) :
    attempts (readCaptcha env u p a m s).events = 1 ∧
    cycles (readCaptcha env u p a m s).events = 0 ∧
    successes (readCaptcha env u p a m s).events = 0 ∧
    failedOrEmpty (readCaptcha env u p a m s).events = 0 ∧
    (readCaptcha env u p a m s).events.countP isSubmit = 0 := by
  simp only [readCaptcha]
  repeat' (first | split | simp only [bind_run, call_run, log_run, pure_run, raise_run])
  all_goals
    simp [attempts, cycles, successes, failedOrEmpty, isAttemptStart, isCycleStart, isHostsFound,
      isFailedOrEmpty, isSubmit, List.countP_cons]

/-- Events and completion of lines 115-131: either a throw without a success
log, or `return` directly after the success log. -/
theorem submitLogin_counts (env : Env W) (u : JsStr) (a : Nat) (code : JsStr) (s : St W) :
    attempts (submitLogin env u a code s).events = 0 ∧
    cycles (submitLogin env u a code s).events = 0 ∧
    failedOrEmpty (submitLogin env u a code s).events = 0 ∧
    (((∃ x, (submitLogin env u a code s).out = .error x) ∧
        successes (submitLogin env u a code s).events = 0) ∨
      ((∃ sv, (submitLogin env u a code s).out = .ok (.return_ ⟨true, sv⟩)) ∧
        successes (submitLogin env u a code s).events = 1 ∧
        eventsAfter isHostsFound (submitLogin env u a code s).events = [])) := by
  simp only [submitLogin]
  repeat' (first | split | simp only [bind_run, call_run, log_run, pure_run, raise_run])
  all_goals
    simp [attempts, cycles, successes, failedOrEmpty, isAttemptStart, isCycleStart, isHostsFound,
      isFailedOrEmpty, eventsAfter, List.countP_cons, List.dropWhile]

/-- The `try` block of one attempt: it throws, executes `continue` after an
empty read, or returns success directly after its success log. -/
theorem attemptTry_spec (env : Env W) (u p : JsStr) (a m : Nat) (s : St W) :
    attempts (attemptTry env u p a m s).events = 1 ∧
    cycles (attemptTry env u p a m s).events = 0 ∧
    (((∃ x, (attemptTry env u p a m s).out = .error x) ∧
        successes (attemptTry env u p a m s).events = 0 ∧
        failedOrEmpty (attemptTry env u p a m s).events = 0) ∨
      ((attemptTry env u p a m s).out = .ok .continue_ ∧
        successes (attemptTry env u p a m s).events = 0 ∧
        failedOrEmpty (attemptTry env u p a m s).events = 1) ∨
      ((∃ sv, (attemptTry env u p a m s).out = .ok (.return_ ⟨true, sv⟩)) ∧
        successes (attemptTry env u p a m s).events = 1 ∧
        failedOrEmpty (attemptTry env u p a m s).events = 0 ∧
        eventsAfter isHostsFound (attemptTry env u p a m s).events = [])) := by
  obtain ⟨r1, r2, r3, r4, -⟩ := readCaptcha_counts env u p a m s
  simp only [attemptTry, bind_run]
  cases hrc : (readCaptcha env u p a m s).out with
  | error x => simp [r1, r2, r3, r4]
  | ok code =>
      by_cases hcode : code = []
      · simp [hcode, bind_run, log_run, delay_run, pure_run, attempts_append, cycles_append,
          successes_append, failedOrEmpty_append, attempts_cons, cycles_cons, successes_cons,
          failedOrEmpty_cons, attempts_nil, cycles_nil, successes_nil, failedOrEmpty_nil,
          r1, r2, r3, r4, isAttemptStart, isCycleStart, isHostsFound, isFailedOrEmpty]
      · obtain ⟨q1, q2, q3, q4⟩ :=
          submitLogin_counts env u a code (readCaptcha env u p a m s).state
        rcases q4 with ⟨⟨x, hx⟩, q5⟩ | ⟨⟨sv, hsv⟩, q5, q6⟩
        · simp [hcode, hx, attempts_append, cycles_append, successes_append,
            failedOrEmpty_append, r1, r2, r3, r4, q1, q2, q3, q5]
        · simp [hcode, hsv, attempts_append, cycles_append, successes_append,
            failedOrEmpty_append, r1, r2, r3, r4, q1, q2, q3, q5,
            eventsAfter_append_of_none _ _ r3, q6]

/-- The invariant of one attempt: it is counted once, starts no cycle, and
either returns success directly after its success log or goes on to the next
iteration after exactly one failure or empty read. -/
theorem attemptStep_spec (env : Env W) (u p : JsStr) (a m : Nat) (s : St W) :
    attempts (attemptStep env u p a m s).events = 1 ∧
    cycles (attemptStep env u p a m s).events = 0 ∧
    (((∃ sv, (attemptStep env u p a m s).out = .ok (.return_ ⟨true, sv⟩)) ∧
        successes (attemptStep env u p a m s).events = 1 ∧
        failedOrEmpty (attemptStep env u p a m s).events = 0 ∧
        eventsAfter isHostsFound (attemptStep env u p a m s).events = []) ∨
      (((attemptStep env u p a m s).out = .ok .next ∨
          (attemptStep env u p a m s).out = .ok .continue_) ∧
        successes (attemptStep env u p a m s).events = 0 ∧
        failedOrEmpty (attemptStep env u p a m s).events = 1)) := by
  obtain ⟨t1, t2, t3⟩ := attemptTry_spec env u p a m s
  simp only [attemptStep, tryCatch_run]
  rcases t3 with ⟨⟨x, hx⟩, t4, t5⟩ | ⟨hc, t4, t5⟩ | ⟨⟨sv, hsv⟩, t4, t5, t6⟩
  · simp [hx, attemptCatch, bind_run, log_run, pure_run, attempts_append, cycles_append,
      successes_append, failedOrEmpty_append, attempts_cons, cycles_cons, successes_cons,
      failedOrEmpty_cons, attempts_nil, cycles_nil, successes_nil, failedOrEmpty_nil,
      t1, t2, t4, t5, isAttemptStart, isCycleStart, isHostsFound, isFailedOrEmpty]
  · simp [hc, t1, t2, t4, t5]
  · simp [hsv, t1, t2, t4, t5, t6]

/-! ## Theorems: `loginWithRetry` -/

theorem backoff_spec (env : Env W) (a m : Nat) (s : St W) :
    (backoff env a m s).out = .ok () ∧ attempts (backoff env a m s).events = 0 ∧
    cycles (backoff env a m s).events = 0 ∧ successes (backoff env a m s).events = 0 ∧
    failedOrEmpty (backoff env a m s).events = 0 := by
  unfold backoff
  split <;>
    simp [bind_run, randomInt_run, log_run, delay_run, pure_run, attempts_cons, cycles_cons,
      successes_cons, failedOrEmpty_cons, attempts_nil, cycles_nil, successes_nil,
      failedOrEmpty_nil, isAttemptStart, isCycleStart, isHostsFound, isFailedOrEmpty]

/-- The invariant of the attempt loop with `n` iterations left: it never
throws; it either returns success directly after the only success log, or
returns `{ success: false, services: [] }` after exactly `n` attempts. -/
theorem loginLoop_spec (env : Env W) (u p : JsStr) (m n : Nat) (s : St W) :
    cycles (loginLoop env u p m n s).events = 0 ∧
    attempts (loginLoop env u p m n s).events ≤ n ∧
    attempts (loginLoop env u p m n s).events =
      failedOrEmpty (loginLoop env u p m n s).events +
        successes (loginLoop env u p m n s).events ∧
    (((∃ sv, (loginLoop env u p m n s).out = .ok ⟨true, sv⟩) ∧
        successes (loginLoop env u p m n s).events = 1 ∧
        eventsAfter isHostsFound (loginLoop env u p m n s).events = []) ∨
      ((loginLoop env u p m n s).out = .ok ⟨false, []⟩ ∧
        successes (loginLoop env u p m n s).events = 0 ∧
        attempts (loginLoop env u p m n s).events = n)) := by
  induction n generalizing s with
  | zero => simp [loginLoop, pure_run, attempts_nil, cycles_nil, successes_nil, failedOrEmpty_nil]
  | succ n ih =>
      obtain ⟨a1, a2, a3⟩ := attemptStep_spec env u p (m - n) m s
      simp only [loginLoop, bind_run]
      rcases a3 with ⟨⟨sv, hsv⟩, a4, a5, a6⟩ | ⟨hout | hout, a4, a5⟩
      · simp [hsv, pure_run, a1, a2, a4, a5, a6]
      · obtain ⟨b0, b1, b2, b3, b4⟩ := backoff_spec env (m - n) m (attemptStep env u p (m - n) m s).state
        obtain ⟨c1, c2, c3, c4⟩ :=
          ih (backoff env (m - n) m (attemptStep env u p (m - n) m s).state).state
        simp only [hout, bind_run, b0, Run.prepend_events, Run.prepend_out, attempts_append,
          cycles_append, successes_append, failedOrEmpty_append]
        rw [eventsAfter_append_of_none _ _ a4, eventsAfter_append_of_none _ _ b3]
        refine ⟨by omega, by omega, by omega, ?_⟩
        rcases c4 with ⟨h1, h2, h3⟩ | ⟨h1, h2, h3⟩
        · exact Or.inl ⟨h1, by omega, h3⟩
        · exact Or.inr ⟨h1, by omega, by omega⟩
      · obtain ⟨c1, c2, c3, c4⟩ := ih (attemptStep env u p (m - n) m s).state
        simp only [hout, Run.prepend_events, Run.prepend_out, attempts_append, cycles_append,
          successes_append, failedOrEmpty_append]
        rw [eventsAfter_append_of_none _ _ a4]
        refine ⟨by omega, by omega, by omega, ?_⟩
        rcases c4 with ⟨h1, h2, h3⟩ | ⟨h1, h2, h3⟩
        · exact Or.inl ⟨h1, by omega, h3⟩
        · exact Or.inr ⟨h1, by omega, by omega⟩

/-! ## Theorems: the browser cycle and the restart loop -/

theorem cycleCatch_run (u : JsStr) (c : Nat) (result : LoginResult) (x : JsStr) (s : St W) :
    cycleCatch u c result x s = ⟨.ok result, [.log (.cycleError u c x)], s⟩ := rfl

/-- The `try` block of a browser cycle: success directly after the only
success log, or no success log at all. -/
theorem cycleTry_spec (env : Env W) (u p : JsStr) (s : St W) :
    cycles (cycleTry env u p s).events = 0 ∧
    attempts (cycleTry env u p s).events ≤ 3 ∧
    attempts (cycleTry env u p s).events =
      failedOrEmpty (cycleTry env u p s).events + successes (cycleTry env u p s).events ∧
    (((∃ sv, (cycleTry env u p s).out = .ok ⟨true, sv⟩) ∧
        successes (cycleTry env u p s).events = 1 ∧
        eventsAfter isHostsFound (cycleTry env u p s).events = []) ∨
      (((cycleTry env u p s).out = .ok ⟨false, []⟩ ∨ ∃ x, (cycleTry env u p s).out = .error x) ∧
        successes (cycleTry env u p s).events = 0)) := by
  simp only [cycleTry, bind_run, call_run]
  cases h1 : (env.newContext s.world).1 with
  | error x =>
      simp [attempts_cons, cycles_cons, successes_cons, failedOrEmpty_cons, attempts_nil,
        cycles_nil, successes_nil, failedOrEmpty_nil, isAttemptStart, isCycleStart, isHostsFound,
        isFailedOrEmpty]
  | ok _ =>
      simp only []
      cases h2 : (env.newPage (env.newContext s.world).2).1 with
      | error x =>
          simp [attempts_cons, cycles_cons, successes_cons, failedOrEmpty_cons, attempts_nil,
            cycles_nil, successes_nil, failedOrEmpty_nil, isAttemptStart, isCycleStart,
            isHostsFound, isFailedOrEmpty]
      | ok _ =>
          obtain ⟨c1, c2, c3, c4⟩ := loginLoop_spec env u p 3 3
            { world := (env.newPage (env.newContext s.world).2).2,
              notificationSummary := s.notificationSummary }
          have n1 : successes [Event.newContext] = 0 := rfl
          have n2 : successes [Event.newPage] = 0 := rfl
          simp only [loginWithRetry, Run.prepend_events, Run.prepend_out, attempts_append,
            cycles_append, successes_append, failedOrEmpty_append, attempts_cons, cycles_cons,
            successes_cons, failedOrEmpty_cons, attempts_nil, cycles_nil, successes_nil,
            failedOrEmpty_nil, isAttemptStart, isCycleStart, isHostsFound, isFailedOrEmpty]
          rw [eventsAfter_append_of_none _ _ n1, eventsAfter_append_of_none _ _ n2]
          refine ⟨by simpa using c1, by simpa using c2, by simpa using c3, ?_⟩
          rcases c4 with ⟨h1, h2, h3⟩ | ⟨h1, h2, h3⟩
          · exact Or.inl ⟨h1, by simpa using h2, h3⟩
          · exact Or.inr ⟨Or.inl h1, by simpa using h2⟩

/-- The invariant of one browser cycle entered with
`result = { success: false, services: [] }`: after a success the only later
event is the closing of the browser; a throw can only come from
`browser.close()`. -/
theorem browserCycle_spec (env : Env W) (u p : JsStr) (c : Nat) (s : St W) :
    cycles (browserCycle env u p c ⟨false, []⟩ s).events = 0 ∧
    attempts (browserCycle env u p c ⟨false, []⟩ s).events ≤ 3 ∧
    attempts (browserCycle env u p c ⟨false, []⟩ s).events =
      failedOrEmpty (browserCycle env u p c ⟨false, []⟩ s).events +
        successes (browserCycle env u p c ⟨false, []⟩ s).events ∧
    ((successes (browserCycle env u p c ⟨false, []⟩ s).events = 1 ∧
        eventsAfter isHostsFound (browserCycle env u p c ⟨false, []⟩ s).events = [.close] ∧
        ((∃ sv, (browserCycle env u p c ⟨false, []⟩ s).out = .ok ⟨true, sv⟩) ∨
          ∃ x, (browserCycle env u p c ⟨false, []⟩ s).out = .error x)) ∨
      (successes (browserCycle env u p c ⟨false, []⟩ s).events = 0 ∧
        ((browserCycle env u p c ⟨false, []⟩ s).out = .ok ⟨false, []⟩ ∨
          ∃ x, (browserCycle env u p c ⟨false, []⟩ s).out = .error x))) := by
  simp only [browserCycle, bind_run, attempt_run, call_run]
  cases hl : (env.launch s.world).1 with
  | error x =>
      simp [cycleCatch_run, attempts_cons, cycles_cons, successes_cons, failedOrEmpty_cons,
        attempts_nil, cycles_nil, successes_nil, failedOrEmpty_nil, isAttemptStart, isCycleStart,
        isHostsFound, isFailedOrEmpty]
  | ok _ =>
      simp only [Run.prepend_events, Run.prepend_out]
      generalize St.mk (env.launch s.world).2 s.notificationSummary = s1
      obtain ⟨t1, t2, t3, t4⟩ := cycleTry_spec env u p s1
      have n1 : successes [Event.launch] = 0 := rfl
      -- the `try`/`catch` part
      have key : ∃ r : Run (St W) LoginResult,
          Js.tryCatch (cycleTry env u p) (cycleCatch u c ⟨false, []⟩) s1 = r ∧
          cycles r.events = 0 ∧ attempts r.events ≤ 3 ∧
          attempts r.events = failedOrEmpty r.events + successes r.events ∧
          (((∃ sv, r.out = .ok ⟨true, sv⟩) ∧ successes r.events = 1 ∧
              eventsAfter isHostsFound r.events = []) ∨
            (r.out = .ok ⟨false, []⟩ ∧ successes r.events = 0)) := by
        refine ⟨_, rfl, ?_⟩
        rcases t4 with ⟨⟨sv, hsv⟩, t5, t6⟩ | ⟨hf | ⟨x, hx⟩, t5⟩
        · rw [tryCatch_ok _ _ _ _ hsv]
          exact ⟨t1, t2, t3, Or.inl ⟨⟨sv, hsv⟩, t5, t6⟩⟩
        · rw [tryCatch_ok _ _ _ _ hf]
          exact ⟨t1, t2, t3, Or.inr ⟨hf, t5⟩⟩
        · rw [tryCatch_error _ _ _ _ hx]
          refine ⟨?_, ?_, ?_, Or.inr ⟨rfl, ?_⟩⟩
          all_goals
            simp only [cycleCatch_run, Run.prepend_events, attempts_append,
              cycles_append, successes_append, failedOrEmpty_append, attempts_cons, cycles_cons,
              successes_cons, failedOrEmpty_cons, attempts_nil, cycles_nil, successes_nil,
              failedOrEmpty_nil, isAttemptStart, isCycleStart, isHostsFound, isFailedOrEmpty]
            simp only [Bool.false_eq_true, if_false]
            omega
      obtain ⟨r, hr, k1, k2, k3, k4⟩ := key
      rw [tryFinally_run, hr]
      simp only [call_run]
      have hclose : ∀ (o : Except JsStr LoginResult) (st : St W),
          cycles ([Event.launch] ++ (r.events ++ [Event.close])) = 0 ∧
          attempts ([Event.launch] ++ (r.events ++ [Event.close])) ≤ 3 ∧
          attempts ([Event.launch] ++ (r.events ++ [Event.close])) =
            failedOrEmpty ([Event.launch] ++ (r.events ++ [Event.close])) +
              successes ([Event.launch] ++ (r.events ++ [Event.close])) := by
        intro _ _
        simp only [attempts_append, cycles_append, successes_append, failedOrEmpty_append,
          attempts_cons, cycles_cons, successes_cons, failedOrEmpty_cons, attempts_nil,
          cycles_nil, successes_nil, failedOrEmpty_nil, isAttemptStart, isCycleStart,
          isHostsFound, isFailedOrEmpty]
        refine ⟨by simpa using k1, by simpa using k2, by simpa using k3⟩
      obtain ⟨g1, g2, g3⟩ := hclose (.ok ⟨false, []⟩) s1
      have hsucc : successes ([Event.launch] ++ (r.events ++ [Event.close])) = successes r.events := by
        simp [successes_append, successes_cons, successes_nil, isHostsFound]
      have hafter : successes r.events = 1 → eventsAfter isHostsFound r.events = [] →
          eventsAfter isHostsFound ([Event.launch] ++ (r.events ++ [Event.close])) = [.close] := by
        intro h1 h2
        rw [eventsAfter_append_of_none _ _ n1, eventsAfter_append_of_some _ _ (by omega), h2]
        rfl
      cases hc : (env.close r.state.world).1 with
      | error x =>
          simp only []
          refine ⟨g1, g2, g3, ?_⟩
          rcases k4 with ⟨_, h2, h3⟩ | ⟨_, h2⟩
          · exact Or.inl ⟨by omega, hafter h2 h3, Or.inr ⟨x, rfl⟩⟩
          · exact Or.inr ⟨by omega, Or.inr ⟨x, rfl⟩⟩
      | ok _ =>
          simp only []
          refine ⟨g1, g2, g3, ?_⟩
          rcases k4 with ⟨h1, h2, h3⟩ | ⟨h1, h2⟩
          · exact Or.inl ⟨by omega, hafter h2 h3, Or.inl h1⟩
          · exact Or.inr ⟨by omega, Or.inl h1⟩

/-- One iteration of the restart loop, unfolded: a throw of the cycle leaves
the loop, a success breaks it, a failure pauses and goes on. -/
theorem restartLoop_succ (env : Env W) (u p : JsStr) (m n : Nat) (result : LoginResult)
    (s : St W) :
    restartLoop env u p m (n + 1) result s =
      match (browserCycle env u p (m - n) result s).out with
      | .error x =>
          ⟨.error x, .log (.cycleStart u (m - n) m) :: (browserCycle env u p (m - n) result s).events,
            (browserCycle env u p (m - n) result s).state⟩
      | .ok r =>
          if r.success = true then
            ⟨.ok r, .log (.cycleStart u (m - n) m) ::
                ((browserCycle env u p (m - n) result s).events ++ [.log (.accountSucceeded u)]),
              (browserCycle env u p (m - n) result s).state⟩
          else
            (restartLoop env u p m n r (browserCycle env u p (m - n) result s).state).prepend
              (.log (.cycleStart u (m - n) m) ::
                ((browserCycle env u p (m - n) result s).events ++
                  (if m - n < m then [.log (.cycleFailed u (m - n)), .delay 5000] else []))) := by
  simp only [restartLoop, bind_run, log_run]
  cases (browserCycle env u p (m - n) result s).out with
  | error x => rfl
  | ok r =>
      simp only []
      by_cases hr : r.success = true
      · simp [hr, bind_run, log_run, pure_run, Run.prepend]
      · by_cases hlt : m - n < m
        · simp [hr, hlt, bind_run, log_run, delay_run, Run.prepend]
        · simp [hr, hlt, bind_run, pure_run, Run.prepend]

/-- The invariant of the restart loop with `n` cycles left, entered with
`result = { success: false, services: [] }`. -/
theorem restartLoop_spec (env : Env W) (u p : JsStr) (m n : Nat) (s : St W) :
    cycles (restartLoop env u p m n ⟨false, []⟩ s).events ≤ n ∧
    attempts (restartLoop env u p m n ⟨false, []⟩ s).events ≤ 3 * n ∧
    attempts (restartLoop env u p m n ⟨false, []⟩ s).events =
      failedOrEmpty (restartLoop env u p m n ⟨false, []⟩ s).events +
        successes (restartLoop env u p m n ⟨false, []⟩ s).events ∧
    ((successes (restartLoop env u p m n ⟨false, []⟩ s).events = 1 ∧
        (((∃ sv, (restartLoop env u p m n ⟨false, []⟩ s).out = .ok ⟨true, sv⟩) ∧
            eventsAfter isHostsFound (restartLoop env u p m n ⟨false, []⟩ s).events =
              [.close, .log (.accountSucceeded u)]) ∨
          ((∃ x, (restartLoop env u p m n ⟨false, []⟩ s).out = .error x) ∧
            eventsAfter isHostsFound (restartLoop env u p m n ⟨false, []⟩ s).events =
              [.close]))) ∨
      (successes (restartLoop env u p m n ⟨false, []⟩ s).events = 0 ∧
        (((restartLoop env u p m n ⟨false, []⟩ s).out = .ok ⟨false, []⟩ ∧
            cycles (restartLoop env u p m n ⟨false, []⟩ s).events = n) ∨
          ∃ x, (restartLoop env u p m n ⟨false, []⟩ s).out = .error x))) := by
  induction n generalizing s with
  | zero =>
      simp [restartLoop, pure_run, attempts_nil, cycles_nil, successes_nil, failedOrEmpty_nil]
  | succ n ih =>
      obtain ⟨b1, b2, b3, b4⟩ := browserCycle_spec env u p (m - n) s
      have n1 : successes [Event.log (LogMsg.cycleStart u (m - n) m)] = 0 := rfl
      have n2 : successes
          (if m - n < m then [Event.log (.cycleFailed u (m - n)), Event.delay 5000] else []) = 0 := by
        split <;> rfl
      have n3 : attempts
          (if m - n < m then [Event.log (.cycleFailed u (m - n)), Event.delay 5000] else []) = 0 := by
        split <;> rfl
      have n4 : cycles
          (if m - n < m then [Event.log (.cycleFailed u (m - n)), Event.delay 5000] else []) = 0 := by
        split <;> rfl
      have n5 : failedOrEmpty
          (if m - n < m then [Event.log (.cycleFailed u (m - n)), Event.delay 5000] else []) = 0 := by
        split <;> rfl
      have e1 : ∀ es : List Event, attempts (Event.log (.cycleStart u (m - n) m) :: es) = attempts es :=
        fun es => by simp [attempts_cons, isAttemptStart]
      have e2 : ∀ es : List Event, cycles (Event.log (.cycleStart u (m - n) m) :: es) = cycles es + 1 :=
        fun es => by simp [cycles_cons, isCycleStart]
      have e3 : ∀ es : List Event,
          failedOrEmpty (Event.log (.cycleStart u (m - n) m) :: es) = failedOrEmpty es :=
        fun es => by simp [failedOrEmpty_cons, isFailedOrEmpty]
      have e4 : ∀ es : List Event, successes (Event.log (.cycleStart u (m - n) m) :: es) = successes es :=
        fun es => by simp [successes_cons, isHostsFound]
      have e5 : ∀ es : List Event, eventsAfter isHostsFound (Event.log (.cycleStart u (m - n) m) :: es) =
          eventsAfter isHostsFound es :=
        fun es => eventsAfter_append_of_none [_] es n1
      have a1 : attempts [Event.log (LogMsg.accountSucceeded u)] = 0 := rfl
      have a2 : cycles [Event.log (LogMsg.accountSucceeded u)] = 0 := rfl
      have a3 : failedOrEmpty [Event.log (LogMsg.accountSucceeded u)] = 0 := rfl
      have a4 : successes [Event.log (LogMsg.accountSucceeded u)] = 0 := rfl
      rw [restartLoop_succ]
      rcases b4 with ⟨h1, h2, ⟨sv, h3⟩ | ⟨x, h3⟩⟩ | ⟨h1, h3 | ⟨x, h3⟩⟩
      · -- success: `break`
        rw [h3]
        simp only [if_true, e1, e2, e3, e4, e5, attempts_append, cycles_append, successes_append,
          failedOrEmpty_append, a1, a2, a3, a4]
        rw [eventsAfter_append_of_some _ _ (by omega), h2]
        exact ⟨by omega, by omega, by omega, Or.inl ⟨by omega, Or.inl ⟨⟨sv, rfl⟩, rfl⟩⟩⟩
      · -- `browser.close()` threw after a success
        rw [h3]
        simp only [e1, e2, e3, e4, e5]
        exact ⟨by omega, by omega, by omega, Or.inl ⟨by omega, Or.inr ⟨⟨x, rfl⟩, h2⟩⟩⟩
      · -- the cycle failed: pause and next cycle
        rw [h3]
        obtain ⟨c1, c2, c3, c4⟩ :=
          ih (browserCycle env u p (m - n) ⟨false, []⟩ s).state
        simp only [Bool.false_eq_true, if_false, Run.prepend_events, Run.prepend_out,
          List.cons_append, List.append_assoc, e1, e2, e3, e4, e5,
          attempts_append, cycles_append, successes_append, failedOrEmpty_append, n2, n3, n4, n5]
        rw [eventsAfter_append_of_none _ _ h1, eventsAfter_append_of_none _ _ n2]
        refine ⟨by omega, by omega, by omega, ?_⟩
        rcases c4 with ⟨k1, k2⟩ | ⟨k1, k2⟩
        · exact Or.inl ⟨by omega, k2⟩
        · refine Or.inr ⟨by omega, ?_⟩
          rcases k2 with ⟨k3, k4⟩ | k3
          · exact Or.inl ⟨k3, by omega⟩
          · exact Or.inr k3
      · -- `browser.close()` threw after a failed cycle
        rw [h3]
        simp only [e1, e2, e3, e4, e5]
        exact ⟨by omega, by omega, by omega, Or.inr ⟨by omega, Or.inr ⟨x, rfl⟩⟩⟩

/-! ## Theorems: the retry driver of one account -/

/-- The restart loop of one account, summarised: at most five cycles, at most
fifteen attempts, every attempt either failed, read an empty captcha or
succeeded, and at most one attempt succeeded. -/
theorem loginAccount_spec (env : Env W) (account : Account) (s : St W) :
    cycles (loginAccount env account s).events ≤ 5 ∧
    attempts (loginAccount env account s).events ≤ 15 ∧
    attempts (loginAccount env account s).events =
      failedOrEmpty (loginAccount env account s).events +
        successes (loginAccount env account s).events ∧
    ((successes (loginAccount env account s).events = 1 ∧
        (((∃ sv, (loginAccount env account s).out = .ok ⟨true, sv⟩) ∧
            eventsAfter isHostsFound (loginAccount env account s).events =
              [.close, .log (.accountSucceeded account.username)]) ∨
          ((∃ x, (loginAccount env account s).out = .error x) ∧
            eventsAfter isHostsFound (loginAccount env account s).events = [.close]))) ∨
      (successes (loginAccount env account s).events = 0 ∧
        (((loginAccount env account s).out = .ok ⟨false, []⟩ ∧
            cycles (loginAccount env account s).events = 5) ∨
          ∃ x, (loginAccount env account s).out = .error x))) := by
  have h := restartLoop_spec env account.username account.password MAX_BROWSER_RESTARTS
    MAX_BROWSER_RESTARTS s
  simpa [loginAccount, MAX_BROWSER_RESTARTS] using h

/-- C1: for every account and every behaviour of the collaborators, the login
attempts made for the account, summed over all browser cycles, are at most
`5 * 3 = 15`. -/
theorem loginAccount_attempts_le (env : Env W) (account : Account) (s : St W) :
    attempts (loginAccount env account s).events ≤ MAX_BROWSER_RESTARTS * 3 ∧
    MAX_BROWSER_RESTARTS * 3 = 15 :=
  ⟨(loginAccount_spec env account s).2.1, rfl⟩

/-- In `loginWithRetry` nothing follows the success log of an attempt: the
function returns `{ success: true, services }` at once. -/
theorem loginWithRetry_returns_at_success (env : Env W) (username password : JsStr)
    (maxRetries : Nat) (s : St W) (pre post : List Event) (e : Event)
    (he : isHostsFound e = true)
    (h : (loginWithRetry env username password maxRetries s).events = pre ++ e :: post) :
    post = [] ∧ ∃ sv, (loginWithRetry env username password maxRetries s).out = .ok ⟨true, sv⟩ := by
  obtain ⟨-, -, -, h4⟩ := loginLoop_spec env username password maxRetries maxRetries s
  have hle : successes (loginWithRetry env username password maxRetries s).events ≤ 1 := by
    rcases h4 with ⟨-, h5, -⟩ | ⟨-, h5, -⟩ <;> simp only [loginWithRetry] <;> omega
  obtain ⟨hpost, -, -⟩ := eventsAfter_of_split _ pre post e he h hle
  have hpos : successes (loginWithRetry env username password maxRetries s).events ≠ 0 := by
    rw [h, successes_append, successes_cons]
    simp [he]
  rcases h4 with ⟨hout, -, haft⟩ | ⟨-, h5, -⟩
  · exact ⟨by rw [← hpost]; exact haft, hout⟩
  · exact absurd h5 hpos

/-- C2 as stated fails: in the simulated environment whose scrape throws, the
dashboard marker appears in the first attempt of the first cycle, and 14 more
attempts and 4 more browser cycles follow it; the account ends as failed. -/
theorem marker_does_not_stop_attempts :
    attempts (eventsAfter isLoginSucceeded
      (loginAccount (simEnv 0 false true (utf16 "ab12")) sampleAccount sampleState).events) = 14 ∧
    cycles (eventsAfter isLoginSucceeded
      (loginAccount (simEnv 0 false true (utf16 "ab12")) sampleAccount sampleState).events) = 4 ∧
    (loginAccount (simEnv 0 false true (utf16 "ab12")) sampleAccount sampleState).out =
      .ok ⟨false, []⟩ := by
  decide!

/-- C2 amended: if an attempt reaches the dashboard marker and the scrape of
the host names returns (the log of line 129 is emitted), then no later attempt
and no later browser cycle is performed for the account: the only events that
follow are the closing of the browser and, when that does not throw, the log of
line 226 with which `main` leaves the restart loop holding
`{ success: true, services }`. -/
theorem loginAccount_stops_after_success (env : Env W) (account : Account) (s : St W)
    (pre post : List Event) (username : JsStr) (n : Nat)
    (h : (loginAccount env account s).events = pre ++ .log (.hostsFound username n) :: post) :
    attempts post = 0 ∧ cycles post = 0 ∧
    ((post = [.close, .log (.accountSucceeded account.username)] ∧
        ∃ sv, (loginAccount env account s).out = .ok ⟨true, sv⟩) ∨
      (post = [.close] ∧ ∃ x, (loginAccount env account s).out = .error x)) := by
  obtain ⟨-, -, -, h4⟩ := loginAccount_spec env account s
  have hle : successes (loginAccount env account s).events ≤ 1 := by
    rcases h4 with ⟨h5, -⟩ | ⟨h5, -⟩ <;> omega
  obtain ⟨hpost, hpre, -⟩ :=
    eventsAfter_of_split _ pre post (.log (.hostsFound username n)) rfl h hle
  have hpos : successes (loginAccount env account s).events ≠ 0 := by
    rw [h, successes_append, successes_cons]
    simp [isHostsFound]
  rcases h4 with ⟨-, ⟨hout, haft⟩ | ⟨hout, haft⟩⟩ | ⟨h5, -⟩
  · rw [hpost] at haft
    subst haft
    exact ⟨rfl, rfl, Or.inl ⟨rfl, hout⟩⟩
  · rw [hpost] at haft
    subst haft
    exact ⟨rfl, rfl, Or.inr ⟨rfl, hout⟩⟩
  · exact absurd h5 hpos

/-- C2 amended, witness: the simulated environment in which the first attempt
succeeds. -/
theorem loginAccount_stops_after_success_witness :
    (loginAccount (simEnv 0 true true (utf16 "ab12")) sampleAccount sampleState).events =
      sampleSuccessPrefix ++ .log (.hostsFound sampleAccount.username 1) ::
        [.close, .log (.accountSucceeded sampleAccount.username)] ∧
    attempts [Event.close, .log (.accountSucceeded sampleAccount.username)] = 0 ∧
    cycles [Event.close, .log (.accountSucceeded sampleAccount.username)] = 0 :=
  have h : (loginAccount (simEnv 0 true true (utf16 "ab12")) sampleAccount sampleState).events =
      sampleSuccessPrefix ++ .log (.hostsFound sampleAccount.username 1) ::
        [.close, .log (.accountSucceeded sampleAccount.username)] := by decide!
  ⟨h, (loginAccount_stops_after_success _ _ _ _ _ _ _ h).1,
    (loginAccount_stops_after_success _ _ _ _ _ _ _ h).2.1⟩

/-- C3, at the failing input: the marker never appears and `browser.close()`
throws; the restart loop is left by the throw after one cycle of three
attempts, without a result. -/
theorem close_throw_ends_restart_loop :
    (loginAccount (blindEnv false) sampleAccount sampleState).out =
      .error (utf16 "Target closed.") ∧
    cycles (loginAccount (blindEnv false) sampleAccount sampleState).events = 1 ∧
    attempts (loginAccount (blindEnv false) sampleAccount sampleState).events = 3 ∧
    (loginAccount (blindEnv false) sampleAccount
      sampleState).events.countP isLoginSucceeded = 0 := by
  decide!

/-- When no attempt of an account succeeds, the driver either returns
`{ success: false, services: [] }` after exactly five browser cycles or is
left by a throw. -/
theorem loginAccount_without_success (env : Env W) (account : Account) (s : St W)
    (h : successes (loginAccount env account s).events = 0) :
    ((loginAccount env account s).out = .ok ⟨false, []⟩ ∧
      cycles (loginAccount env account s).events = 5) ∨
    ∃ x, (loginAccount env account s).out = .error x := by
  obtain ⟨-, -, -, h4⟩ := loginAccount_spec env account s
  rcases h4 with ⟨h5, -⟩ | ⟨-, h6⟩
  · omega
  · exact h6

/-- C9 as stated fails: in the simulated environment whose marker appears at
the fifteenth wait, fifteen attempts are made, only fourteen of them failed or
read an empty captcha, and the fifteenth succeeded. -/
theorem full_budget_with_success :
    attempts (loginAccount (simEnv 14 true true (utf16 "ab12")) sampleAccount sampleState).events = 15 ∧
    failedOrEmpty (loginAccount (simEnv 14 true true (utf16 "ab12")) sampleAccount sampleState).events = 14 ∧
    (loginAccount (simEnv 14 true true (utf16 "ab12")) sampleAccount sampleState).out =
      .ok ⟨true, [utf16 "vps-1.example.com"]⟩ := by
  decide!

/-- C9 amended: the total number of login attempts of an account equals 15
only if every one of the first 14 attempts failed or read an empty captcha;
the fifteenth either did the same or succeeded, and a success is followed by no
further attempt. -/
theorem attempts_full_budget (env : Env W) (account : Account) (s : St W)
    (h : attempts (loginAccount env account s).events = 15) :
    (failedOrEmpty (loginAccount env account s).events = 15 ∧
      successes (loginAccount env account s).events = 0) ∨
    (failedOrEmpty (loginAccount env account s).events = 14 ∧
      successes (loginAccount env account s).events = 1 ∧
      attempts (eventsAfter isHostsFound (loginAccount env account s).events) = 0) := by
  obtain ⟨-, -, h3, h4⟩ := loginAccount_spec env account s
  rcases h4 with ⟨h5, ⟨-, haft⟩ | ⟨-, haft⟩⟩ | ⟨h5, -⟩
  · exact Or.inr ⟨by omega, h5, by rw [haft]; rfl⟩
  · exact Or.inr ⟨by omega, h5, by rw [haft]; rfl⟩
  · exact Or.inl ⟨by omega, h5⟩

/-- C9 amended, witness: the simulated environment whose marker never
appears. -/
theorem attempts_full_budget_witness :
    attempts (loginAccount (blindEnv true) sampleAccount sampleState).events = 15 ∧
    ((failedOrEmpty (loginAccount (blindEnv true) sampleAccount
          sampleState).events = 15 ∧
        successes (loginAccount (blindEnv true) sampleAccount
          sampleState).events = 0) ∨
      (failedOrEmpty (loginAccount (blindEnv true) sampleAccount
          sampleState).events = 14 ∧
        successes (loginAccount (blindEnv true) sampleAccount
          sampleState).events = 1 ∧
        attempts (eventsAfter isHostsFound (loginAccount (blindEnv true)
          sampleAccount sampleState).events) = 0)) :=
  ⟨by decide!, attempts_full_budget _ _ _ (by decide!)⟩

/-- C10: for every behaviour of the page and OCR collaborators, including a
throw at any step of any attempt, `loginWithRetry` does not throw and returns
either `{ success: true, services }` or `{ success: false, services: [] }`. -/
theorem loginWithRetry_never_throws (env : Env W) (username password : JsStr) (maxRetries : Nat)
    (s : St W) :
    (∃ services, (loginWithRetry env username password maxRetries s).out = .ok ⟨true, services⟩) ∨
    (loginWithRetry env username password maxRetries s).out = .ok ⟨false, []⟩ := by
  obtain ⟨-, -, -, h4⟩ := loginLoop_spec env username password maxRetries maxRetries s
  rcases h4 with ⟨h5, -⟩ | ⟨h5, -⟩
  · exact Or.inl h5
  · exact Or.inr h5

/-! ## Theorems: an environment whose marker never appears -/

/-- Without the dashboard marker the submission of the form ends in a throw. -/
theorem submitLogin_no_marker (env : Env W) (u : JsStr) (a : Nat) (code : JsStr) (s : St W)
    (hm : ∀ w, ∃ x, (env.waitForSelector dashboardSelector w).1 = .error x) :
    ∃ x, (submitLogin env u a code s).out = .error x := by
  simp only [submitLogin, bind_run, log_run, call_run, Run.prepend_out]
  cases (env.fill "#inputCaptcha" code s.world).1 with
  | error x => exact ⟨x, rfl⟩
  | ok _ =>
      simp only [Run.prepend_out]
      cases (env.click "#login" (env.fill "#inputCaptcha" code s.world).2).1 with
      | error x => exact ⟨x, rfl⟩
      | ok _ =>
          simp only [Run.prepend_out]
          obtain ⟨x, hx⟩ := hm (env.click "#login" (env.fill "#inputCaptcha" code s.world).2).2
          rw [hx]
          exact ⟨x, rfl⟩

/-- Without the dashboard marker an attempt never returns. -/
theorem attemptStep_no_marker (env : Env W) (u p : JsStr) (a m : Nat) (s : St W)
    (hm : ∀ w, ∃ x, (env.waitForSelector dashboardSelector w).1 = .error x) :
    (attemptStep env u p a m s).out = .ok .next ∨
    (attemptStep env u p a m s).out = .ok .continue_ := by
  have htry : (∃ x, (attemptTry env u p a m s).out = .error x) ∨
      (attemptTry env u p a m s).out = .ok .continue_ := by
    simp only [attemptTry, bind_run]
    cases (readCaptcha env u p a m s).out with
    | error x => exact Or.inl ⟨x, rfl⟩
    | ok code =>
        by_cases hcode : code = []
        · simp [hcode, bind_run, log_run, delay_run, pure_run]
        · simp only [hcode, if_false, Run.prepend_out]
          exact Or.inl (submitLogin_no_marker env u a code _ hm)
  rcases htry with ⟨x, hx⟩ | hc
  · left
    rw [attemptStep, tryCatch_error _ _ _ _ hx]
    rfl
  · right
    rw [attemptStep, tryCatch_ok _ _ _ _ hc]
    exact hc

/-- Without the dashboard marker `loginWithRetry` returns
`{ success: false, services: [] }`. -/
theorem loginLoop_no_marker (env : Env W) (u p : JsStr) (m n : Nat) (s : St W)
    (hm : ∀ w, ∃ x, (env.waitForSelector dashboardSelector w).1 = .error x) :
    (loginLoop env u p m n s).out = .ok ⟨false, []⟩ := by
  induction n generalizing s with
  | zero => rfl
  | succ n ih =>
      rw [loginLoop]
      rcases attemptStep_no_marker env u p (m - n) m s hm with h | h
      · rw [bind_ok _ _ _ _ h]
        simp only [Run.prepend_out]
        rw [bind_ok _ _ _ _ (backoff_spec env (m - n) m _).1]
        exact ih _
      · rw [bind_ok _ _ _ _ h]
        exact ih _

/-- Without the dashboard marker and with a `browser.close()` that returns, a
browser cycle leaves `result` at `{ success: false, services: [] }`. -/
theorem browserCycle_no_marker (env : Env W) (u p : JsStr) (c : Nat) (s : St W)
    (hm : ∀ w, ∃ x, (env.waitForSelector dashboardSelector w).1 = .error x)
    (hc : ∀ w, (env.close w).1 = .ok ()) :
    (browserCycle env u p c ⟨false, []⟩ s).out = .ok ⟨false, []⟩ := by
  simp only [browserCycle, bind_run, attempt_run, call_run]
  cases (env.launch s.world).1 with
  | error x => rfl
  | ok _ =>
      simp only [Run.prepend_out]
      generalize St.mk (env.launch s.world).2 s.notificationSummary = s1
      have hinner : (Js.tryCatch (cycleTry env u p) (cycleCatch u c ⟨false, []⟩) s1).out =
          .ok ⟨false, []⟩ := by
        have htry : (cycleTry env u p s1).out = .ok ⟨false, []⟩ ∨
            ∃ x, (cycleTry env u p s1).out = .error x := by
          simp only [cycleTry, bind_run, call_run]
          cases (env.newContext s1.world).1 with
          | error x => exact Or.inr ⟨x, rfl⟩
          | ok _ =>
              simp only [Run.prepend_out]
              cases (env.newPage (env.newContext s1.world).2).1 with
              | error x => exact Or.inr ⟨x, rfl⟩
              | ok _ =>
                  simp only [Run.prepend_out]
                  exact Or.inl (loginLoop_no_marker env u p 3 3 _ hm)
        rcases htry with h | ⟨x, h⟩
        · rw [tryCatch_ok _ _ _ _ h]
          exact h
        · rw [tryCatch_error _ _ _ _ h]
          rfl
      rw [tryFinally_run]
      simp only [call_run, hc]
      exact hinner

/-- In an environment whose dashboard marker never appears and whose
`browser.close()` always returns, the driver finishes every account with
`{ success: false, services: [] }` after exactly five browser cycles. -/
theorem loginAccount_exhausts (env : Env W) (account : Account) (s : St W)
    (hm : ∀ w, ∃ x, (env.waitForSelector dashboardSelector w).1 = .error x)
    (hc : ∀ w, (env.close w).1 = .ok ()) :
    (loginAccount env account s).out = .ok ⟨false, []⟩ ∧
    cycles (loginAccount env account s).events = 5 := by
  have hout : ∀ n s, (restartLoop env account.username account.password MAX_BROWSER_RESTARTS n
      ⟨false, []⟩ s).out = .ok ⟨false, []⟩ := by
    intro n
    induction n with
    | zero => intro s; rfl
    | succ n ih =>
        intro s
        rw [restartLoop_succ, browserCycle_no_marker env _ _ _ s hm hc]
        simp only [Bool.false_eq_true, if_false, Run.prepend_out]
        exact ih _
  have h1 : (loginAccount env account s).out = .ok ⟨false, []⟩ := hout _ s
  obtain ⟨-, -, -, h4⟩ := loginAccount_spec env account s
  refine ⟨h1, ?_⟩
  rcases h4 with ⟨-, ⟨⟨sv, h5⟩, -⟩ | ⟨⟨x, h5⟩, -⟩⟩ | ⟨-, ⟨-, h6⟩ | ⟨x, h5⟩⟩
  · rw [h1] at h5; cases h5
  · rw [h1] at h5; cases h5
  · exact h6
  · rw [h1] at h5; cases h5

/-- The conditions of `loginAccount_exhausts` hold in the simulated
environment whose heading never appears. -/
theorem loginAccount_exhausts_blindEnv :
    (loginAccount (blindEnv true) sampleAccount sampleState).out = .ok ⟨false, []⟩ ∧
    cycles (loginAccount (blindEnv true) sampleAccount sampleState).events = 5 :=
  loginAccount_exhausts (blindEnv true) sampleAccount sampleState
    (fun w => ⟨utf16 "Timeout 35000ms exceeded.", by simp [blindEnv]⟩)
    (fun w => by simp [blindEnv, simEnv])

/-! ## Theorems: empty captcha reads -/

/-- C8: in every attempt whose cleaned captcha text is empty the login form
is not submitted (the captcha field is not filled, no button is clicked): the
attempt only logs, waits two seconds and executes `continue`; it still is one
attempt, and the loop goes on with one iteration less to run. -/
theorem empty_captcha_not_submitted (env : Env W) (username password : JsStr)
    (maxRetries r : Nat) (s : St W)
    (h : (readCaptcha env username password (maxRetries - r) maxRetries s).out = .ok []) :
    (attemptStep env username password (maxRetries - r) maxRetries s).out = .ok .continue_ ∧
    (attemptStep env username password (maxRetries - r) maxRetries s).events =
      (readCaptcha env username password (maxRetries - r) maxRetries s).events ++
        [.log (.captchaEmpty (maxRetries - r)), .delay 2000] ∧
    (attemptStep env username password (maxRetries - r) maxRetries s).events.countP isSubmit = 0 ∧
    attempts (attemptStep env username password (maxRetries - r) maxRetries s).events = 1 ∧
    loginLoop env username password maxRetries (r + 1) s =
      (loginLoop env username password maxRetries r
        (attemptStep env username password (maxRetries - r) maxRetries s).state).prepend
        (attemptStep env username password (maxRetries - r) maxRetries s).events := by
  obtain ⟨r1, -, -, -, r5⟩ := readCaptcha_counts env username password (maxRetries - r) maxRetries s
  have htry : attemptTry env username password (maxRetries - r) maxRetries s =
      ⟨.ok .continue_,
        (readCaptcha env username password (maxRetries - r) maxRetries s).events ++
          [.log (.captchaEmpty (maxRetries - r)), .delay 2000],
        (readCaptcha env username password (maxRetries - r) maxRetries s).state⟩ := by
    unfold attemptTry
    rw [bind_ok _ _ _ _ h]
    simp [bind_run, log_run, delay_run, pure_run, Run.prepend]
  have hstep : attemptStep env username password (maxRetries - r) maxRetries s =
      attemptTry env username password (maxRetries - r) maxRetries s := by
    unfold attemptStep
    rw [tryCatch_ok _ _ _ .continue_ (by rw [htry])]
  have hout : (attemptStep env username password (maxRetries - r) maxRetries s).out =
      .ok .continue_ := by rw [hstep, htry]
  refine ⟨hout, by rw [hstep, htry], ?_, ?_, ?_⟩
  · rw [hstep, htry]
    simp only [List.countP_append, r5]
    rfl
  · rw [hstep, htry]
    simp only [attempts_append, r1]
    rfl
  · rw [loginLoop]
    rw [bind_ok _ _ _ _ hout]

/-- C8, witness: OCR reads only punctuation in the simulated environment. -/
theorem empty_captcha_not_submitted_witness :
    (readCaptcha (simEnv 0 true true (utf16 " ?! ")) sampleAccount.username sampleAccount.password
      (3 - 2) 3 sampleState).out = .ok [] ∧
    (attemptStep (simEnv 0 true true (utf16 " ?! ")) sampleAccount.username
      sampleAccount.password (3 - 2) 3 sampleState).events.countP isSubmit = 0 ∧
    attempts (attemptStep (simEnv 0 true true (utf16 " ?! ")) sampleAccount.username
      sampleAccount.password (3 - 2) 3 sampleState).events = 1 :=
  have h : (readCaptcha (simEnv 0 true true (utf16 " ?! ")) sampleAccount.username
      sampleAccount.password (3 - 2) 3 sampleState).out = .ok [] := by decide!
  ⟨h, (empty_captcha_not_submitted _ _ _ 3 2 _ h).2.2.1,
    (empty_captcha_not_submitted _ _ _ 3 2 _ h).2.2.2.1⟩

/-- With an OCR that never reads a character, a browser cycle makes exactly
three attempts, none of which submits the form. -/
theorem empty_reads_use_all_slots :
    attempts (loginWithRetry (simEnv 0 true true (utf16 " ?! ")) sampleAccount.username
      sampleAccount.password 3 sampleState).events = 3 ∧
    (loginWithRetry (simEnv 0 true true (utf16 " ?! ")) sampleAccount.username
      sampleAccount.password 3 sampleState).events.countP isSubmit = 0 ∧
    (loginWithRetry (simEnv 0 true true (utf16 " ?! ")) sampleAccount.username
      sampleAccount.password 3 sampleState).out = .ok ⟨false, []⟩ := by
  decide!

/-! ## Theorems: a throw of `browser.close()` -/

/-- C4, at the failing input: the first of two accounts logs in at its first
attempt and `browser.close()` then throws.  The throw leaves the account loop:
the report gets the error entry of line 253 and the closing line, no entry for
the account that logged in, and no browser cycle is started for the second
account. -/
theorem close_throw_loses_result :
    successes (runAccounts (simEnv 0 true false (utf16 "ab12")) [sampleAccount, otherAccount]
      sampleState).events = 1 ∧
    cycles (runAccounts (simEnv 0 true false (utf16 "ab12")) [sampleAccount, otherAccount]
      sampleState).events = 1 ∧
    (runAccounts (simEnv 0 true false (utf16 "ab12")) [sampleAccount, otherAccount]
      sampleState).state.notificationSummary =
      utf16 "R:" ++ utf16 "\n\n❌ **严重错误**: Target closed." ++ utf16 "\n\n✅ 所有账号处理完毕。" := by
  decide!

/-- The same run with a `browser.close()` that returns: both accounts are
reported as logged in with their host names. -/
theorem close_return_reports_all :
    (runAccounts (simEnv 0 true true (utf16 "ab12")) [sampleAccount, otherAccount]
      sampleState).state.notificationSummary =
      utf16 "R:" ++
        accountReport sampleAccount.username ⟨true, [utf16 "vps-1.example.com"]⟩ ++
        accountReport otherAccount.username ⟨true, [utf16 "vps-1.example.com"]⟩ ++
        utf16 "\n\n✅ 所有账号处理完毕。" ∧
    cycles (runAccounts (simEnv 0 true true (utf16 "ab12")) [sampleAccount, otherAccount]
      sampleState).events = 2 := by
  decide!

/-! ## Theorems: the notification -/

/-- With both Telegram variables set, the first event of `sendTgNotification`
is the post of the payload whose text is `truncatedMessage message`. -/
theorem sendTgNotification_posts (env : Env W) (message : JsStr) (s : St W)
    (h1 : envSet env "TG_BOT_TOKEN" s = true) (h2 : envSet env "TG_USER_ID" s = true) :
    (sendTgNotification env message s).events.head? =
      some (.httpPost (truncatedMessage message)) := by
  unfold sendTgNotification
  simp only [h1, h2, Bool.not_true, Bool.or_self, Bool.false_eq_true, if_false]
  simp only [tryCatch_run, bind_run, call_run, log_run]
  cases (env.httpPost (truncatedMessage message) s.world).1 <;> rfl

/-- C5, at the failing input: a report of 4097 code units is posted as a text
of 4097 code units, one more than `MAX_LENGTH`. -/
theorem sendTgNotification_too_long :
    (sendTgNotification (simEnv 0 true true []) (List.replicate 4097 97) sampleState).events.head? =
      some (.httpPost (List.replicate 4086 97 ++ truncationMarker)) ∧
    (List.replicate 4086 97 ++ truncationMarker).length = 4097 ∧
    ¬ (List.replicate 4086 97 ++ truncationMarker).length ≤ MAX_LENGTH := by
  have h := sendTgNotification_posts (simEnv 0 true true []) (List.replicate 4097 97) sampleState
    (by decide) (by decide)
  have ht := (truncatedMessage_long (List.replicate 4097 97)
    (by rw [List.length_replicate]; decide))
  have hk : (List.replicate 4097 97).take (MAX_LENGTH - 10) = List.replicate 4086 (97 : Nat) := by
    rw [List.take_replicate]
    rfl
  rw [ht.1, hk] at h
  have hlen : (List.replicate 4086 (97 : Nat) ++ truncationMarker).length = 4097 := by
    rw [List.length_append, List.length_replicate, truncationMarker_length]
  refine ⟨h, hlen, ?_⟩
  rw [hlen]
  decide

/-! ## Theorems: `split` -/

theorem dashes_eq : utf16 "----" = [45, 45, 45, 45] := by decide
theorem newline_eq : utf16 "\n" = [10] := by decide

/-- Passing over the rest of a matched separator. -/
theorem splitGo_skip (sep xs rest cur : JsStr) :
    splitGo sep (xs ++ rest) xs.length cur = splitGo sep rest 0 cur := by
  induction xs with
  | nil => rfl
  | cons x xs ih => simpa [splitGo] using ih

/-- A separator at the scanning position ends the current piece. -/
theorem splitGo_match (d : Nat) (ds rest cur : JsStr) :
    splitGo (d :: ds) ((d :: ds) ++ rest) 0 cur = cur :: splitGo (d :: ds) rest 0 [] := by
  have hp : (d :: ds).isPrefixOf (d :: (ds ++ rest)) = true := by
    rw [List.isPrefixOf_iff_prefix]
    exact List.prefix_append (d :: ds) rest
  have hlen : (d :: ds).length - 1 = ds.length := by simp
  show splitGo (d :: ds) (d :: (ds ++ rest)) 0 cur = _
  rw [splitGo, if_pos hp, hlen, splitGo_skip]

/-- Code units at which no separator starts are added to the current piece. -/
theorem splitGo_nomatch (sep a t cur : JsStr)
    (h : ∀ a1 a2, a = a1 ++ a2 → a2 ≠ [] → ¬ sep <+: a2 ++ t) :
    splitGo sep (a ++ t) 0 cur = splitGo sep t 0 (cur ++ a) := by
  induction a generalizing cur with
  | nil => simp
  | cons c cs ih =>
      have hp : sep.isPrefixOf (c :: (cs ++ t)) = false := by
        cases hq : sep.isPrefixOf (c :: (cs ++ t))
        · rfl
        · rw [List.isPrefixOf_iff_prefix] at hq
          exact absurd hq (h [] (c :: cs) rfl (by simp))
      show splitGo sep (c :: (cs ++ t)) 0 cur = _
      rw [splitGo, hp]
      simp only [Bool.false_eq_true, if_false]
      rw [ih (cur ++ [c]) (fun a1 a2 h1 h2 => h (c :: a1) a2 (by rw [h1]; rfl) h2)]
      simp

/-- A string without the separator is one piece. -/
theorem splitGo_none (sep b cur : JsStr) (h : ¬ sep <:+: b) :
    splitGo sep b 0 cur = [cur ++ b] := by
  have := splitGo_nomatch sep b [] cur (fun a1 a2 h1 _ hp => by
    apply h
    rw [List.append_nil] at hp
    obtain ⟨t, ht⟩ := hp
    exact ⟨a1, t, by rw [h1, ← ht, List.append_assoc]⟩)
  simpa [splitGo] using this

/-- Splitting joined lines at the newline gives the lines back. -/
theorem split_joinLines (lines : List JsStr) (hne : lines ≠ []) (h : ∀ l ∈ lines, 10 ∉ l) :
    split (joinLines lines) (utf16 "\n") = lines := by
  have hno : ∀ (l t : JsStr), 10 ∉ l →
      ∀ a1 a2, l = a1 ++ a2 → a2 ≠ [] → ¬ [10] <+: a2 ++ t := by
    intro l t hl a1 a2 h1 h2 hp
    cases a2 with
    | nil => exact h2 rfl
    | cons x xs =>
        rw [List.cons_append, List.cons_prefix_cons] at hp
        apply hl
        rw [h1, hp.1]
        simp
  rw [newline_eq]
  unfold split
  induction lines with
  | nil => exact absurd rfl hne
  | cons l ls ih =>
      cases ls with
      | nil =>
          have hl : ¬ [10] <:+: l := by
            rintro ⟨s, t, hst⟩
            exact h l (List.mem_cons_self _ _) (by rw [← hst]; simp)
          simpa [joinLines] using splitGo_none [10] l [] hl
      | cons l2 ls2 =>
          have h2 : ∀ l ∈ l2 :: ls2, 10 ∉ l := fun x hx => h x (List.mem_cons_of_mem _ hx)
          have ih2 := ih (by simp) h2
          rw [joinLines, newline_eq, List.append_assoc,
            splitGo_nomatch [10] l _ [] (hno l _ (h l (List.mem_cons_self _ _))),
            splitGo_match 10 [] _ _, ih2]
          simp
          · simp

/-- A line `identifier----secret` splits into its two fields when neither
field holds `'----'` and the identifier does not end with `'-'`. -/
theorem split_accountLine (u p : JsStr) (hu : ¬ utf16 "----" <:+: u)
    (hlast : u.getLast? ≠ some 45) (hp : ¬ utf16 "----" <:+: p) :
    split (u ++ utf16 "----" ++ p) (utf16 "----") = [u, p] := by
  rw [dashes_eq] at *
  have hno : ∀ a1 a2, u = a1 ++ a2 → a2 ≠ [] → ¬ [45, 45, 45, 45] <+: a2 ++ ([45, 45, 45, 45] ++ p) := by
    intro a1 a2 h1 h2 hpre
    match a2, h2 with
    | [x], _ =>
        simp only [List.cons_append, List.nil_append, List.cons_prefix_cons] at hpre
        apply hlast
        rw [h1, ← hpre.1]
        simp
    | [x, y], _ =>
        simp only [List.cons_append, List.nil_append, List.cons_prefix_cons] at hpre
        apply hlast
        rw [h1, ← hpre.2.1]
        simp
    | [x, y, z], _ =>
        simp only [List.cons_append, List.nil_append, List.cons_prefix_cons] at hpre
        apply hlast
        rw [h1, ← hpre.2.2.1]
        simp
    | x :: y :: z :: w :: rest, _ =>
        simp only [List.cons_append, List.cons_prefix_cons] at hpre
        apply hu
        refine ⟨a1, rest, ?_⟩
        rw [h1, ← hpre.1, ← hpre.2.1, ← hpre.2.2.1, ← hpre.2.2.2.1]
        simp
  unfold split
  rw [List.append_assoc, splitGo_nomatch _ u _ [] hno, splitGo_match 45 [45, 45, 45] p,
    splitGo_none _ p [] hp]
  simp

/-! ## Theorems: `trim` around the account lines -/

theorem dropWhile_append_cons (f : Nat → Bool) (a b : JsStr) (c : Nat) (hc : f c = false) :
    (a ++ c :: b).dropWhile f = a.dropWhile f ++ c :: b := by
  induction a with
  | nil => simp [List.dropWhile, hc]
  | cons x xs ih =>
      cases hx : f x
      · simp [List.dropWhile, hx]
      · simpa [List.dropWhile, hx] using ih

/-- Leading whitespace ends at the first code unit that is not whitespace. -/
theorem trimStart_append_cons (a b : JsStr) (c : Nat) (hc : isJsWhitespace c = false) :
    trimStart (a ++ c :: b) = trimStart a ++ c :: b :=
  dropWhile_append_cons _ a b c hc

/-- Trailing whitespace starts after the last code unit that is not
whitespace. -/
theorem trimEnd_append_cons (a b : JsStr) (c : Nat) (hc : isJsWhitespace c = false) :
    trimEnd (a ++ c :: b) = a ++ c :: trimEnd b := by
  unfold trimEnd
  have h1 : (a ++ c :: b).reverse = b.reverse ++ c :: a.reverse := by simp
  rw [h1, dropWhile_append_cons _ _ _ _ hc]
  simp

theorem trimStart_idem (s : JsStr) : trimStart (trimStart s) = trimStart s :=
  List.dropWhile_idempotent _ _

theorem trimEnd_idem (s : JsStr) : trimEnd (trimEnd s) = trimEnd s := by
  unfold trimEnd
  rw [List.reverse_reverse, List.dropWhile_idempotent _ _]

theorem trimStart_trimEnd_comm (s : JsStr) : trimStart (trimEnd s) = trimEnd (trimStart s) := by
  cases hd : s.dropWhile isJsWhitespace with
  | nil =>
      have hall : ∀ x ∈ s, isJsWhitespace x = true := List.dropWhile_eq_nil_iff.mp hd
      have h1 : trimStart s = [] := hd
      have h2 : trimEnd s = [] := by
        unfold trimEnd
        rw [List.dropWhile_eq_nil_iff.mpr (fun x hx => hall x (List.mem_reverse.mp hx))]
        rfl
      rw [h1, h2]
      rfl
  | cons c t =>
      have hc : isJsWhitespace c = false := by
        have h := List.head_dropWhile_not isJsWhitespace s (by rw [hd]; simp)
        simpa [hd] using h
      have hs : s = s.takeWhile isJsWhitespace ++ c :: t := by
        rw [← hd, List.takeWhile_append_dropWhile]
      have hw : trimStart (s.takeWhile isJsWhitespace) = [] :=
        List.dropWhile_eq_nil_iff.mpr (fun x hx => (List.mem_takeWhile_imp hx))
      have h1 : trimStart s = c :: t := hd
      rw [h1]
      conv_lhs => rw [hs]
      rw [trimEnd_append_cons _ _ _ hc, trimStart_append_cons _ _ _ hc, hw]
      exact (trimEnd_append_cons [] t c hc).symm

theorem trim_trimStart (s : JsStr) : trim (trimStart s) = trim s := by
  unfold trim
  rw [trimStart_idem]

theorem trim_trimEnd (s : JsStr) : trim (trimEnd s) = trim s := by
  unfold trim
  rw [trimStart_trimEnd_comm, trimEnd_idem]

/-! ## Theorems: parsing the account list -/

theorem accountLine_eq (a : Account) :
    accountLine a = a.username ++ 45 :: ([45, 45] ++ 45 :: a.password) := by
  simp [accountLine, dashes_eq]

/-- The joined lines start with the first identifier and a dash. -/
theorem joinLines_head (a : Account) (rest : List Account) :
    ∃ tail, joinLines ((a :: rest).map accountLine) = a.username ++ 45 :: tail := by
  cases rest with
  | nil => exact ⟨[45, 45] ++ 45 :: a.password, by simp [joinLines, accountLine_eq]⟩
  | cons b bs =>
      exact ⟨[45, 45] ++ 45 :: a.password ++ utf16 "\n" ++ joinLines ((b :: bs).map accountLine),
        by simp [joinLines, accountLine_eq]⟩

theorem trimStart_joinLines (accs : List Account) :
    trimStart (joinLines (accs.map accountLine)) = joinLines ((trimFirst accs).map accountLine) := by
  cases accs with
  | nil => rfl
  | cons a rest =>
      cases rest with
      | nil =>
          simp only [trimFirst, List.map, joinLines, accountLine_eq]
          exact trimStart_append_cons _ _ _ (by decide)
      | cons b bs =>
          simp only [trimFirst, List.map, joinLines, accountLine_eq, List.append_assoc,
            List.cons_append]
          exact trimStart_append_cons _ _ _ (by decide)

theorem trimEnd_joinLines (accs : List Account) :
    trimEnd (joinLines (accs.map accountLine)) = joinLines ((trimLast accs).map accountLine) := by
  induction accs with
  | nil => rfl
  | cons a rest ih =>
      cases rest with
      | nil =>
          simp only [trimLast, List.map, joinLines, accountLine_eq]
          have := trimEnd_append_cons (a.username ++ 45 :: [45, 45]) a.password 45 (by decide)
          simpa using this
      | cons b bs =>
          obtain ⟨tail, ht⟩ := joinLines_head b bs
          obtain ⟨tail2, ht2⟩ : ∃ tail2, trimLast (b :: bs) = ⟨b.username, tail2⟩ :: (trimLast (b :: bs)).tail ∧
              True := by
            cases bs with
            | nil => exact ⟨_, rfl, trivial⟩
            | cons c cs => exact ⟨_, rfl, trivial⟩
          have hl : trimLast (a :: b :: bs) = a :: trimLast (b :: bs) := rfl
          have hj : ∀ l : List Account, l ≠ [] →
              joinLines ((a :: l).map accountLine) =
                accountLine a ++ utf16 "\n" ++ joinLines (l.map accountLine) := by
            intro l hl
            cases l with
            | nil => exact absurd rfl hl
            | cons x xs => rfl
          have e : accountLine a ++ utf16 "\n" ++ (b.username ++ 45 :: tail) =
              (accountLine a ++ utf16 "\n" ++ b.username) ++ 45 :: tail := by simp
          have hc : isJsWhitespace 45 = false := by decide
          rw [hl, hj _ (by simp), hj _ (by rw [ht2.1]; simp), ← ih, ht, e,
            trimEnd_append_cons _ _ _ hc, trimEnd_append_cons _ _ _ hc]
          simp

theorem goodAccount_line (a : Account) (h : GoodAccount a) :
    10 ∉ accountLine a ∧ parseLine (accountLine a) = some (trimAccount a) := by
  obtain ⟨⟨h1, h2⟩, ⟨h3, h4⟩, h5⟩ := h
  constructor
  · simp [accountLine, dashes_eq, h1, h3]
  · unfold parseLine accountLine
    rw [split_accountLine _ _ h2 h5 h4]
    rfl

theorem filterMap_parseLine (accs : List Account) (h : ∀ a ∈ accs, GoodAccount a) :
    (accs.map accountLine).filterMap parseLine = accs.map trimAccount := by
  induction accs with
  | nil => rfl
  | cons a rest ih =>
      have ha := (goodAccount_line a (h a (List.mem_cons_self _ _))).2
      have ih2 := ih (fun x hx => h x (List.mem_cons_of_mem _ hx))
      simp only [List.map, List.filterMap_cons, ha]
      rw [← ih2]

theorem plainField_of_part (s t : JsStr) (h : PlainField s) (ht : t <:+: s) : PlainField t :=
  ⟨fun hm => h.1 (ht.subset hm), fun hd => h.2 (hd.trans ht)⟩

theorem goodAccount_trimStart (a : Account) (h : GoodAccount a) :
    GoodAccount ⟨trimStart a.username, a.password⟩ := by
  obtain ⟨h1, h2, h3⟩ := h
  have hs : trimStart a.username <:+ a.username := List.dropWhile_suffix _
  refine ⟨plainField_of_part _ _ h1 hs.isInfix, h2, ?_⟩
  obtain ⟨t, ht⟩ := hs
  intro hl
  apply h3
  have hne : trimStart a.username ≠ [] := by
    intro he
    simp [he] at hl
  show a.username.getLast? = some 45
  rw [← ht, List.getLast?_append_of_ne_nil _ hne]
  exact hl

theorem goodAccount_trimEnd (a : Account) (h : GoodAccount a) :
    GoodAccount ⟨a.username, trimEnd a.password⟩ := by
  obtain ⟨h1, h2, h3⟩ := h
  have hs : trimEnd a.password <+: a.password := by
    unfold trimEnd
    have := List.dropWhile_suffix (l := a.password.reverse) isJsWhitespace
    have h := List.reverse_prefix.mpr this
    rwa [List.reverse_reverse] at h
  exact ⟨h1, plainField_of_part _ _ h2 hs.isInfix, h3⟩

theorem goodAccount_trimFirst (accs : List Account) (h : ∀ a ∈ accs, GoodAccount a) :
    ∀ a ∈ trimFirst accs, GoodAccount a := by
  cases accs with
  | nil => exact h
  | cons x xs =>
      intro a ha
      simp only [trimFirst, List.mem_cons] at ha
      rcases ha with rfl | ha
      · exact goodAccount_trimStart x (h x (List.mem_cons_self _ _))
      · exact h a (List.mem_cons_of_mem _ ha)

theorem goodAccount_trimLast (accs : List Account) (h : ∀ a ∈ accs, GoodAccount a) :
    ∀ a ∈ trimLast accs, GoodAccount a := by
  induction accs with
  | nil => exact h
  | cons x xs ih =>
      cases xs with
      | nil =>
          intro a ha
          simp only [trimLast, List.mem_singleton] at ha
          subst ha
          exact goodAccount_trimEnd x (h x (List.mem_cons_self _ _))
      | cons y ys =>
          intro a ha
          have hl : trimLast (x :: y :: ys) = x :: trimLast (y :: ys) := rfl
          rw [hl, List.mem_cons] at ha
          rcases ha with rfl | ha
          · exact h a (List.mem_cons_self _ _)
          · exact ih (fun b hb => h b (List.mem_cons_of_mem _ hb)) a ha

theorem map_trimAccount_trimFirst (accs : List Account) :
    (trimFirst accs).map trimAccount = accs.map trimAccount := by
  cases accs with
  | nil => rfl
  | cons x xs => simp [trimFirst, trimAccount, trim_trimStart]

theorem map_trimAccount_trimLast (accs : List Account) :
    (trimLast accs).map trimAccount = accs.map trimAccount := by
  induction accs with
  | nil => rfl
  | cons x xs ih =>
      cases xs with
      | nil => simp [trimLast, trimAccount, trim_trimEnd]
      | cons y ys =>
          have hl : trimLast (x :: y :: ys) = x :: trimLast (y :: ys) := rfl
          rw [hl, List.map_cons, ih]
          rfl

theorem trimLast_ne_nil (accs : List Account) (h : accs ≠ []) : trimLast accs ≠ [] := by
  cases accs with
  | nil => exact absurd rfl h
  | cons x xs =>
      cases xs with
      | nil => simp [trimLast]
      | cons y ys =>
          have hl : trimLast (x :: y :: ys) = x :: trimLast (y :: ys) := rfl
          rw [hl]
          simp

theorem trimFirst_ne_nil (accs : List Account) (h : accs ≠ []) : trimFirst accs ≠ [] := by
  cases accs with
  | nil => exact absurd rfl h
  | cons x xs => simp [trimFirst]

/-- C6 as stated fails: the identifier `a-` and the secret `b` hold no newline
and no `'----'`, yet the line `a-----b` is read as identifier `a` and secret
`-b`; and the account `a--`, `--b` is dropped. -/
theorem parseAccounts_dash_counterexample :
    PlainField (utf16 "a-") ∧ PlainField (utf16 "b") ∧
    parseAccounts (joinLines ([(⟨utf16 "a-", utf16 "b"⟩ : Account)].map accountLine)) =
      [⟨utf16 "a", utf16 "-b"⟩] ∧
    parseAccounts (joinLines ([(⟨utf16 "a-", utf16 "b"⟩ : Account)].map accountLine)) ≠
      [(⟨utf16 "a-", utf16 "b"⟩ : Account)].map trimAccount ∧
    PlainField (utf16 "a--") ∧ PlainField (utf16 "--b") ∧
    parseAccounts (joinLines ([(⟨utf16 "a--", utf16 "--b"⟩ : Account)].map accountLine)) = [] := by
  unfold PlainField
  decide

/-- C6 amended: for every non-empty sequence of accounts whose identifiers and
secrets hold no newline and no `'----'` and whose identifiers do not end with
`'-'`, parsing the lines `identifier----secret` joined by a newline yields
exactly these accounts, in input order, each with identifier and secret
trimmed. -/
theorem parseAccounts_joinLines (accs : List Account) (hne : accs ≠ [])
    (h : ∀ a ∈ accs, PlainField a.username ∧ PlainField a.password ∧
      a.username.getLast? ≠ some 45) :
    parseAccounts (joinLines (accs.map accountLine)) = accs.map trimAccount := by
  have hgood : ∀ a ∈ trimLast (trimFirst accs), GoodAccount a :=
    goodAccount_trimLast _ (goodAccount_trimFirst _ h)
  unfold parseAccounts trim
  rw [trimStart_joinLines, trimEnd_joinLines,
    split_joinLines _ (by simpa using trimLast_ne_nil _ (trimFirst_ne_nil _ hne))
      (by
        intro l hl
        obtain ⟨a, ha, rfl⟩ := List.mem_map.mp hl
        exact (goodAccount_line a (hgood a ha)).1),
    filterMap_parseLine _ hgood, map_trimAccount_trimLast, map_trimAccount_trimFirst]

/-- C6 amended, witness: the account string `a@x.com----p1\nb@x.com----p2`
yields the two accounts in input order. -/
theorem parseAccounts_joinLines_witness :
    joinLines ([sampleAccount, otherAccount].map accountLine) =
      utf16 "a@x.com----p1\nb@x.com----p2" ∧
    parseAccounts (joinLines ([sampleAccount, otherAccount].map accountLine)) =
      [⟨utf16 "a@x.com", utf16 "p1"⟩, ⟨utf16 "b@x.com", utf16 "p2"⟩] :=
  ⟨by decide, parseAccounts_joinLines [sampleAccount, otherAccount] (by decide)
    (by unfold PlainField; decide)⟩

/-! ## Theorems: the browser is closed once per cycle -/

theorem readCaptcha_page (env : Env W) (u p : JsStr) (a m : Nat) (s : St W) :
    ∀ e ∈ (readCaptcha env u p a m s).events, isPageEvent e = true := by
  simp only [readCaptcha]
  repeat' (first | split | simp only [bind_run, call_run, log_run, pure_run, raise_run])
  all_goals simp [isPageEvent]

theorem submitLogin_page (env : Env W) (u : JsStr) (a : Nat) (code : JsStr) (s : St W) :
    ∀ e ∈ (submitLogin env u a code s).events, isPageEvent e = true := by
  simp only [submitLogin]
  repeat' (first | split | simp only [bind_run, call_run, log_run, pure_run, raise_run])
  all_goals simp [isPageEvent]

theorem attemptStep_page (env : Env W) (u p : JsStr) (a m : Nat) (s : St W) :
    ∀ e ∈ (attemptStep env u p a m s).events, isPageEvent e = true := by
  have h1 := readCaptcha_page env u p a m s
  have htry : ∀ e ∈ (attemptTry env u p a m s).events, isPageEvent e = true := by
    simp only [attemptTry, bind_run]
    cases (readCaptcha env u p a m s).out with
    | error x => exact h1
    | ok code =>
        by_cases hcode : code = []
        · intro e he
          simp only [hcode, if_true, bind_run, log_run, delay_run, pure_run, Run.prepend_events,
            List.mem_append] at he
          rcases he with he | he
          · exact h1 e he
          · simp at he
            rcases he with rfl | rfl <;> rfl
        · intro e he
          simp only [hcode, if_false, Run.prepend_events, List.mem_append] at he
          rcases he with he | he
          · exact h1 e he
          · exact submitLogin_page env u a code _ e he
  simp only [attemptStep, tryCatch_run]
  cases (attemptTry env u p a m s).out with
  | ok _ => exact htry
  | error x =>
      intro e he
      simp only [attemptCatch, bind_run, log_run, pure_run, Run.prepend_events,
        List.mem_append] at he
      rcases he with he | he
      · exact htry e he
      · simp at he
        subst he
        rfl

theorem backoff_page (env : Env W) (a m : Nat) (s : St W) :
    ∀ e ∈ (backoff env a m s).events, isPageEvent e = true := by
  unfold backoff
  split <;> simp [bind_run, randomInt_run, log_run, delay_run, pure_run, isPageEvent]

/-- Every event of `loginWithRetry` is console output, a call on the page or
the OCR worker, or a wait. -/
theorem loginLoop_page (env : Env W) (u p : JsStr) (m n : Nat) (s : St W) :
    ∀ e ∈ (loginLoop env u p m n s).events, isPageEvent e = true := by
  induction n generalizing s with
  | zero => simp [loginLoop, pure_run]
  | succ n ih =>
      have h1 := attemptStep_page env u p (m - n) m s
      simp only [loginLoop, bind_run]
      cases (attemptStep env u p (m - n) m s).out with
      | error x => exact h1
      | ok flow =>
          cases flow with
          | return_ v =>
              intro e he
              simp only [pure_run, Run.prepend_events, List.append_nil] at he
              exact h1 e he
          | continue_ =>
              intro e he
              simp only [Run.prepend_events, List.mem_append] at he
              rcases he with he | he
              · exact h1 e he
              · exact ih _ e he
          | next =>
              intro e he
              simp only [Run.prepend_events, List.mem_append, bind_run,
                (backoff_spec env (m - n) m _).1] at he
              rcases he with he | he | he
              · exact h1 e he
              · exact backoff_page env _ _ _ e he
              · exact ih _ e he

theorem countP_isClose_of_page (es : List Event) (h : ∀ e ∈ es, isPageEvent e = true) :
    es.countP isClose = 0 := by
  rw [List.countP_eq_zero]
  intro e he
  have := h e he
  cases e <;> simp_all [isPageEvent, isClose]

/-- Between the launch and the closing of a browser cycle nothing closes the
browser. -/
theorem cycleTry_no_close (env : Env W) (u p : JsStr) (c : Nat) (result : LoginResult)
    (s : St W) :
    (Js.tryCatch (cycleTry env u p) (cycleCatch u c result) s).events.countP isClose = 0 := by
  have hloop : ∀ s1, (loginLoop env u p 3 3 s1).events.countP isClose = 0 :=
    fun s1 => countP_isClose_of_page _ (loginLoop_page env u p 3 3 s1)
  have htry : (cycleTry env u p s).events.countP isClose = 0 := by
    simp only [cycleTry, bind_run, call_run, loginWithRetry]
    cases (env.newContext s.world).1 with
    | error x => rfl
    | ok _ =>
        simp only []
        cases (env.newPage (env.newContext s.world).2).1 with
        | error x => rfl
        | ok _ =>
            simp only [Run.prepend_events, List.countP_append, hloop]
            rfl
  rw [tryCatch_run]
  cases (cycleTry env u p s).out with
  | ok _ => exact htry
  | error x =>
      simp only [cycleCatch_run, Run.prepend_events, List.countP_append, htry]
      rfl

/-- C12: in every browser cycle whose launch succeeded, `browser.close()` is
called exactly once, as the last action of the cycle, whatever the rest of the
cycle does (success or failure of `loginWithRetry`, a throw while creating the
context or the page). -/
theorem browserCycle_closes_once (env : Env W) (username password : JsStr) (restartCycle : Nat)
    (result : LoginResult) (s : St W) (h : (env.launch s.world).1 = .ok ()) :
    (browserCycle env username password restartCycle result s).events.countP isClose = 1 ∧
    (browserCycle env username password restartCycle result s).events.getLast? = some .close := by
  simp only [browserCycle, bind_run, attempt_run, call_run, h, Run.prepend_events]
  rw [tryFinally_run]
  simp only [call_run]
  have hc := cycleTry_no_close env username password restartCycle result
    { world := (env.launch s.world).2, notificationSummary := s.notificationSummary }
  constructor
  · split <;>
      · simp only [List.countP_append, hc]
        rfl
  · split <;> exact List.getLast?_concat (Event.launch :: _)

/-- C12, witness: the first cycle of the sample account in the simulated
environment. -/
theorem browserCycle_closes_once_witness :
    ((simEnv 0 true true (utf16 "ab12")).launch sampleState.world).1 = .ok () ∧
    (browserCycle (simEnv 0 true true (utf16 "ab12")) sampleAccount.username
      sampleAccount.password 1 ⟨false, []⟩ sampleState).events.countP isClose = 1 :=
  ⟨rfl, (browserCycle_closes_once _ _ _ 1 ⟨false, []⟩ sampleState rfl).1⟩

/-- A browser cycle whose launch throws closes nothing. -/
theorem browserCycle_launch_failed (env : Env W) (username password : JsStr) (restartCycle : Nat)
    (result : LoginResult) (s : St W) (x : JsStr) (h : (env.launch s.world).1 = .error x) :
    (browserCycle env username password restartCycle result s).events.countP isClose = 0 := by
  simp only [browserCycle, bind_run, attempt_run, call_run, h, cycleCatch_run, Run.prepend_events]
  rfl

/-! ## Theorems: the IP gate and the account configuration -/

/-- The start of `main` does no account work and leaves the report alone. -/
theorem startDelay_spec (env : Env W) (s : St W) :
    (startDelay env s).out = .ok () ∧
    (startDelay env s).events.countP isAccountWork = 0 ∧
    (startDelay env s).state.notificationSummary = s.notificationSummary := by
  simp only [startDelay, bind_run, log_run, randomInt_run]
  split <;> simp [bind_run, log_run, delay_run, pure_run, isAccountWork]

/-- The run of `checkIPLocation`, by the outcome of the lookup. -/
theorem checkIPLocation_run (env : Env W) (s : St W) :
    checkIPLocation env s =
      match (env.ipLookup s.world).1 with
      | .error x =>
          ⟨.ok false, [.log (.other 70), .httpGet "http://ip-api.com/json", .log (.other 85)],
            { world := (env.ipLookup s.world).2,
              notificationSummary := s.notificationSummary ++
                (utf16 "📍 **IP检测**: `❌ 检测失败, " ++ x ++ utf16 "`\n") }⟩
      | .ok (countryCode, query) =>
          if countryCode = utf16 "CN" then
            ⟨.ok true, [.log (.other 70), .httpGet "http://ip-api.com/json", .log (.other 76)],
              { world := (env.ipLookup s.world).2,
                notificationSummary := s.notificationSummary ++
                  (utf16 "📍 **IP检测**: `✅ 检测通过, " ++
                    (utf16 "当前IP: " ++ query ++ utf16 ", 国家: " ++ countryCode) ++ utf16 "`\n") }⟩
          else
            ⟨.ok false, [.log (.other 70), .httpGet "http://ip-api.com/json", .log (.other 80)],
              { world := (env.ipLookup s.world).2,
                notificationSummary := s.notificationSummary ++
                  (utf16 "📍 **IP检测**: `❌ 检测不通过, " ++
                    (utf16 "当前IP: " ++ query ++ utf16 ", 国家: " ++ countryCode) ++ utf16 "`\n") }⟩ := by
  simp only [checkIPLocation, bind_run, log_run, tryCatch_run, call_run]
  cases h : (env.ipLookup s.world).1 with
  | error x => simp [bind_run, log_run, appendSummary_run, pure_run, Run.prepend]
  | ok v =>
      obtain ⟨countryCode, query⟩ := v
      by_cases hc : countryCode = utf16 "CN"
      · simp [hc, bind_run, log_run, appendSummary_run, pure_run, Run.prepend]
      · simp [hc, bind_run, log_run, appendSummary_run, pure_run, Run.prepend]

theorem crossMark_mem_failed (x : JsStr) :
    0x274C ∈ utf16 "📍 **IP检测**: `❌ 检测失败, " ++ x ++ utf16 "`\n" :=
  List.mem_append_left _ (List.mem_append_left _ (by decide))

theorem crossMark_mem_rejected (x : JsStr) :
    0x274C ∈ utf16 "📍 **IP检测**: `❌ 检测不通过, " ++ x ++ utf16 "`\n" :=
  List.mem_append_left _ (List.mem_append_left _ (by decide))

/-- `checkIPLocation` never throws, does no account work, only appends to the
report, and what it appends on a `false` holds the mark `❌`. -/
theorem checkIPLocation_spec (env : Env W) (s : St W) :
    ((checkIPLocation env s).out = .ok true ∨ (checkIPLocation env s).out = .ok false) ∧
    (checkIPLocation env s).events.countP isAccountWork = 0 ∧
    ∃ text, (checkIPLocation env s).state.notificationSummary = s.notificationSummary ++ text ∧
      ((checkIPLocation env s).out = .ok false → 0x274C ∈ text) := by
  rw [checkIPLocation_run]
  cases (env.ipLookup s.world).1 with
  | error x => exact ⟨Or.inr rfl, rfl, _, rfl, fun _ => crossMark_mem_failed x⟩
  | ok v =>
      obtain ⟨countryCode, query⟩ := v
      by_cases hc : countryCode = utf16 "CN"
      · simp only []
        rw [if_pos hc]
        exact ⟨Or.inl rfl, rfl, _, rfl, fun h => by cases h⟩
      · simp only []
        rw [if_neg hc]
        exact ⟨Or.inr rfl, rfl, _, rfl, fun _ => crossMark_mem_rejected _⟩

/-- `main` as its start, the IP check and the rest. -/
theorem main_run (env : Env W) (s : St W) :
    main env s =
      match (checkIPLocation env (startDelay env s).state).out with
      | .ok false =>
          ⟨.ok (), (startDelay env s).events ++
              (checkIPLocation env (startDelay env s).state).events,
            (checkIPLocation env (startDelay env s).state).state⟩
      | .ok true =>
          (mainAfterGate env (checkIPLocation env (startDelay env s).state).state).prepend
            ((startDelay env s).events ++ (checkIPLocation env (startDelay env s).state).events)
      | .error x =>
          ⟨.error x, (startDelay env s).events ++
              (checkIPLocation env (startDelay env s).state).events,
            (checkIPLocation env (startDelay env s).state).state⟩ := by
  have hmain : main env s = (startDelay env >>= fun _ => checkIPLocation env >>= fun passed =>
      if (!passed) = true then pure () else mainAfterGate env) s := by
    simp only [main, startDelay, bind_run, log_run, randomInt_run]
    split <;> simp [bind_run, log_run, delay_run, pure_run, Run.prepend]
  rw [hmain, bind_ok _ _ _ _ (startDelay_spec env s).1, bind_run]
  cases (checkIPLocation env (startDelay env s).state).out with
  | error x => simp [Run.prepend]
  | ok b => cases b <;> simp [Run.prepend, pure_run]

/-- C19: `checkIPLocation` returns `true` exactly when the lookup completed
and its `countryCode` is `'CN'`, and `false` otherwise (also when the lookup
failed); whenever it returns `false`, `main` returns right after it: its run is
its start followed by the check, it does no account work, and it does not
depend on the account configuration. -/
theorem ip_gate (env : Env W) (s : St W) :
    ((checkIPLocation env s).out = .ok true ↔
      ∃ query, (env.ipLookup s.world).1 = .ok (utf16 "CN", query)) ∧
    ((checkIPLocation env s).out = .ok true ∨ (checkIPLocation env s).out = .ok false) ∧
    ((checkIPLocation env (startDelay env s).state).out = .ok false →
      main env s =
        ⟨.ok (), (startDelay env s).events ++
            (checkIPLocation env (startDelay env s).state).events,
          (checkIPLocation env (startDelay env s).state).state⟩ ∧
      (main env s).events.countP isAccountWork = 0 ∧
      ∀ g, main { env with getenv := g } s = main env s) := by
  refine ⟨?_, (checkIPLocation_spec env s).1, ?_⟩
  · rw [checkIPLocation_run]
    cases h : (env.ipLookup s.world).1 with
    | error x => simp
    | ok v =>
        obtain ⟨countryCode, query⟩ := v
        by_cases hc : countryCode = utf16 "CN"
        · simp [hc]
        · simp [hc]
  · intro h
    have hrun := main_run env s
    rw [h] at hrun
    refine ⟨hrun, ?_, ?_⟩
    · rw [hrun]
      simp only [List.countP_append, (startDelay_spec env s).2.1,
        (checkIPLocation_spec env _).2.1]
    · intro g
      have hrun2 := main_run { env with getenv := g } s
      have hs : startDelay { env with getenv := g } s = startDelay env s := rfl
      have hc : ∀ s1, checkIPLocation { env with getenv := g } s1 = checkIPLocation env s1 :=
        fun _ => rfl
      rw [hs, hc, h] at hrun2
      rw [hrun2, hrun]

/-- C19, witness: an exit address outside China. -/
theorem ip_gate_witness :
    (checkIPLocation abroadEnv (startDelay abroadEnv sampleState).state).out = .ok false ∧
    (main abroadEnv sampleState).events.countP isAccountWork = 0 ∧
    (main abroadEnv sampleState).events =
      [.log (.other 149), .log (.other 70), .httpGet "http://ip-api.com/json", .log (.other 80)] :=
  have h : (checkIPLocation abroadEnv (startDelay abroadEnv sampleState).state).out = .ok false := by
    decide!
  ⟨h, ((ip_gate abroadEnv sampleState).2.2 h).2.1, by decide!⟩

/-! ## Theorems: a configuration without accounts -/

theorem parseLine_none (line : JsStr) (h : (split line (utf16 "----")).length ≠ 2) :
    parseLine line = none := by
  unfold parseLine
  split
  · rename_i p0 p1 heq
    rw [heq] at h
    exact absurd rfl h
  · rfl

theorem parseAccounts_nil (str : JsStr) (h : noAccountLine (some str)) :
    parseAccounts str = [] := by
  unfold parseAccounts
  rw [List.filterMap_eq_nil_iff]
  intro line hl
  exact parseLine_none line (h line hl)

theorem crossMark_mem_unset :
    0x274C ∈ utf16 "❌ **错误**: 环境变量 `IDC_ACCOUNTS` 未设置。" := by decide

theorem crossMark_mem_invalid :
    0x274C ∈ utf16 "❌ **错误**: 解析 `IDC_ACCOUNTS` 后未得到有效账号。" := by decide

/-- Without an account line the part of `main` behind the IP gate only
records an error. -/
theorem mainAfterGate_blocked (env : Env W) (s : St W)
    (h : noAccountLine (env.getenv "IDC_ACCOUNTS" s.world)) :
    (mainAfterGate env s).out = .ok () ∧
    (mainAfterGate env s).events.countP isAccountWork = 0 ∧
    ∃ text, 0x274C ∈ text ∧
      (mainAfterGate env s).state.notificationSummary = s.notificationSummary ++ text := by
  unfold mainAfterGate
  cases hv : env.getenv "IDC_ACCOUNTS" s.world with
  | none => exact ⟨rfl, rfl, _, crossMark_mem_unset, rfl⟩
  | some str =>
      cases str with
      | nil => exact ⟨rfl, rfl, _, crossMark_mem_unset, rfl⟩
      | cons c cs =>
          rw [hv] at h
          have hp := parseAccounts_nil (c :: cs) h
          simp only [hp, List.length_nil, if_true]
          exact ⟨rfl, rfl, _, crossMark_mem_invalid, rfl⟩

/-- C11 (failing input): the value `----` of `IDC_ACCOUNTS` has no line with a
non-empty identifier and a non-empty secret, yet `main` creates the OCR worker,
launches a browser and attempts a login (with empty identifier and secret). -/
theorem main_accepts_empty_credentials :
    ¬ hasCredentialLine (utf16 "----") ∧
    (main (accountsEnv (some (utf16 "----"))) sampleState).events.countP
      (fun e => e == Event.createWorker) = 1 ∧
    (main (accountsEnv (some (utf16 "----"))) sampleState).events.countP
      (fun e => e == Event.launch) = 1 ∧
    attempts (main (accountsEnv (some (utf16 "----"))) sampleState).events = 1 ∧
    (main (accountsEnv (some (utf16 "----"))) sampleState).events.countP
      (fun e => e == Event.fill "#inputEmail" []) = 1 := by
  refine ⟨?_, by decide!⟩
  rintro ⟨identifier, secret, h1, _, hmem⟩
  have hs : split (utf16 "----") (utf16 "\n") = [utf16 "----"] := by decide
  rw [hs, List.mem_singleton] at hmem
  have hlen := congrArg List.length hmem
  rw [dashes_eq] at hlen
  simp only [List.length_append, List.length_cons, List.length_nil] at hlen
  have : identifier.length = 0 := by omega
  exact h1 (List.length_eq_zero.mp this)

/-- If `IDC_ACCOUNTS` is unset or empty, or none of its lines splits at
`'----'` into exactly two parts, `main` returns before any account is
processed (no OCR worker, no browser, no login attempt) and the report has
grown by a text that holds the error mark `❌`. -/
theorem main_without_accounts (env : Env W) (s : St W)
    (h : ∀ w, noAccountLine (env.getenv "IDC_ACCOUNTS" w)) :
    (main env s).out = .ok () ∧
    (main env s).events.countP isAccountWork = 0 ∧
    ∃ text, 0x274C ∈ text ∧
      (main env s).state.notificationSummary = s.notificationSummary ++ text := by
  obtain ⟨-, d2, d3⟩ := startDelay_spec env s
  obtain ⟨c1, c2, text1, c3, c4⟩ := checkIPLocation_spec env (startDelay env s).state
  rw [main_run]
  rcases c1 with hc | hc
  · obtain ⟨g1, g2, text2, g3, g4⟩ :=
      mainAfterGate_blocked env (checkIPLocation env (startDelay env s).state).state (h _)
    rw [hc]
    simp only [Run.prepend_out, Run.prepend_events, Run.prepend_state, List.countP_append,
      d2, c2, g2]
    refine ⟨g1, trivial, text1 ++ text2, List.mem_append_right _ g3, ?_⟩
    rw [g4, c3, d3, List.append_assoc]
  · rw [hc]
    simp only [List.countP_append, d2, c2]
    exact ⟨trivial, trivial, text1, c4 hc, by rw [c3, d3]⟩

/-- Two examples for `main_without_accounts`: `IDC_ACCOUNTS` is unset, or
holds a line without `'----'`. -/
theorem main_without_accounts_witness :
    (∀ w : Nat, noAccountLine ((accountsEnv (some (utf16 "a@x.com"))).getenv "IDC_ACCOUNTS" w)) ∧
    (main (accountsEnv (some (utf16 "a@x.com"))) sampleState).events.countP isAccountWork = 0 ∧
    (main (accountsEnv none) sampleState).events.countP isAccountWork = 0 :=
  have h1 : ∀ w : Nat,
      noAccountLine ((accountsEnv (some (utf16 "a@x.com"))).getenv "IDC_ACCOUNTS" w) := by
    intro w
    show ∀ line ∈ split (trim (utf16 "a@x.com")) (utf16 "\n"), _
    decide
  ⟨h1, (main_without_accounts _ sampleState h1).2.1,
    (main_without_accounts (accountsEnv none) sampleState (fun _ => trivial)).2.1⟩

/-! ## Theorems: the ArcticCloud notification and credentials -/

/-- The text of line 305 has at most `MAX_LENGTH = 4096` code units for every
message, and it is the message itself whenever the message has at most 4096
code units. -/
theorem arctic_text_bounded (message : JsStr) :
    (ArcticCloud.truncatedMessage message).length ≤ ArcticCloud.MAX_LENGTH ∧
    ArcticCloud.MAX_LENGTH = 4096 ∧
    (message.length ≤ 4096 → ArcticCloud.truncatedMessage message = message) := by
  unfold ArcticCloud.truncatedMessage
  refine ⟨?_, rfl, ?_⟩
  · split
    · rename_i h
      have hm : (utf16 "\n...日志过长...").length = 11 := by decide
      rw [List.length_append, substring0, List.length_take, hm]
      simp only [ArcticCloud.MAX_LENGTH] at h ⊢
      omega
    · rename_i h
      exact Nat.le_of_not_gt h
  · intro h
    rw [if_neg]
    simp only [ArcticCloud.MAX_LENGTH]
    omega

/-- With both Telegram variables set, the first event of `sendTgNotify` is
the post of the payload whose text is `truncatedMessage message`. -/
theorem sendTgNotify_posts {W : Type} (env : ArcticCloud.Env W) (message : JsStr) (w : W)
    (t1 t2 : JsStr) (c1 c2 : Nat)
    (h1 : env.getenv "TG_BOT_TOKEN" w = some (c1 :: t1))
    (h2 : env.getenv "TG_USER_ID" w = some (c2 :: t2)) :
    (ArcticCloud.sendTgNotify env message w).events.head? =
      some (.httpPost (ArcticCloud.truncatedMessage message)) := by
  unfold ArcticCloud.sendTgNotify
  simp only [h1, h2, tryCatch_run, bind_run]
  cases (env.telegramPost (ArcticCloud.truncatedMessage message) w).1 with
  | error e => simp [Js.emit, Run.prepend]
  | ok a =>
      obtain ⟨b, d⟩ := a
      cases b <;> simp [Js.emit, Run.prepend]

/-- The Telegram posts of `sendTgNotify`: one post, of the text of line 305,
when both variables are set, and none otherwise. -/
theorem sendTgNotify_postedTexts {W : Type} (env : ArcticCloud.Env W) (message : JsStr) (w : W) :
    postedTexts (ArcticCloud.sendTgNotify env message w).events =
      if ArcticCloud.configured env w then [ArcticCloud.truncatedMessage message] else [] := by
  have hposted : postedTexts
      (Js.tryCatch
        (do
          let result ← (fun w1 =>
            match env.telegramPost (ArcticCloud.truncatedMessage message) w1 with
            | (o, w2) =>
                (⟨o, [.httpPost (ArcticCloud.truncatedMessage message)], w2⟩ :
                  Run W (Bool × JsStr)))
          if result.1 then Js.emit (.log (.other 323)) else Js.emit (.log (.other 325)))
        (fun _ => Js.emit (.log (.other 328))) w).events =
      [ArcticCloud.truncatedMessage message] := by
    simp only [tryCatch_run, bind_run]
    cases (env.telegramPost (ArcticCloud.truncatedMessage message) w).1 with
    | error e => simp [Js.emit, Run.prepend, postedTexts]
    | ok a =>
        obtain ⟨b, d⟩ := a
        cases b <;> simp [Js.emit, Run.prepend, postedTexts]
  unfold ArcticCloud.sendTgNotify ArcticCloud.configured
  rcases h1 : env.getenv "TG_BOT_TOKEN" w with _ | (_ | ⟨c1, t1⟩) <;>
    rcases h2 : env.getenv "TG_USER_ID" w with _ | (_ | ⟨c2, t2⟩) <;>
    first | exact hposted | rfl

/-- C20: for every message and every state of the collaborators, each text
that `sendTgNotify` posts has at most `MAX_LENGTH = 4096` code units and is the
message itself whenever the message has at most 4096 code units; with both
Telegram variables set `sendTgNotify` posts exactly once, the text of line 305,
and otherwise it posts nothing. -/
theorem sendTgNotify_text_bounded {W : Type} (env : ArcticCloud.Env W) (message : JsStr)
    (w : W) :
    ArcticCloud.MAX_LENGTH = 4096 ∧
    (∀ text ∈ postedTexts (ArcticCloud.sendTgNotify env message w).events,
      text.length ≤ 4096 ∧ (message.length ≤ 4096 → text = message)) ∧
    postedTexts (ArcticCloud.sendTgNotify env message w).events =
      (if ArcticCloud.configured env w then [ArcticCloud.truncatedMessage message] else []) := by
  refine ⟨rfl, ?_, sendTgNotify_postedTexts env message w⟩
  intro text htext
  rw [sendTgNotify_postedTexts] at htext
  split at htext
  · rw [List.mem_singleton] at htext
    subst htext
    exact ⟨(arctic_text_bounded message).1, (arctic_text_bounded message).2.2⟩
  · cases htext

/-- C20, an example: a message of 5000 code units is posted once, as a text
of 4092 code units. -/
theorem sendTgNotify_text_bounded_witness :
    ArcticCloud.configured ArcticCloud.simEnv 0 = true ∧
    postedTexts
        (ArcticCloud.sendTgNotify ArcticCloud.simEnv (List.replicate 5000 97) 0).events =
      [ArcticCloud.truncatedMessage (List.replicate 5000 97)] ∧
    (ArcticCloud.truncatedMessage (List.replicate 5000 97)).length = 4092 ∧
    ∀ text ∈ postedTexts
        (ArcticCloud.sendTgNotify ArcticCloud.simEnv (List.replicate 5000 97) 0).events,
      text.length ≤ 4096 ∧ ((List.replicate 5000 97).length ≤ 4096 → text = List.replicate 5000 97) :=
  have hc : ArcticCloud.configured ArcticCloud.simEnv 0 = true := by decide
  have hlen : (ArcticCloud.truncatedMessage (List.replicate 5000 97)).length = 4092 := by
    have hm : (utf16 "\n...日志过长...").length = 11 := by decide
    unfold ArcticCloud.truncatedMessage
    rw [if_pos (by rw [List.length_replicate]; decide), List.length_append, substring0,
      List.length_take, List.length_replicate, hm]
    decide
  ⟨hc, (sendTgNotify_text_bounded ArcticCloud.simEnv (List.replicate 5000 97) 0).2.2.trans
      (if_pos hc), hlen,
    (sendTgNotify_text_bounded ArcticCloud.simEnv (List.replicate 5000 97) 0).2.1⟩

/-- C18, at the failing input: for the user name `admin` and the password
`pa:ss` the value of `ARCTICCLOUD_TOKEN` is `admin:pa:ss`; the script takes
`pa` as the password and sends it in the login request. -/
theorem credentials_cut_password (encodeURIComponent : JsStr → JsStr) :
    utf16 "admin" ++ utf16 ":" ++ utf16 "pa:ss" = utf16 "admin:pa:ss" ∧
    ArcticCloud.credentials (utf16 "admin:pa:ss") = some (utf16 "admin", utf16 "pa") ∧
    ArcticCloud.loginRequest encodeURIComponent (utf16 "admin:pa:ss") =
      some (ArcticCloud.loginBody encodeURIComponent (utf16 "admin") (utf16 "pa")) := by
  have h : ArcticCloud.credentials (utf16 "admin:pa:ss") = some (utf16 "admin", utf16 "pa") := by
    decide
  refine ⟨by decide, h, ?_⟩
  unfold ArcticCloud.loginRequest
  rw [h]
  rfl

/-- For a user name and a password without `':'`, both non-empty, the script
logs in with exactly that user name and that password. -/
theorem credentials_without_colon (encodeURIComponent : JsStr → JsStr) (username password : JsStr)
    (hu : username ≠ []) (hp : password ≠ []) (hcu : 58 ∉ username) (hcp : 58 ∉ password) :
    ArcticCloud.loginRequest encodeURIComponent (username ++ utf16 ":" ++ password) =
      some (ArcticCloud.loginBody encodeURIComponent username password) := by
  have hc : utf16 ":" = [58] := by decide
  have hno : ∀ (l t : JsStr), 58 ∉ l → ∀ a1 a2, l = a1 ++ a2 → a2 ≠ [] → ¬ [58] <+: a2 ++ t := by
    intro l t hl a1 a2 h1 h2 hpre
    cases a2 with
    | nil => exact h2 rfl
    | cons x xs =>
        rw [List.cons_append, List.cons_prefix_cons] at hpre
        apply hl
        rw [h1, hpre.1]
        simp
  have hsplit : split (username ++ utf16 ":" ++ password) (utf16 ":") = [username, password] := by
    rw [hc]
    unfold split
    rw [List.append_assoc, splitGo_nomatch _ username _ [] (hno username _ hcu),
      splitGo_match 58 [] password, splitGo_none _ password []]
    · simp
    · rintro ⟨a, b, hab⟩
      exact hcp (by rw [← hab]; simp)
  unfold ArcticCloud.loginRequest ArcticCloud.credentials
  rw [hsplit]
  simp [hu, hp]

/-! ## Theorems: `join`, `includes`, decimal numbers -/

theorem includes_unit (s : JsStr) (c : Nat) : includes s [c] = true ↔ c ∈ s := by
  unfold includes
  rw [decide_eq_true_iff]
  constructor
  · rintro ⟨a, b, h⟩
    rw [← h]
    simp
  · intro h
    obtain ⟨a, b, hab⟩ := List.append_of_mem h
    exact ⟨a, b, by rw [hab]; simp⟩

theorem no_unit_match (c : Nat) (l t : JsStr) (hl : c ∉ l) :
    ∀ a1 a2, l = a1 ++ a2 → a2 ≠ [] → ¬ [c] <+: a2 ++ t := by
  intro a1 a2 h1 h2 hpre
  cases a2 with
  | nil => exact h2 rfl
  | cons x xs =>
      rw [List.cons_append, List.cons_prefix_cons] at hpre
      apply hl
      rw [h1, hpre.1]
      simp

theorem unit_not_part (c : Nat) (l : JsStr) (hl : c ∉ l) : ¬ [c] <:+: l := by
  rintro ⟨a, b, hab⟩
  exact hl (by rw [← hab]; simp)

/-- Splitting at a one-unit separator gives back the joined pieces. -/
theorem split_joinWith_unit (c : Nat) (pieces : List JsStr) (hne : pieces ≠ [])
    (h : ∀ l ∈ pieces, c ∉ l) :
    split (joinWith [c] pieces) [c] = pieces := by
  unfold split
  induction pieces with
  | nil => exact absurd rfl hne
  | cons l ls ih =>
      cases ls with
      | nil =>
          simpa [joinWith] using
            splitGo_none [c] l [] (unit_not_part c l (h l (List.mem_cons_self _ _)))
      | cons l2 ls2 =>
          have h2 : ∀ l ∈ l2 :: ls2, c ∉ l := fun x hx => h x (List.mem_cons_of_mem _ hx)
          have ih2 := ih (by simp) h2
          rw [joinWith, List.append_assoc,
            splitGo_nomatch [c] l _ [] (no_unit_match c l _ (h l (List.mem_cons_self _ _))),
            splitGo_match c [] _ _, ih2]
          · simp
          · simp

/-- A string `a c b` splits at `c` into `a` and `b`. -/
theorem split_unit_pair (c : Nat) (a b : JsStr) (ha : c ∉ a) (hb : c ∉ b) :
    split (a ++ [c] ++ b) [c] = [a, b] := by
  unfold split
  rw [List.append_assoc, splitGo_nomatch _ a _ [] (no_unit_match c a _ ha),
    splitGo_match c [] b, splitGo_none _ b [] (unit_not_part c b hb)]
  simp

theorem digitsValue_eq (L : List Nat) :
    digitsValue (L.reverse.map (fun d => d + 48)) = Nat.ofDigits 10 L := by
  unfold digitsValue
  induction L with
  | nil => rfl
  | cons d L ih =>
      rw [List.reverse_cons, List.map_append, List.foldl_append, ih, Nat.ofDigits_cons]
      simp only [List.map_cons, List.map_nil, List.foldl_cons, List.foldl_nil,
        Nat.add_sub_cancel]
      omega

theorem decimalNat_digits (n : Nat) : ∀ c ∈ decimalNat n, isDigit c = true := by
  unfold decimalNat
  split
  · intro c hc
    simp only [List.mem_singleton] at hc
    subst hc
    rfl
  · intro c hc
    simp only [List.mem_map, List.mem_reverse] at hc
    obtain ⟨d, hd, rfl⟩ := hc
    have := Nat.digits_lt_base (by norm_num : 1 < 10) hd
    simp only [isDigit, Bool.and_eq_true, decide_eq_true_eq]
    omega

theorem decimalNat_ne_nil (n : Nat) : decimalNat n ≠ [] := by
  unfold decimalNat
  split
  · simp
  · rename_i h
    simpa using (Nat.digits_ne_nil_iff_ne_zero.mpr h)

theorem decimalNat_value (n : Nat) : digitsValue (decimalNat n) = n := by
  unfold decimalNat
  split
  · rename_i h
    subst h
    rfl
  · rw [digitsValue_eq, Nat.ofDigits_digits]

theorem parseDigits_decimalNat (n : Nat) : parseDigits (decimalNat n) = some n := by
  unfold parseDigits
  rw [List.takeWhile_eq_self_iff.mpr (decimalNat_digits n)]
  cases h : decimalNat n with
  | nil => exact absurd h (decimalNat_ne_nil n)
  | cons d ds =>
      simp only []
      rw [← h, decimalNat_value]

theorem isDigit_props (c : Nat) (h : isDigit c = true) :
    isJsWhitespace c = false ∧ c ≠ 45 ∧ c ≠ 43 ∧ c ≠ 44 ∧ c ≠ 58 := by
  simp only [isDigit, Bool.and_eq_true, decide_eq_true_eq] at h
  refine ⟨?_, by omega, by omega, by omega, by omega⟩
  simp only [isJsWhitespace, Bool.or_eq_false_iff, Bool.and_eq_false_iff, beq_eq_false_iff_ne,
    decide_eq_false_iff_not]
  omega

/-- The code units of a decimal writing are digits or the minus sign. -/
theorem decimal_units (i : Int) : ∀ c ∈ decimal i, isDigit c = true ∨ c = 45 := by
  unfold decimal
  split
  · intro c hc
    rcases List.mem_cons.mp hc with rfl | hc
    · exact Or.inr rfl
    · exact Or.inl (decimalNat_digits _ c hc)
  · intro c hc
    exact Or.inl (decimalNat_digits _ c hc)

theorem decimal_ne_nil (i : Int) : decimal i ≠ [] := by
  unfold decimal
  split
  · simp
  · exact decimalNat_ne_nil _

theorem decimal_plain (i : Int) :
    44 ∉ decimal i ∧ 58 ∉ decimal i ∧ ∀ c ∈ decimal i, isJsWhitespace c = false := by
  refine ⟨fun h => ?_, fun h => ?_, fun c hc => ?_⟩
  · rcases decimal_units i 44 h with h1 | h1
    · exact (isDigit_props 44 h1).2.2.2.1 rfl
    · exact absurd h1 (by decide)
  · rcases decimal_units i 58 h with h1 | h1
    · exact (isDigit_props 58 h1).2.2.2.2 rfl
    · exact absurd h1 (by decide)
  · rcases decimal_units i c hc with h1 | h1
    · exact (isDigit_props c h1).1
    · subst h1
      rfl

theorem excessBits_small (fuel n : Nat) (h : n < 2 ^ 53) : excessBits fuel n = 0 := by
  cases fuel with
  | zero => rfl
  | succ k =>
      unfold excessBits
      rw [if_pos h]

/-- Below `2 ^ 53` the conversion to a double keeps the number. -/
theorem toNumber_small (n : Nat) (h : n < 2 ^ 53) : toNumber n = n := by
  have hkey : (if 2 * (n % 2 ^ 0) > 2 ^ 0 ∨ (2 * (n % 2 ^ 0) = 2 ^ 0 ∧ n / 2 ^ 0 % 2 = 1)
      then n / 2 ^ 0 + 1 else n / 2 ^ 0) * 2 ^ 0 = n := by
    simp [Nat.mod_one]
  have hpow : ∀ k, 53 ≤ k → (2 : Nat) ^ 53 ≤ 2 ^ k :=
    fun k hk => Nat.pow_le_pow_right (Nat.le_succ 1) hk
  have hle := Nat.le_trans (Nat.le_of_lt h) (hpow 1024 (by decide))
  unfold toNumber
  rw [excessBits_small n n h]
  show min _ _ = n
  rw [hkey]
  exact Nat.min_eq_left hle

/-- `parseInt` reads back the decimal writing of an integer below `2 ^ 53` in
absolute value. -/
theorem parseInt10_decimal (i : Int) (hb : i.natAbs < 2 ^ 53) :
    parseInt10 (decimal i) = some i := by
  unfold parseInt10
  rw [trimStart_of_noWs _ (decimal_plain i).2.2]
  by_cases hneg : i < 0
  · have hdec : decimal i = 45 :: decimalNat i.natAbs := by
      unfold decimal
      rw [if_pos hneg]
    rw [hdec]
    simp only [parseDigits_decimalNat, Option.map_some', toNumber_small _ hb]
    congr 1
    simp only [Int.ofNat_eq_coe]
    omega
  · have hdec : decimal i = decimalNat i.natAbs := by
      unfold decimal
      rw [if_neg hneg]
    rw [hdec]
    cases hd : decimalNat i.natAbs with
    | nil => exact absurd hd (decimalNat_ne_nil _)
    | cons d ds =>
        have hdig : isDigit d = true := decimalNat_digits i.natAbs d (by rw [hd]; simp)
        obtain ⟨-, h45, h43, -, -⟩ := isDigit_props d hdig
        have hp := parseDigits_decimalNat i.natAbs
        rw [hd] at hp
        split
        · rename_i rest heq
          exact absurd (List.cons.inj heq).1 h45
        · rename_i rest heq
          exact absurd (List.cons.inj heq).1 h43
        · rw [hp]
          simp only [Option.map_some', toNumber_small _ hb]
          congr 1
          simp only [Int.ofNat_eq_coe]
          omega
/-! ## Theorems: `parseVpsList` -/

/-- One pair `ID:name` with a plain, non-blank name adds the identifier and
the trimmed name. -/
theorem parsePair_entry (acc : ArcticCloud.VpsList) (id : Int) (name : JsStr)
    (hb : id.natAbs < 2 ^ 53) (hn : trim name ≠ []) (hc : 58 ∉ name) :
    ArcticCloud.parsePair acc (decimal id ++ utf16 ":" ++ name) =
      ⟨(id, trim name) :: acc.VPS_NAME, acc.VPS_IDS ++ [id]⟩ := by
  have hcolon : utf16 ":" = [58] := by decide
  have hname : name ≠ [] := by
    intro h
    rw [h] at hn
    exact hn rfl
  unfold ArcticCloud.parsePair
  rw [hcolon, split_unit_pair 58 _ _ (decimal_plain id).2.1 hc]
  simp only [ne_eq, decimal_ne_nil, not_false_eq_true, hname, and_self, if_true]
  rw [trim_of_noWs _ (decimal_plain id).2.2, parseInt10_decimal id hb]

theorem foldl_parsePair (entries : List (Int × JsStr)) (acc : ArcticCloud.VpsList)
    (h : ∀ e ∈ entries, e.1.natAbs < 2 ^ 53 ∧ trim e.2 ≠ [] ∧ 58 ∉ e.2) :
    (entries.map (fun e => decimal e.1 ++ utf16 ":" ++ e.2)).foldl ArcticCloud.parsePair acc =
      ⟨(entries.map (fun e => (e.1, trim e.2))).reverse ++ acc.VPS_NAME,
        acc.VPS_IDS ++ entries.map Prod.fst⟩ := by
  induction entries generalizing acc with
  | nil => simp
  | cons e rest ih =>
      obtain ⟨h0, h1, h2⟩ := h e (List.mem_cons_self _ _)
      rw [List.map_cons, List.foldl_cons, parsePair_entry acc e.1 e.2 h0 h1 h2,
        ih _ (fun x hx => h x (List.mem_cons_of_mem _ hx))]
      simp

/-- Looking up an identifier that occurs once finds its name. -/
theorem nameOf_reverse (pairs : List (Int × JsStr)) (hd : (pairs.map Prod.fst).Nodup)
    (e : Int × JsStr) (he : e ∈ pairs) :
    ArcticCloud.nameOf pairs.reverse e.1 = some e.2 := by
  unfold ArcticCloud.nameOf
  induction pairs with
  | nil => cases he
  | cons x rest ih =>
      rw [List.map_cons, List.nodup_cons] at hd
      rw [List.reverse_cons, List.find?_append]
      rcases List.mem_cons.mp he with rfl | hr
      · have hnone : rest.reverse.find? (fun y => y.1 == e.1) = none := by
          rw [List.find?_eq_none]
          intro y hy hy1
          apply hd.1
          rw [List.mem_map]
          exact ⟨y, List.mem_reverse.mp hy, by simpa using hy1⟩
        rw [hnone]
        simp
      · have := ih hd.2 hr
        cases hf : rest.reverse.find? (fun y => y.1 == e.1) with
        | none => rw [hf] at this; cases this
        | some y =>
            rw [hf] at this
            simpa using this

/-- Every identifier pushed to `VPS_IDS` is assigned in `VPS_NAME`. -/
theorem parsePair_keys (acc : ArcticCloud.VpsList) (pair : JsStr)
    (h : ∀ id ∈ acc.VPS_IDS, ∃ name, ArcticCloud.nameOf acc.VPS_NAME id = some name) :
    ∀ id ∈ (ArcticCloud.parsePair acc pair).VPS_IDS,
      ∃ name, ArcticCloud.nameOf (ArcticCloud.parsePair acc pair).VPS_NAME id = some name := by
  unfold ArcticCloud.parsePair
  split
  · rename_i idStr name tail heq
    split
    · split
      · rename_i k hk
        intro id hid
        simp only [List.mem_append, List.mem_singleton] at hid
        by_cases hik : k = id
        · subst hik
          exact ⟨trim name, by simp [ArcticCloud.nameOf]⟩
        · rcases hid with hid | hid
          · obtain ⟨n, hn⟩ := h id hid
            refine ⟨n, ?_⟩
            unfold ArcticCloud.nameOf at hn ⊢
            rw [List.find?_cons_of_neg _ (by simpa using hik)]
            exact hn
          · exact absurd hid.symm hik
      · exact h
    · exact h
  · exact h

theorem foldl_parsePair_keys (pairs : List JsStr) (acc : ArcticCloud.VpsList)
    (h : ∀ id ∈ acc.VPS_IDS, ∃ name, ArcticCloud.nameOf acc.VPS_NAME id = some name) :
    ∀ id ∈ (pairs.foldl ArcticCloud.parsePair acc).VPS_IDS,
      ∃ name, ArcticCloud.nameOf (pairs.foldl ArcticCloud.parsePair acc).VPS_NAME id =
        some name := by
  induction pairs generalizing acc with
  | nil => exact h
  | cons p rest ih => exact ih _ (parsePair_keys acc p h)

theorem parseVpsList_vpsListString (entries : List (Int × JsStr))
    (hb : ∀ e ∈ entries, e.1.natAbs < 2 ^ 53)
    (h : ∀ e ∈ entries, trim e.2 ≠ [] ∧ 44 ∉ e.2 ∧ 58 ∉ e.2) :
    ArcticCloud.parseVpsList (ArcticCloud.vpsListString entries) =
      ⟨(entries.map (fun e => (e.1, trim e.2))).reverse, entries.map Prod.fst⟩ := by
  have hcomma : utf16 "," = [44] := by decide
  have hcolon : utf16 ":" = [58] := by decide
  cases entries with
  | nil => rfl
  | cons e rest =>
      have hpieces : ∀ l ∈ (e :: rest).map (fun e => decimal e.1 ++ utf16 ":" ++ e.2),
          44 ∉ l ∧ includes l (utf16 ":") = true := by
        intro l hl
        obtain ⟨x, hx, rfl⟩ := List.mem_map.mp hl
        obtain ⟨-, h44, -⟩ := h x hx
        constructor
        · rw [hcolon]
          simp only [List.mem_append, List.mem_singleton, not_or]
          exact ⟨⟨(decimal_plain x.1).1, by decide⟩, h44⟩
        · rw [hcolon, includes_unit]
          simp
      have hne : ArcticCloud.vpsListString (e :: rest) ≠ [] := by
        unfold ArcticCloud.vpsListString
        cases rest with
        | nil => simp [joinWith, hcolon]
        | cons e2 r2 => simp [joinWith, hcolon]
      unfold ArcticCloud.parseVpsList
      rw [if_neg hne]
      unfold ArcticCloud.vpsListString
      rw [hcomma, split_joinWith_unit 44 _ (by simp) (fun l hl => (hpieces l hl).1),
        List.filter_eq_self.mpr (fun l hl => (hpieces l hl).2),
        foldl_parsePair _ _ (fun x hx => ⟨hb x hx, (h x hx).1, (h x hx).2.2⟩)]
      simp

/-- C17 (counterexample): the list
`9007199254740993:big,9007199254740992:twin` has two distinct decimal
identifiers and plain names, yet `parseVpsList` returns `2 ^ 53` twice in
`VPS_IDS`, not the identifiers as written, and `VPS_NAME` keeps the name `twin`
alone under that key. -/
theorem parseVpsList_rounds_large_ids :
    ArcticCloud.vpsListString
        [(9007199254740993, utf16 "big"), (9007199254740992, utf16 "twin")] =
      utf16 "9007199254740993:big,9007199254740992:twin" ∧
    ([(9007199254740993, utf16 "big"), (9007199254740992, utf16 "twin")].map
      (Prod.fst : Int × JsStr → Int)).Nodup ∧
    (ArcticCloud.parseVpsList (utf16 "9007199254740993:big,9007199254740992:twin")).VPS_IDS =
      [9007199254740992, 9007199254740992] ∧
    (ArcticCloud.parseVpsList (utf16 "9007199254740993:big,9007199254740992:twin")).VPS_IDS ≠
      [9007199254740993, 9007199254740992] ∧
    ArcticCloud.nameOf
        (ArcticCloud.parseVpsList
          (utf16 "9007199254740993:big,9007199254740992:twin")).VPS_NAME 9007199254740992 =
      some (utf16 "twin") ∧
    ArcticCloud.nameOf
        (ArcticCloud.parseVpsList
          (utf16 "9007199254740993:big,9007199254740992:twin")).VPS_NAME 9007199254740993 =
      none := by
  have h1 : decimal 9007199254740993 = utf16 "9007199254740993" := by
    unfold decimal decimalNat
    norm_num
    decide
  have h2 : decimal 9007199254740992 = utf16 "9007199254740992" := by
    unfold decimal decimalNat
    norm_num
    decide
  refine ⟨?_, by decide, by decide!, by decide!, by decide!, by decide!⟩
  unfold ArcticCloud.vpsListString
  simp only [List.map, h1, h2, joinWith]
  decide

/-- C17 (amended): for a list `'ID1:name1,ID2:name2,...'` with distinct decimal
integer identifiers below `2 ^ 53` in absolute value and names that are
non-blank and hold neither `','` nor `':'`, `parseVpsList` returns the
identifiers in input order as `VPS_IDS` and a `VPS_NAME` that sends each
identifier to its trimmed name; and for every input string every identifier in
`VPS_IDS` is a key of `VPS_NAME`. -/
theorem parseVpsList_correct (entries : List (Int × JsStr))
    (hd : (entries.map Prod.fst).Nodup)
    (hb : ∀ e ∈ entries, e.1.natAbs < 2 ^ 53)
    (h : ∀ e ∈ entries, trim e.2 ≠ [] ∧ 44 ∉ e.2 ∧ 58 ∉ e.2) :
    (ArcticCloud.parseVpsList (ArcticCloud.vpsListString entries)).VPS_IDS =
      entries.map Prod.fst ∧
    (∀ e ∈ entries,
      ArcticCloud.nameOf
        (ArcticCloud.parseVpsList (ArcticCloud.vpsListString entries)).VPS_NAME e.1 =
        some (trim e.2)) ∧
    ∀ vpsListStr, ∀ id ∈ (ArcticCloud.parseVpsList vpsListStr).VPS_IDS,
      ∃ name, ArcticCloud.nameOf (ArcticCloud.parseVpsList vpsListStr).VPS_NAME id = some name := by
  rw [parseVpsList_vpsListString entries hb h]
  refine ⟨rfl, ?_, ?_⟩
  · intro e he
    have hd2 : ((entries.map (fun e => (e.1, trim e.2))).map Prod.fst).Nodup := by
      simpa [List.map_map, Function.comp_def] using hd
    exact nameOf_reverse _ hd2 (e.1, trim e.2) (List.mem_map.mpr ⟨e, he, rfl⟩)
  · intro vpsListStr
    unfold ArcticCloud.parseVpsList
    split
    · intro id hid
      cases hid
    · exact foldl_parsePair_keys _ _ (fun id hid => by cases hid)

/-- C17 (amended), witness: the list `101:web,202: db ,-7:neg`. -/
theorem parseVpsList_correct_witness :
    ArcticCloud.vpsListString [(101, utf16 "web"), (202, utf16 " db "), (-7, utf16 "neg")] =
      utf16 "101:web,202: db ,-7:neg" ∧
    (ArcticCloud.parseVpsList
      (ArcticCloud.vpsListString
        [(101, utf16 "web"), (202, utf16 " db "), (-7, utf16 "neg")])).VPS_IDS =
      [101, 202, -7] :=
  ⟨by decide!, (parseVpsList_correct [(101, utf16 "web"), (202, utf16 " db "), (-7, utf16 "neg")]
    (by decide) (by decide) (by decide)).1⟩

/-! ## Theorems: the Aliyun sign-in script -/

/-- The flag of line 38 is on exactly when the variable, unset and empty read
as `false`, is `false` in lower case. -/
theorem showTokenInNotification_iff (value : Option JsStr) :
    Aliyun.showTokenInNotification value = true ↔
      toLowerCase (envOr value (utf16 "false")) = utf16 "false" := by
  unfold Aliyun.showTokenInNotification
  exact beq_iff_eq

/-- With a new refresh token, the message ends with the token line and the
time line exactly when the flag is on and privacy mode is off. -/
theorem buildNotificationMessage_token (privacy showToken : Bool) (this : Aliyun.AliYun)
    (isSuccess : Bool) (now : JsStr) (htoken : this.newRefreshToken ≠ []) :
    ((showToken && !privacy) = true →
      (utf16 "\n  新 Token: " ++ this.newRefreshToken) ++ (utf16 "\n⏰ 时间: " ++ now) <:+
        Aliyun.buildNotificationMessage privacy showToken this isSuccess now) ∧
    ((showToken && !privacy) = false →
      Aliyun.buildNotificationMessage privacy showToken this isSuccess now =
        Aliyun.buildNotificationMessage true false this isSuccess now) := by
  constructor
  · intro h
    simp only [Aliyun.buildNotificationMessage, h, htoken, if_true, ne_eq, not_false_eq_true]
    exact ⟨_, (List.append_assoc _ _ _).symm⟩
  · intro h
    simp only [Aliyun.buildNotificationMessage, h, htoken, if_true, ne_eq, not_false_eq_true]
    simp

/-- C13 (failing input): with `SHOW_TOKEN_IN_NOTIFICATION` unset and
`PRIVACY_MODE` set to `false`, the flag of line 38 is on and the message of an
object with a new refresh token carries the line with the full token; with the
variable set to `true` the flag is off and the line is left out. -/
theorem unset_variable_shows_token :
    Aliyun.showTokenInNotification none = true ∧
    Aliyun.privacyMode (some (utf16 "false")) = false ∧
    includes
      (Aliyun.notification (some (utf16 "false")) none Aliyun.sampleObject true
        (utf16 "2025/8/25 07:10:00"))
      (utf16 "\n  新 Token: tok123456") = true ∧
    Aliyun.showTokenInNotification (some (utf16 "True")) = false ∧
    includes
      (Aliyun.notification (some (utf16 "false")) (some (utf16 "True")) Aliyun.sampleObject true
        (utf16 "2025/8/25 07:10:00"))
      (utf16 "\n  新 Token: tok123456") = false := by
  decide!

theorem joinSeps_uniform (sep : Nat) (rest : List JsStr) :
    ∀ first, joinSeps first (rest.map (fun t => (sep, t))) = joinWith [sep] (first :: rest) := by
  induction rest with
  | nil => intro first; rfl
  | cons t ts ih =>
      intro first
      rw [List.map_cons, joinSeps, ih t]
      show _ = first ++ [sep] ++ joinWith [sep] (t :: ts)
      simp

theorem not_mem_joinWith (c sep : Nat) (hc : c ≠ sep) (pieces : List JsStr)
    (h : ∀ l ∈ pieces, c ∉ l) : c ∉ joinWith [sep] pieces := by
  induction pieces with
  | nil => simp [joinWith]
  | cons l ls ih =>
      cases ls with
      | nil => simpa [joinWith] using h l (List.mem_cons_self _ _)
      | cons l2 ls2 =>
          rw [joinWith]
          · have h1 := h l (List.mem_cons_self _ _)
            have h2 := ih (fun x hx => h x (List.mem_cons_of_mem _ hx))
            simp only [List.mem_append, List.mem_singleton, not_or]
            exact ⟨⟨h1, hc⟩, h2⟩
          · simp

theorem sep_mem_joinWith (sep : Nat) (a b : JsStr) (rest : List JsStr) :
    sep ∈ joinWith [sep] (a :: b :: rest) := by
  rw [joinWith]
  · simp
  · simp

/-- C14 (counterexample): the value `a`, newline, `b`, `&`, `c` joins three
tokens with separators that are a newline or an `&`, and is parsed into the
two tokens `a` and `b&c`. -/
theorem tokens_mixed_separators :
    joinSeps (utf16 "a") [(10, utf16 "b"), (38, utf16 "c")] = utf16 "a\nb&c" ∧
    Aliyun.tokens (utf16 "a\nb&c") = [utf16 "a", utf16 "b&c"] ∧
    Aliyun.tokens (utf16 "a\nb&c") ≠ [utf16 "a", utf16 "b", utf16 "c"] := by
  decide!

/-- C14 (amended): a non-empty sequence of tokens that are non-blank and
contain neither newline nor `&`, joined with one and the same separator, a
newline throughout or an `&` throughout, is parsed into that sequence, in
order. -/
theorem tokens_uniform_separator (sep : Nat) (first : JsStr) (rest : List JsStr)
    (hsep : sep = 10 ∨ sep = 38)
    (h : ∀ t ∈ first :: rest, trim t ≠ [] ∧ 10 ∉ t ∧ 38 ∉ t) :
    Aliyun.tokens (joinSeps first (rest.map (fun t => (sep, t)))) = first :: rest := by
  have hfilter : (first :: rest).filter (fun t => trim t ≠ []) = first :: rest := by
    rw [List.filter_eq_self]
    intro t ht
    simpa using (h t ht).1
  have h10 : ∀ t ∈ first :: rest, 10 ∉ t := fun t ht => (h t ht).2.1
  have h38 : ∀ t ∈ first :: rest, 38 ∉ t := fun t ht => (h t ht).2.2
  rw [joinSeps_uniform]
  unfold Aliyun.tokens
  have hnl : utf16 "\n" = [10] := by decide
  have hamp : utf16 "&" = [38] := by decide
  rw [hnl, hamp]
  rcases hsep with hs | hs
  · subst hs
    cases rest with
    | nil =>
        have hno : includes (joinWith [10] [first]) [10] = false := by
          rw [Bool.eq_false_iff, ne_eq, includes_unit]
          simpa [joinWith] using h10 first (List.mem_cons_self _ _)
        rw [hno]
        simp only [Bool.false_eq_true, if_false]
        have : joinWith [10] [first] = joinWith [38] [first] := rfl
        rw [this, split_joinWith_unit 38 [first] (by simp) h38, hfilter]
    | cons b bs =>
        have hyes : includes (joinWith [10] (first :: b :: bs)) [10] = true := by
          rw [includes_unit]
          exact sep_mem_joinWith 10 first b bs
        rw [hyes]
        simp only [if_true]
        rw [split_joinWith_unit 10 _ (by simp) h10, hfilter]
  · subst hs
    have hno : includes (joinWith [38] (first :: rest)) [10] = false := by
      rw [Bool.eq_false_iff, ne_eq, includes_unit]
      exact not_mem_joinWith 10 38 (by decide) _ h10
    rw [hno]
    simp only [Bool.false_eq_true, if_false]
    rw [split_joinWith_unit 38 _ (by simp) h38, hfilter]

theorem tokens_uniform_separator_witness :
    (∀ t ∈ utf16 "tokenA" :: [utf16 "tokenB", utf16 "tokenC"],
      trim t ≠ [] ∧ 10 ∉ t ∧ 38 ∉ t) ∧
    Aliyun.tokens (utf16 "tokenA&tokenB&tokenC") =
      [utf16 "tokenA", utf16 "tokenB", utf16 "tokenC"] :=
  ⟨by decide!,
    tokens_uniform_separator 38 (utf16 "tokenA") [utf16 "tokenB", utf16 "tokenC"] (Or.inr rfl)
      (by decide!)⟩

/-! ## Theorems: the Baidu sign-in script -/

/-- The bound of the delay depends on `MAX_RANDOM_DELAY` alone. -/
theorem maxRandomDelay_reads (getenv1 getenv2 : String → Option JsStr)
    (h : getenv1 "MAX_RANDOM_DELAY" = getenv2 "MAX_RANDOM_DELAY") :
    Baidu.maxRandomDelay getenv1 = Baidu.maxRandomDelay getenv2 := by
  unfold Baidu.maxRandomDelay
  rw [h]

/-- With `MAX_RANDOM_DELAY` set to the decimal form of a positive integer
`n` below `2 ^ 53`, the delay is a whole number from `0` to `n - 1`. -/
theorem delay_bounded (getenv : String → Option JsStr) (n : Int) (r : Nat) (d : Int)
    (hn : 0 < n) (hb : n.natAbs < 2 ^ 53)
    (hset : getenv "MAX_RANDOM_DELAY" = some (decimal n))
    (hd : Baidu.delay getenv r = some d) : 0 ≤ d ∧ d < n := by
  have hmax : Baidu.maxRandomDelay getenv = n := by
    unfold Baidu.maxRandomDelay
    rw [hset]
    simp only [parseInt10_decimal n hb]
    rw [if_neg (by omega)]
  unfold Baidu.delay at hd
  rw [hmax] at hd
  split at hd
  · exact absurd hd (by simp)
  · split at hd
    · simp only [Option.some.injEq] at hd
      subst hd
      unfold Baidu.floorRandom
      rw [if_pos hn]
      have hpos : 0 < n.natAbs := by omega
      have hlt := Nat.mod_lt r hpos
      simp only [Int.ofNat_eq_coe]
      omega
    · exact absurd hd (by simp)

/-- Without `BAIDU_COOKIE` the script returns before the delay. -/
theorem delay_without_cookie (getenv : String → Option JsStr) (r : Nat)
    (h : getenv "BAIDU_COOKIE" = none) : Baidu.delay getenv r = none := by
  unfold Baidu.delay Baidu.baiduCookies
  rw [h]
  rfl

/-- C15 (failing input): with `BAIDU_COOKIE` set and `MAX_RAND_DELAY` set to
`10`, the script goes past the cookie check, the bound of line 29 is `300`,
and the random draw `299` gives a delay of `299` seconds, which is not below
`10`; with `MAX_RANDOM_DELAY` set to `10` instead the same draw gives `9`. -/
theorem documented_variable_ignored :
    Baidu.baiduCookies
        (Baidu.envOf [("BAIDU_COOKIE", utf16 "BDUSS=c"), ("MAX_RAND_DELAY", utf16 "10")]) ≠ [] ∧
    Baidu.randomSignIn
        (Baidu.envOf [("BAIDU_COOKIE", utf16 "BDUSS=c"), ("MAX_RAND_DELAY", utf16 "10")]) =
      true ∧
    Baidu.maxRandomDelay
        (Baidu.envOf [("BAIDU_COOKIE", utf16 "BDUSS=c"), ("MAX_RAND_DELAY", utf16 "10")]) =
      300 ∧
    Baidu.delay
        (Baidu.envOf [("BAIDU_COOKIE", utf16 "BDUSS=c"), ("MAX_RAND_DELAY", utf16 "10")]) 299 =
      some 299 ∧
    Baidu.delay
        (Baidu.envOf [("BAIDU_COOKIE", utf16 "BDUSS=c"), ("MAX_RANDOM_DELAY", utf16 "10")]) 299 =
      some 9 := by
  decide!

/-! ## Theorems: the link check -/

section linkCheck

variable {W : Type}

theorem visit_run (env : LinkCheck.Env W) (url : String) (p : LinkCheck.Progress) (w : W) :
    LinkCheck.visit env url p w =
      ⟨.ok ⟨p.resultMessage ++ LinkCheck.entry url (env.get url w).1,
        p.hasFailure || LinkCheck.failed (env.get url w).1⟩, [.httpGet url], (env.get url w).2⟩ := by
  unfold LinkCheck.visit
  rcases env.get url w with ⟨_ | status, w1⟩
  · simp [LinkCheck.entry, LinkCheck.failed]
  · by_cases h : status = 200
    · simp [LinkCheck.entry, LinkCheck.failed, h]
    · simp [LinkCheck.entry, LinkCheck.failed, h]

theorem visitAll_run (env : LinkCheck.Env W) (urls : List String) :
    ∀ (p : LinkCheck.Progress) (w : W),
      (LinkCheck.visitAll env urls p w).out =
        .ok ⟨p.resultMessage ++ LinkCheck.report urls (LinkCheck.outcomes env urls w),
          p.hasFailure || (LinkCheck.outcomes env urls w).any LinkCheck.failed⟩ ∧
      LinkCheck.posts (LinkCheck.visitAll env urls p w).events = [] := by
  induction urls with
  | nil =>
      intro p w
      simp [LinkCheck.visitAll, pure_run, LinkCheck.report, LinkCheck.outcomes, LinkCheck.posts]
  | cons url rest ih =>
      intro p w
      simp only [LinkCheck.visitAll, bind_run, visit_run, Run.prepend_out, Run.prepend_events]
      obtain ⟨h1, h2⟩ := ih
        ⟨p.resultMessage ++ LinkCheck.entry url (env.get url w).1,
          p.hasFailure || LinkCheck.failed (env.get url w).1⟩ (env.get url w).2
      refine ⟨?_, ?_⟩
      · rw [h1]
        simp [LinkCheck.report, LinkCheck.outcomes, Bool.or_assoc]
      · unfold LinkCheck.posts at h2 ⊢
        rw [List.filter_append, h2]
        simp

theorem outcomes_length (env : LinkCheck.Env W) (urls : List String) :
    ∀ w, (LinkCheck.outcomes env urls w).length = urls.length := by
  induction urls with
  | nil => intro w; rfl
  | cons url rest ih => intro w; simp [LinkCheck.outcomes, ih]

theorem sendTelegramMessage_run (env : LinkCheck.Env W) (message : JsStr) (w : W) :
    (LinkCheck.sendTelegramMessage env message w).out = .ok () ∧
    (LinkCheck.sendTelegramMessage env message w).events = [.httpPost message] := by
  unfold LinkCheck.sendTelegramMessage
  rw [tryCatch_run]
  rcases env.post message w with ⟨_ | _, w1⟩ <;> simp [pure_run]

/-- C16: for every list of links and every behaviour of the requests,
`checkUrls` returns; every outcome belongs to one link; the Telegram posts of
the run are one post if some link failed (status other than 200, or a throw)
and none otherwise; and the text of that post is the heading followed by one
entry per link, in list order. -/
theorem checkUrls_notifies_on_failure (env : LinkCheck.Env W) (urls : List String) (w : W) :
    (LinkCheck.checkUrls env urls w).out = .ok () ∧
    (LinkCheck.outcomes env urls w).length = urls.length ∧
    LinkCheck.posts (LinkCheck.checkUrls env urls w).events =
      (if (LinkCheck.outcomes env urls w).any LinkCheck.failed then
        [.httpPost (utf16 "🔍 链接检查结果:\n\n" ++
          LinkCheck.report urls (LinkCheck.outcomes env urls w))]
      else []) := by
  obtain ⟨h1, h2⟩ := visitAll_run env urls ⟨utf16 "🔍 链接检查结果:\n\n", false⟩ w
  refine ⟨?_, outcomes_length env urls w, ?_⟩
  · unfold LinkCheck.checkUrls
    rw [bind_ok _ _ _ _ h1]
    simp only [Bool.false_or, Run.prepend_out]
    split
    · exact (sendTelegramMessage_run env _ _).1
    · rfl
  · unfold LinkCheck.checkUrls
    rw [bind_ok _ _ _ _ h1]
    simp only [Bool.false_or, Run.prepend_events]
    unfold LinkCheck.posts at h2 ⊢
    rw [List.filter_append, h2]
    split
    · rw [(sendTelegramMessage_run env _ _).2]
      rfl
    · rfl

/-- An example run: three links, the second answers 503; one post with three
entries. -/
theorem checkUrls_example :
    LinkCheck.posts (LinkCheck.checkUrls (LinkCheck.simEnv 1) ["链接1", "链接2", "链接3"] 0).events =
      [.httpPost (utf16
        "🔍 链接检查结果:\n\n✅ 链接成功: 链接1\n\n❌ 链接失败: 链接2, 状态码: 503\n\n✅ 链接成功: 链接3\n\n")] ∧
    LinkCheck.posts (LinkCheck.checkUrls (LinkCheck.simEnv 7) ["链接1", "链接2", "链接3"] 0).events =
      [] := by
  decide!

end linkCheck

/-! ## Theorems: the run report only grows -/

section report

variable {α β : Type}

theorem appendOnly_pure (a : α) : AppendOnly (pure a : Js (St W) α) :=
  fun _ => List.prefix_refl _

theorem appendOnly_raise (e : JsStr) : AppendOnly (Js.raise e : Js (St W) α) :=
  fun _ => List.prefix_refl _

theorem appendOnly_log (m : LogMsg) : AppendOnly (log m : Js (St W) Unit) :=
  fun _ => List.prefix_refl _

theorem appendOnly_delay (ms : Nat) : AppendOnly (delay ms : Js (St W) Unit) :=
  fun _ => List.prefix_refl _

theorem appendOnly_call (e : Event) (op : W → Except JsStr α × W) : AppendOnly (call e op) :=
  fun _ => List.prefix_refl _

theorem appendOnly_randomInt (env : Env W) (n : Nat) : AppendOnly (randomInt env n) :=
  fun _ => List.prefix_refl _

theorem appendOnly_appendSummary (text : JsStr) :
    AppendOnly (appendSummary text : Js (St W) Unit) :=
  fun s => List.prefix_append s.notificationSummary text

theorem appendOnly_bind (m : Js (St W) α) (f : α → Js (St W) β) (hm : AppendOnly m)
    (hf : ∀ a, AppendOnly (f a)) : AppendOnly (m >>= f) := by
  intro s
  rw [bind_run]
  cases h : (m s).out with
  | error e => exact hm s
  | ok a => exact (hm s).trans (hf a (m s).state)

theorem appendOnly_tryCatch (m : Js (St W) α) (h : JsStr → Js (St W) α) (hm : AppendOnly m)
    (hh : ∀ e, AppendOnly (h e)) : AppendOnly (Js.tryCatch m h) := by
  intro s
  rw [tryCatch_run]
  cases hout : (m s).out with
  | error e => exact (hm s).trans (hh e (m s).state)
  | ok a => exact hm s

theorem appendOnly_tryFinally (m : Js (St W) α) (fin : Js (St W) Unit) (hm : AppendOnly m)
    (hfin : AppendOnly fin) : AppendOnly (Js.tryFinally m fin) := by
  intro s
  rw [tryFinally_run]
  cases hout : (fin (m s).state).out with
  | error e => exact (hm s).trans (hfin (m s).state)
  | ok a => exact (hm s).trans (hfin (m s).state)

theorem appendOnly_attempt (m : Js (St W) α) (hm : AppendOnly m) :
    AppendOnly (Js.attempt m) := by
  intro s
  rw [attempt_run]
  exact hm s

theorem appendOnly_readCaptcha (env : Env W) (username password : JsStr)
    (attempt maxRetries : Nat) :
    AppendOnly (readCaptcha env username password attempt maxRetries) := by
  unfold readCaptcha
  repeat' (first
    | assumption
    | with_reducible exact appendOnly_pure _
    | with_reducible exact appendOnly_raise _
    | with_reducible exact appendOnly_log _
    | with_reducible exact appendOnly_delay _
    | with_reducible exact appendOnly_call _ _
    | with_reducible exact appendOnly_randomInt _ _
    | with_reducible exact appendOnly_appendSummary _
    | with_reducible apply appendOnly_bind
    | with_reducible apply appendOnly_tryCatch
    | with_reducible apply appendOnly_tryFinally
    | with_reducible apply appendOnly_attempt
    | with_reducible intro _
    | split)

theorem appendOnly_attemptStep (env : Env W) (username password : JsStr)
    (attempt maxRetries : Nat) :
    AppendOnly (attemptStep env username password attempt maxRetries) := by
  have hread := appendOnly_readCaptcha env username password attempt maxRetries
  unfold attemptStep attemptTry attemptCatch submitLogin
  repeat' (first
    | assumption
    | with_reducible exact appendOnly_pure _
    | with_reducible exact appendOnly_raise _
    | with_reducible exact appendOnly_log _
    | with_reducible exact appendOnly_delay _
    | with_reducible exact appendOnly_call _ _
    | with_reducible exact appendOnly_randomInt _ _
    | with_reducible exact appendOnly_appendSummary _
    | with_reducible apply appendOnly_bind
    | with_reducible apply appendOnly_tryCatch
    | with_reducible apply appendOnly_tryFinally
    | with_reducible apply appendOnly_attempt
    | with_reducible intro _
    | split)

theorem appendOnly_backoff (env : Env W) (attempt maxRetries : Nat) :
    AppendOnly (backoff env attempt maxRetries) := by
  unfold backoff
  repeat' (first
    | assumption
    | with_reducible exact appendOnly_pure _
    | with_reducible exact appendOnly_raise _
    | with_reducible exact appendOnly_log _
    | with_reducible exact appendOnly_delay _
    | with_reducible exact appendOnly_call _ _
    | with_reducible exact appendOnly_randomInt _ _
    | with_reducible exact appendOnly_appendSummary _
    | with_reducible apply appendOnly_bind
    | with_reducible apply appendOnly_tryCatch
    | with_reducible apply appendOnly_tryFinally
    | with_reducible apply appendOnly_attempt
    | with_reducible intro _
    | split)

theorem appendOnly_loginLoop (env : Env W) (username password : JsStr) (maxRetries : Nat) :
    ∀ r, AppendOnly (loginLoop env username password maxRetries r) := by
  intro r
  induction r with
  | zero => exact appendOnly_pure _
  | succ r ih =>
      have hstep := fun attempt => appendOnly_attemptStep env username password attempt maxRetries
      have hback := fun attempt => appendOnly_backoff env attempt maxRetries
      simp only [loginLoop]
      apply appendOnly_bind _ _ (hstep _)
      intro flow
      cases flow with
      | next => exact appendOnly_bind _ _ (hback _) (fun _ => ih)
      | continue_ => exact ih
      | return_ v => exact appendOnly_pure _

theorem appendOnly_browserCycle (env : Env W) (username password : JsStr) (restartCycle : Nat)
    (result : LoginResult) :
    AppendOnly (browserCycle env username password restartCycle result) := by
  have hloop := appendOnly_loginLoop env username password 3 3
  unfold browserCycle cycleTry cycleCatch loginWithRetry
  repeat' (first
    | assumption
    | with_reducible exact appendOnly_pure _
    | with_reducible exact appendOnly_raise _
    | with_reducible exact appendOnly_log _
    | with_reducible exact appendOnly_delay _
    | with_reducible exact appendOnly_call _ _
    | with_reducible exact appendOnly_randomInt _ _
    | with_reducible exact appendOnly_appendSummary _
    | with_reducible apply appendOnly_bind
    | with_reducible apply appendOnly_tryCatch
    | with_reducible apply appendOnly_tryFinally
    | with_reducible apply appendOnly_attempt
    | with_reducible intro _
    | split)

theorem appendOnly_restartLoop (env : Env W) (username password : JsStr) (maxRestarts : Nat) :
    ∀ n result, AppendOnly (restartLoop env username password maxRestarts n result) := by
  intro n
  induction n with
  | zero => intro result; exact appendOnly_pure _
  | succ n ih =>
      intro result
      simp only [restartLoop]
      apply appendOnly_bind _ _ (appendOnly_log _)
      intro _
      apply appendOnly_bind _ _ (appendOnly_browserCycle env username password _ result)
      intro result1
      have hnext := ih result1
      repeat' (first
        | assumption
        | with_reducible exact appendOnly_pure _
        | with_reducible exact appendOnly_raise _
        | with_reducible exact appendOnly_log _
        | with_reducible exact appendOnly_delay _
        | with_reducible exact appendOnly_call _ _
        | with_reducible exact appendOnly_randomInt _ _
        | with_reducible exact appendOnly_appendSummary _
        | with_reducible apply appendOnly_bind
        | with_reducible apply appendOnly_tryCatch
        | with_reducible apply appendOnly_tryFinally
        | with_reducible apply appendOnly_attempt
        | with_reducible intro _
        | split)

theorem appendOnly_loginAccount (env : Env W) (account : Account) :
    AppendOnly (loginAccount env account) :=
  appendOnly_restartLoop env _ _ _ _ _

theorem appendOnly_processAccount (env : Env W) (i total : Nat) (account : Account) :
    AppendOnly (processAccount env i total account) := by
  have hlogin := appendOnly_loginAccount env account
  unfold processAccount
  repeat' (first
    | assumption
    | with_reducible exact appendOnly_pure _
    | with_reducible exact appendOnly_raise _
    | with_reducible exact appendOnly_log _
    | with_reducible exact appendOnly_delay _
    | with_reducible exact appendOnly_call _ _
    | with_reducible exact appendOnly_randomInt _ _
    | with_reducible exact appendOnly_appendSummary _
    | with_reducible apply appendOnly_bind
    | with_reducible apply appendOnly_tryCatch
    | with_reducible apply appendOnly_tryFinally
    | with_reducible apply appendOnly_attempt
    | with_reducible intro _
    | split)

theorem appendOnly_accountsLoop (env : Env W) (total : Nat) :
    ∀ accounts i, AppendOnly (accountsLoop env total i accounts) := by
  intro accounts
  induction accounts with
  | nil => intro i; exact appendOnly_pure _
  | cons account rest ih =>
      intro i
      simp only [accountsLoop]
      exact appendOnly_bind _ _ (appendOnly_processAccount env i total account)
        (fun _ => ih (i + 1))

theorem appendOnly_runAccounts (env : Env W) (accounts : List Account) :
    AppendOnly (runAccounts env accounts) := by
  have hloop := appendOnly_accountsLoop env accounts.length accounts 0
  unfold runAccounts
  repeat' (first
    | assumption
    | with_reducible exact appendOnly_pure _
    | with_reducible exact appendOnly_raise _
    | with_reducible exact appendOnly_log _
    | with_reducible exact appendOnly_delay _
    | with_reducible exact appendOnly_call _ _
    | with_reducible exact appendOnly_randomInt _ _
    | with_reducible exact appendOnly_appendSummary _
    | with_reducible apply appendOnly_bind
    | with_reducible apply appendOnly_tryCatch
    | with_reducible apply appendOnly_tryFinally
    | with_reducible apply appendOnly_attempt
    | with_reducible intro _)

theorem appendOnly_checkIPLocation (env : Env W) : AppendOnly (checkIPLocation env) := by
  unfold checkIPLocation
  repeat' (first
    | assumption
    | with_reducible exact appendOnly_pure _
    | with_reducible exact appendOnly_raise _
    | with_reducible exact appendOnly_log _
    | with_reducible exact appendOnly_delay _
    | with_reducible exact appendOnly_call _ _
    | with_reducible exact appendOnly_randomInt _ _
    | with_reducible exact appendOnly_appendSummary _
    | with_reducible apply appendOnly_bind
    | with_reducible apply appendOnly_tryCatch
    | with_reducible apply appendOnly_tryFinally
    | with_reducible apply appendOnly_attempt
    | with_reducible intro _
    | split)

theorem appendOnly_gated (env : Env W) (accounts : List Account) :
    AppendOnly (do
      log (.other 179)
      log (.other 181)
      call .createWorker env.createWorker
      call .setParameters env.setParameters
      log (.other 189)
      runAccounts env accounts : Js (St W) Unit) := by
  have hrun := appendOnly_runAccounts env accounts
  repeat' (first
    | assumption
    | with_reducible exact appendOnly_pure _
    | with_reducible exact appendOnly_raise _
    | with_reducible exact appendOnly_log _
    | with_reducible exact appendOnly_delay _
    | with_reducible exact appendOnly_call _ _
    | with_reducible exact appendOnly_randomInt _ _
    | with_reducible exact appendOnly_appendSummary _
    | with_reducible apply appendOnly_bind
    | with_reducible apply appendOnly_tryCatch
    | with_reducible apply appendOnly_tryFinally
    | with_reducible apply appendOnly_attempt
    | with_reducible intro _)

theorem appendOnly_mainAfterGate (env : Env W) : AppendOnly (mainAfterGate env) := by
  intro s
  unfold mainAfterGate
  have hlog : ∀ (line : Nat) (text : JsStr),
      AppendOnly (do log (.other line); appendSummary text : Js (St W) Unit) :=
    fun _ _ => appendOnly_bind _ _ (appendOnly_log _) (fun _ => appendOnly_appendSummary _)
  split
  · exact hlog _ _ s
  · exact hlog _ _ s
  · split
    · exact hlog _ _ s
    · exact appendOnly_gated env _ s

theorem appendOnly_startDelay (env : Env W) : AppendOnly (startDelay env) := by
  unfold startDelay
  repeat' (first
    | assumption
    | with_reducible exact appendOnly_pure _
    | with_reducible exact appendOnly_raise _
    | with_reducible exact appendOnly_log _
    | with_reducible exact appendOnly_delay _
    | with_reducible exact appendOnly_call _ _
    | with_reducible exact appendOnly_randomInt _ _
    | with_reducible exact appendOnly_appendSummary _
    | with_reducible apply appendOnly_bind
    | with_reducible apply appendOnly_tryCatch
    | with_reducible apply appendOnly_tryFinally
    | with_reducible apply appendOnly_attempt
    | with_reducible intro _
    | split)

theorem appendOnly_main (env : Env W) : AppendOnly (main env) := by
  have hcheck := appendOnly_checkIPLocation env
  have hgate := appendOnly_mainAfterGate env
  unfold main
  repeat' (first
    | assumption
    | with_reducible exact appendOnly_pure _
    | with_reducible exact appendOnly_raise _
    | with_reducible exact appendOnly_log _
    | with_reducible exact appendOnly_delay _
    | with_reducible exact appendOnly_call _ _
    | with_reducible exact appendOnly_randomInt _ _
    | with_reducible exact appendOnly_appendSummary _
    | with_reducible apply appendOnly_bind
    | with_reducible apply appendOnly_tryCatch
    | with_reducible apply appendOnly_tryFinally
    | with_reducible apply appendOnly_attempt
    | with_reducible intro _
    | split)

theorem appendOnly_sendTgNotification (env : Env W) (message : JsStr) :
    AppendOnly (sendTgNotification env message) := by
  intro s
  unfold sendTgNotification
  split
  · exact appendOnly_log _ s
  · exact appendOnly_tryCatch _ _
      (appendOnly_bind _ _ (appendOnly_call _ _) (fun _ => appendOnly_log _))
      (fun _ => appendOnly_log _) s

theorem appendOnly_script (env : Env W) : AppendOnly (script env) := by
  intro s
  unfold script
  rw [tryFinally_run]
  have h1 := appendOnly_main env s
  have h2 := appendOnly_sendTgNotification env (main env s).state.notificationSummary
    (main env s).state
  split <;> exact h1.trans h2

/-- C21: the run report is append-only.  The statement
`notificationSummary += text` puts the text behind the previous value, and
from every state the value of `notificationSummary` before is a prefix of its
value after `checkIPLocation`, after the IP check inside `main`, after `main`
(which also extends the value reached after the IP check), after the part of
`main` behind the IP check, after the account loop, after the processing of
one account, and after the whole script. -/
theorem report_append_only (env : Env W) (s : St W) :
    (∀ text : JsStr,
      (appendSummary text s).state.notificationSummary = s.notificationSummary ++ text) ∧
    s.notificationSummary <+: (checkIPLocation env s).state.notificationSummary ∧
    s.notificationSummary <+:
      (checkIPLocation env (startDelay env s).state).state.notificationSummary ∧
    (checkIPLocation env (startDelay env s).state).state.notificationSummary <+:
      (main env s).state.notificationSummary ∧
    s.notificationSummary <+: (main env s).state.notificationSummary ∧
    s.notificationSummary <+: (mainAfterGate env s).state.notificationSummary ∧
    (∀ accounts : List Account,
      s.notificationSummary <+: (runAccounts env accounts s).state.notificationSummary) ∧
    (∀ (i total : Nat) (account : Account),
      s.notificationSummary <+:
        (processAccount env i total account s).state.notificationSummary) ∧
    s.notificationSummary <+: (script env s).state.notificationSummary := by
  refine ⟨fun _ => rfl, appendOnly_checkIPLocation env s,
    (appendOnly_startDelay env s).trans (appendOnly_checkIPLocation env _), ?_,
    appendOnly_main env s, appendOnly_mainAfterGate env s,
    fun accounts => appendOnly_runAccounts env accounts s,
    fun i total account => appendOnly_processAccount env i total account s,
    appendOnly_script env s⟩
  rw [main_run]
  cases (checkIPLocation env (startDelay env s).state).out with
  | error x => exact List.prefix_refl _
  | ok passed =>
      cases passed with
      | false => exact List.prefix_refl _
      | true => exact appendOnly_mainAfterGate env _

/-- An example run: abroad, the report after `main` is the initial report
followed by the line of the IP check. -/
theorem report_example :
    (main abroadEnv ⟨0, initialSummary⟩).state.notificationSummary =
      initialSummary ++ utf16 "📍 **IP检测**: `❌ 检测不通过, 当前IP: 8.8.8.8, 国家: US`\n" := by
  decide!

end report
end Qinglong
